import Mathlib

/-!
# Time/charge drawing pad (`TQPad`) of the LArSoft event display

A shallow embedding of `lareventdisplay/EventDisplay/TQPad.cxx`.

* `double` values are taken in exact arithmetic and modelled by `ℚ`.
* `int` values are `Int`; where the source computes with machine integers the
  wrap-around is explicit (`wrapInt32`, `toSizeT`), and the conversion of a `double`
  to `int` is bounded to 32 bits (`truncToInt`).
* Objects of the graphics library (histograms, polylines, boxes, the pad and the
  2D view) are records; a pointer that may be null is an `Option`.
* Services, drawers and extraction tools whose code lives outside `TQPad.cxx`
  are parameters, collected in `Env`.
* `TQPad.Draw` returns `none` where the source would dereference a null
  pointer or index a vector out of bounds.
-/

namespace evd

/-! ## Constants of `TQPad.cxx` -/

abbrev kRAW : Int := 0
abbrev kCALIB : Int := 1
abbrev kRAWCALIB : Int := 2
abbrev kQ : Int := 0
abbrev kTQ : Int := 1

/-- Colour index `kRed` of the graphics library. -/
abbrev kRed : Int := 632
/-- Colour index `kOrange` of the graphics library. -/
abbrev kOrange : Int := 800
/-- Colour index `kBlue` of the graphics library. -/
abbrev kBlue : Int := 600

/-! ## Machine integers -/

/-- Value of an `int` expression: two's complement wrap-around to 32 bits. -/
def wrapInt32 (z : Int) : Int := (z + 2 ^ 31) % 2 ^ 32 - 2 ^ 31

/-- Conversion of an integer expression to `size_t`: reduction modulo `2^64`. -/
def toSizeT (z : Int) : Nat := (z % 2 ^ 64).toNat

/-- The integer is representable as an `int` (32 bits, two's complement). -/
def IsInt32 (z : Int) : Prop := -2 ^ 31 ≤ z ∧ z < 2 ^ 31

instance (z : Int) : Decidable (IsInt32 z) := by
  unfold IsInt32
  infer_instance

/-- The value truncated toward zero, as a mathematical integer. -/
def truncToZero (x : ℚ) : Int := Int.tdiv x.num x.den

/-- Conversion `(int)x` of a `double` to the 32-bit `int`: truncation toward zero when
the truncated value is representable; outside that range the conversion is undefined
in the language, and the model takes the value the machine's conversion instruction
yields, `-2^31`. -/
def truncToInt (x : ℚ) : Int :=
  if IsInt32 (truncToZero x) then truncToZero x else -2 ^ 31

/-! ## Histogram buffers -/

/-- Axis selector of the styling calls (`"X"` or `"Y"`). -/
inductive AxisSel where
  | X
  | Y
deriving DecidableEq, Repr

/-- Styling attributes of one axis; `none` is the library default. -/
structure AxisAttr where
  labelSize : Option ℚ
  labelOffset : Option ℚ
  titleSize : Option ℚ
  titleOffset : Option ℚ
  tickLength : Option ℚ
deriving DecidableEq, Repr

/-- Axis attributes of a freshly constructed histogram. -/
def AxisAttr.default : AxisAttr := ⟨none, none, none, none, none⟩

/-- Modelled from the spec: the histogram buffer `TH1F` of the graphics library
("an ordered sequence of (bin, value) over a tick axis"), whose declaration is
not part of the repository.  It records the bin count and axis range it was
constructed with, one value per bin, the explicitly set minimum and maximum
(`none` when unset) and the styling attributes. -/
structure TH1F where
  name : String
  title : String
  nbins : Int
  xlow : ℚ
  xup : ℚ
  contents : List ℚ
  fMinimum : Option ℚ
  fMaximum : Option ℚ
  xattr : AxisAttr
  yattr : AxisAttr
  lineColor : Option Int
  lineWidth : Option Int
deriving DecidableEq, Repr

namespace TH1F

/-- Constructor `TH1F(name, title, nbins, xlow, xup)`: all bins empty, no minimum or
maximum set. -/
def new (name title : String) (nbins : Int) (xlow xup : ℚ) : TH1F :=
  { name := name, title := title, nbins := nbins, xlow := xlow, xup := xup,
    contents := List.replicate nbins.toNat 0,
    fMinimum := none, fMaximum := none,
    xattr := AxisAttr.default, yattr := AxisAttr.default,
    lineColor := none, lineWidth := none }

def SetMaximum (h : TH1F) (v : ℚ) : TH1F := { h with fMaximum := some v }

def SetMinimum (h : TH1F) (v : ℚ) : TH1F := { h with fMinimum := some v }

/-- Largest bin value (`0` for a buffer without bins). -/
def binMaximum (h : TH1F) : ℚ :=
  match h.contents with
  | [] => 0
  | c :: cs => cs.foldl max c

/-- Smallest bin value (`0` for a buffer without bins). -/
def binMinimum (h : TH1F) : ℚ :=
  match h.contents with
  | [] => 0
  | c :: cs => cs.foldl min c

/-- The set maximum if there is one, else the largest bin value. -/
def GetMaximum (h : TH1F) : ℚ :=
  match h.fMaximum with
  | some v => v
  | none => h.binMaximum

/-- The set minimum if there is one, else the smallest bin value. -/
def GetMinimum (h : TH1F) : ℚ :=
  match h.fMinimum with
  | some v => v
  | none => h.binMinimum

/-- Call `Reset("ICEM")`: bin values are zeroed and the set minimum and maximum
are dropped; axis and styling stay. -/
def Reset (h : TH1F) : TH1F :=
  { h with contents := List.replicate h.contents.length 0,
           fMinimum := none, fMaximum := none }

/-- Index of the bin holding `x`, when `x` lies inside the axis range. -/
def FindBin (h : TH1F) (x : ℚ) : Option Nat :=
  if h.xlow ≤ x ∧ x < h.xup then
    some (Rat.floor ((x - h.xlow) * h.nbins / (h.xup - h.xlow))).toNat
  else none

/-- Call `Fill(x, w)`: adds the weight `w` to the bin holding `x`; a value outside
the axis range changes no displayed bin. -/
def Fill (h : TH1F) (x w : ℚ) : TH1F :=
  match h.FindBin x with
  | some k => { h with contents := h.contents.set k (h.contents.getD k 0 + w) }
  | none => h

/-- A sequence of `Fill` calls. -/
def FillAll (h : TH1F) (samples : List (ℚ × ℚ)) : TH1F :=
  samples.foldl (fun acc s => acc.Fill s.1 s.2) h

def SetLabelSize (h : TH1F) (v : ℚ) : AxisSel → TH1F
  | .X => { h with xattr := { h.xattr with labelSize := some v } }
  | .Y => { h with yattr := { h.yattr with labelSize := some v } }

def SetLabelOffset (h : TH1F) (v : ℚ) : AxisSel → TH1F
  | .X => { h with xattr := { h.xattr with labelOffset := some v } }
  | .Y => { h with yattr := { h.yattr with labelOffset := some v } }

def SetTitleSize (h : TH1F) (v : ℚ) : AxisSel → TH1F
  | .X => { h with xattr := { h.xattr with titleSize := some v } }
  | .Y => { h with yattr := { h.yattr with titleSize := some v } }

def SetTitleOffset (h : TH1F) (v : ℚ) : AxisSel → TH1F
  | .X => { h with xattr := { h.xattr with titleOffset := some v } }
  | .Y => { h with yattr := { h.yattr with titleOffset := some v } }

def SetTickLength (h : TH1F) (v : ℚ) : AxisSel → TH1F
  | .X => { h with xattr := { h.xattr with tickLength := some v } }
  | .Y => { h with yattr := { h.yattr with tickLength := some v } }

def SetLineColor (h : TH1F) (c : Int) : TH1F := { h with lineColor := some c }

def SetLineWidth (h : TH1F) (w : Int) : TH1F := { h with lineWidth := some w }

end TH1F

/-! ## Drawable primitives, the 2D view and the pad -/

/-- Polyline of the graphics library: `n` points with colour, width and style. -/
structure TPolyLine where
  n : Nat
  color : Int
  width : Int
  style : Int
  points : List (ℚ × ℚ)
deriving DecidableEq, Repr

/-- Box of the graphics library with its fill attributes (`none`: library default). -/
structure TBox where
  x1 : ℚ
  y1 : ℚ
  x2 : ℚ
  y2 : ℚ
  fillStyle : Option Int
  fillColor : Option Int
deriving DecidableEq, Repr

def TBox.SetFillStyle (b : TBox) (s : Int) : TBox := { b with fillStyle := some s }

def TBox.SetFillColor (b : TBox) (c : Int) : TBox := { b with fillColor := some c }

/-- Modelled from the spec: the 2D view container `evdb::View2D` ("accepts appended
polylines and boxes"), whose code is not part of the repository. -/
structure View2D where
  fPolyLineL : List TPolyLine
  fBoxL : List TBox
deriving DecidableEq, Repr

/-- Fitted hit function (`TF1`) produced by the hit drawer tool. -/
structure TF1 where
  id : Nat
deriving DecidableEq, Repr

/-- The three histogram buffers of the pad. -/
inductive HistRef where
  | frame
  | raw
  | reco
deriving DecidableEq, Repr

/-- One `Draw` call recorded in the list of primitives of the pad. -/
inductive Drawn where
  | hist (h : HistRef) (opt : String)
  | polyline (p : TPolyLine) (opt : String)
  | box (b : TBox)
  | rawDigitTool (opt : String)
  | wireTool (opt : String)
  | hitFunc (f : TF1) (opt : String)
deriving DecidableEq, Repr

/-- The pad of the graphics library: margins and the list of drawn primitives. -/
structure TPad where
  leftMargin : Option ℚ
  rightMargin : Option ℚ
  topMargin : Option ℚ
  bottomMargin : Option ℚ
  primitives : List Drawn
deriving DecidableEq, Repr

def TPad.Clear (p : TPad) : TPad := { p with primitives := [] }

def TPad.draw (p : TPad) (d : Drawn) : TPad := { p with primitives := p.primitives ++ [d] }

def View2D.AddPolyLine (v : View2D) (p : TPolyLine) : View2D :=
  { v with fPolyLineL := v.fPolyLineL ++ [p] }

def View2D.AddBox (v : View2D) (b : TBox) : View2D :=
  { v with fBoxL := v.fBoxL ++ [b] }

/-! ## Services, drawers and tools (parameters of the pad) -/

/-- Signal type of a plane (`geo::SigType_t`). -/
inductive SigType where
  | kInduction
  | kCollection
  | kMysteryType
deriving DecidableEq, Repr

/-- Colour scale: the value-to-colour lookup `GetColor`. -/
structure ColorScale where
  GetColor : ℚ → Int

/-- Modelled from the spec: the colour options service ("per-signal-type (low, high,
divisions) pairs for raw and calibrated charge, and a value→color lookup function
per signal type and per raw/calibrated kind"), whose declaration is not part of the
repository. -/
structure ColorDrawingOptions where
  fRawQLow : SigType → ℚ
  fRawQHigh : SigType → ℚ
  fRecoQLow : SigType → ℚ
  fRecoQHigh : SigType → ℚ
  fRawDiv : SigType → Int
  fRecoDiv : SigType → Int
  RawQ : SigType → ColorScale
  CalQ : SigType → ColorScale

/-- Raw drawing options service: display mode and active detector region. -/
structure RawDrawingOptions where
  fDrawRawDataOrCalibWires : Int
  fTPC : Nat
  fCryostat : Nat
  CurrentTPC : Nat × Nat

/-- Geometry service. -/
structure Geometry where
  Nplanes : Nat
  SignalType : (Nat × Nat) × Nat → SigType
  PlaneWireToChannel : Nat → Nat → Nat → Nat → Nat

/-- The parallel arrays of fitted-hit records filled by `FillTQHistoDP`. -/
structure HitRecords where
  htau1 : List ℚ
  htau2 : List ℚ
  hamplitudes : List ℚ
  hpeaktimes : List ℚ
  hstartT : List Int
  hendT : List Int
  hNMultiHit : List Int
  hLocalHitIndex : List Int
deriving DecidableEq, Repr

/-- The bound event, as far as the pad looks at it itself: whether the fitted-hit
product `"dprawhit"` is present. -/
structure Event where
  dprawhit : Bool
  id : Nat
deriving DecidableEq, Repr

/-- Raw data drawer: tick window and the `Fill(x, w)` calls that `FillTQHisto` makes
on the buffer handed to it for an event, plane and wire. -/
structure RawDataDrawer where
  StartTick : ℚ
  TotalClockTicks : ℚ
  FillTQHisto : Event → Nat → Nat → List (ℚ × ℚ)

/-- Reconstruction drawer: the `Fill(x, w)` calls and the fitted-hit records that
`FillTQHistoDP` produces for an event, plane and wire, and the fitted pulse shapes. -/
structure RecoBaseDrawer where
  FillTQHistoDP : Event → Nat → Nat → List (ℚ × ℚ) × HitRecords
  EvalExpoFit : ℚ → ℚ → ℚ → ℚ → ℚ → ℚ
  EvalMultiExpoFit : ℚ → Nat → Int → List ℚ → List ℚ → List ℚ → List ℚ → ℚ

/-- Waveform drawer tool: what `Fill` does to the view, and the range it reports
through `getMaximum()` and `getMinimum()` after a `Fill` for a channel and tick
window. -/
structure IWaveformDrawer where
  Fill : View2D → Nat → ℚ → ℚ → View2D
  getMaximum : Nat → ℚ → ℚ → ℚ
  getMinimum : Nat → ℚ → ℚ → ℚ

/-- Hit drawer tool: `Draw(view, hitFuncVec, channel)` updates the view and the
vector of hit functions. -/
structure IWFHitDrawer where
  Draw : View2D → List TF1 → Nat → View2D × List TF1

/-- Everything a draw cycle reads from outside the pad. -/
structure Env where
  evt : Option Event
  drawopt : RawDrawingOptions
  cst : ColorDrawingOptions
  geo : Geometry
  rawDataDraw : RawDataDrawer
  recoBaseDraw : RecoBaseDrawer
  fHitDrawerTool : IWFHitDrawer
  fRawDigitDrawerTool : IWaveformDrawer
  fWireDrawerTool : IWaveformDrawer

/-! ## The pad -/

/-- Exception `cet::exception(category) << message`. -/
structure CetException where
  category : String
  message : String
deriving DecidableEq, Repr

structure TQPad where
  fWire : Nat
  fPlane : Nat
  fTQ : Int
  fFrameHist : Option TH1F
  fRawHisto : Option TH1F
  fRecoHisto : Option TH1F
  fView : View2D
  fHitFuncVec : List TF1
  fPad : TPad
deriving DecidableEq, Repr

/-- Styling block at the end of `BookHistogram` for the frame buffer. -/
def bookStyleFrame (h : TH1F) : TH1F :=
  let h := h.SetLabelSize 0.15 .X
  let h := h.SetLabelOffset 0.00 .X
  let h := h.SetTitleSize 0.15 .X
  let h := h.SetTitleOffset 0.80 .X
  let h := h.SetLabelSize 0.10 .Y
  let h := h.SetLabelOffset 0.01 .Y
  let h := h.SetTitleSize 0.15 .Y
  h.SetTitleOffset 0.80 .Y

/-- Styling block at the end of `BookHistogram` for the raw buffer. -/
def bookStyleRaw (h : TH1F) : TH1F :=
  let h := h.SetLabelSize 0.15 .X
  let h := h.SetLabelOffset 0.00 .X
  let h := h.SetTitleSize 0.15 .X
  let h := h.SetTitleOffset 0.80 .X
  let h := h.SetLabelSize 0.10 .Y
  let h := h.SetLabelOffset 0.01 .Y
  let h := h.SetTitleSize 0.15 .Y
  h.SetTitleOffset 0.80 .Y

/-- Styling block at the end of `BookHistogram` for the calibrated buffer. -/
def bookStyleReco (h : TH1F) : TH1F :=
  let h := h.SetLabelSize 0.15 .X
  let h := h.SetLabelOffset 0.00 .X
  let h := h.SetTitleSize 0.15 .X
  let h := h.SetTitleOffset 0.80 .X
  let h := h.SetLabelSize 0.15 .Y
  let h := h.SetLabelOffset 0.00 .Y
  let h := h.SetTitleSize 0.15 .Y
  h.SetTitleOffset 0.80 .Y

/-- `TQPad::BookHistogram`: releases the three buffers and allocates them anew in
the shape of the plot mode; throws for a plot mode other than `kQ` and `kTQ`. -/
def TQPad.BookHistogram (env : Env) (pad : TQPad) : Except CetException TQPad :=
  let pad := { pad with fFrameHist := none, fRawHisto := none, fRecoHisto := none }
  let planeid := (env.drawopt.CurrentTPC, pad.fPlane)
  let sigType := env.geo.SignalType planeid
  let qxloraw := env.cst.fRawQLow sigType
  let qxhiraw := env.cst.fRawQHigh sigType
  let qxloreco := env.cst.fRecoQLow sigType
  let qxhireco := env.cst.fRecoQHigh sigType
  let tqxlo := 1 * env.rawDataDraw.StartTick
  let tqxhi := 1 * env.rawDataDraw.TotalClockTicks
  if pad.fTQ = kQ then
    let frame := TH1F.new "fFrameHist" ";t [ticks];[ADC]" 2 0 1
    let frame := frame.SetMaximum qxhiraw
    let frame := frame.SetMinimum qxloraw
    let raw := TH1F.new "fRAWQHisto" ";;" 2 0 1
    let raw := raw.SetMaximum qxhiraw
    let raw := raw.SetMinimum qxloraw
    let reco := TH1F.new "fCALQHisto" ";;" 1 0 1
    let reco := reco.SetMaximum qxhireco
    let reco := reco.SetMinimum qxloreco
    .ok { pad with fFrameHist := some (bookStyleFrame frame),
                   fRawHisto := some (bookStyleRaw raw),
                   fRecoHisto := some (bookStyleReco reco) }
  else if pad.fTQ = kTQ then
    let frame := TH1F.new "fFrameHist" ";t [ticks];q [ADC]" (truncToInt tqxhi) tqxlo (tqxhi + tqxlo)
    let raw := TH1F.new "fRAWTQHisto" ";t [ticks];q [ADC]" (truncToInt tqxhi) tqxlo (tqxhi + tqxlo)
    let reco := TH1F.new "fCALTQHisto" ";t [ticks];q [ADC]" (truncToInt tqxhi) tqxlo (tqxhi + tqxlo)
    let reco := reco.SetLineColor kBlue
    let reco := reco.SetLineWidth 1
    .ok { pad with fFrameHist := some (bookStyleFrame frame),
                   fRawHisto := some (bookStyleRaw raw),
                   fRecoHisto := some (bookStyleReco reco) }
  else
    .error { category := "TQPad",
             message := "BookHistogram" ++ ": unexpected quantity #" ++ toString pad.fTQ ++ "\n" }

/-! ## `TQPad::Draw`, dual-phase path -/

/-- Abscissa of sample `j` of an overlay curve from start tick `s` to end tick `e`:
the `int` expression `s + j*(e - s)/1000`, converted to `double`. -/
def curveX (s e : Int) (j : Nat) : ℚ :=
  ((wrapInt32 (s + Int.tdiv (wrapInt32 (j * wrapInt32 (e - s))) 1000) : Int) : ℚ)

/-- Sum overlay curve of the cluster starting at record `i` (source lines 201-209):
1001 points, `x` computed in `int` arithmetic from `hstartT[i]` and
`hendT[i+hNMultiHit[i]-1]`. -/
def sumPolyLine (rb : RecoBaseDrawer) (r : HitRecords) (i : Nat) : Option TPolyLine := do
  let n ← r.hNMultiHit[i]?
  let s ← r.hstartT[i]?
  let e ← r.hendT[toSizeT (i + n - 1)]?
  let pts := (List.range 1001).map fun j =>
    let x := curveX s e j
    let y := rb.EvalMultiExpoFit x i n r.htau1 r.htau2 r.hamplitudes r.hpeaktimes
    (x, y)
  pure { n := 1001, color := kRed, width := 3, style := 1, points := pts }

/-- Single-peak overlay curve of record `i` (source lines 216-223): 1001 points, `x`
computed in `int` arithmetic from `hstartT[i-hLocalHitIndex[i]]` and
`hendT[i+hNMultiHit[i]-hLocalHitIndex[i]-1]`. -/
def peakPolyLine (rb : RecoBaseDrawer) (r : HitRecords) (i : Nat) : Option TPolyLine := do
  let n ← r.hNMultiHit[i]?
  let loc ← r.hLocalHitIndex[i]?
  let s ← r.hstartT[toSizeT (i - loc)]?
  let e ← r.hendT[toSizeT (i + n - loc - 1)]?
  let tau1 ← r.htau1[i]?
  let tau2 ← r.htau2[i]?
  let amp ← r.hamplitudes[i]?
  let peak ← r.hpeaktimes[i]?
  let pts := (List.range 1001).map fun j =>
    let x := curveX s e j
    let y := rb.EvalExpoFit x tau1 tau2 amp peak
    (x, y)
  pure { n := 1001, color := kOrange + 7, width := 3, style := 1, points := pts }

/-- Body of the overlay loop for record `i` (source lines 197-225): the sum curve
for the first record of a multi-hit cluster, then always the single-peak curve; each
is added to the view and drawn on the pad. -/
def overlayStep (rb : RecoBaseDrawer) (r : HitRecords) (st : View2D × TPad) (i : Nat) :
    Option (View2D × TPad) := do
  let n ← r.hNMultiHit[i]?
  let loc ← r.hLocalHitIndex[i]?
  let st ←
    if n > 1 ∧ loc = 0 then do
      let p2 ← sumPolyLine rb r i
      pure (st.1.AddPolyLine p2, st.2.draw (.polyline p2 "same"))
    else pure st
  let p1 ← peakPolyLine rb r i
  pure (st.1.AddPolyLine p1, st.2.draw (.polyline p1 "same"))

/-- The overlay loop `for (i = 0; i < hamplitudes.size() && mode != kRAW; ++i)`. -/
def overlayLoop (rb : RecoBaseDrawer) (r : HitRecords) (mode : Int) (st : View2D × TPad) :
    Option (View2D × TPad) :=
  if mode ≠ kRAW then
    (List.range r.hamplitudes.length).foldlM (overlayStep rb r) st
  else some st

/-- Styling block at the end of the dual-phase branch, applied to the raw and to the
calibrated buffer alike (source lines 234-252). -/
def drawStyleDP (h : TH1F) : TH1F :=
  let h := h.SetLabelSize 0.15 .X
  let h := h.SetLabelOffset 0.01 .X
  let h := h.SetTitleSize 0.15 .X
  let h := h.SetTitleOffset 0.60 .X
  let h := h.SetLabelSize 0.15 .Y
  let h := h.SetLabelOffset 0.002 .Y
  let h := h.SetTitleSize 0.15 .Y
  h.SetTitleOffset 0.16 .Y

/-- The `switch` on the display mode of the dual-phase branch (source lines 180-193):
which buffers are drawn first, and the combined scaling of the raw buffer. -/
def switchDP (mode : Int) (raw reco : TH1F) (fPad : TPad) : TH1F × TPad :=
  if mode = kRAW then
    (raw, fPad.draw (.hist .raw "HIST"))
  else if mode = kCALIB then
    (raw, fPad.draw (.hist .reco "HIST"))
  else if mode = kRAWCALIB then
    let raw := raw.SetMaximum (1.2 * max raw.GetMaximum reco.GetMaximum)
    let raw := raw.SetMinimum (1.2 * min raw.GetMinimum reco.GetMinimum)
    (raw, (fPad.draw (.hist .raw "HIST")).draw (.hist .reco "HIST same"))
  else (raw, fPad)

/-- Redraw of the buffers on top of the overlay curves (source lines 228-232). -/
def redrawDP (mode : Int) (fPad : TPad) : TPad :=
  if mode = kCALIB then fPad.draw (.hist .reco "HIST same")
  else if mode = kRAWCALIB then
    (fPad.draw (.hist .raw "HIST same")).draw (.hist .reco "HIST same")
  else fPad

/-- Dual-phase branch of `TQPad::Draw` (source lines 139-254), entered with both
`fRawHisto` and `fRecoHisto` non-null. -/
def drawDualPhase (env : Env) (evt : Event) (pad : TQPad) (raw reco : TH1F) : Option TQPad :=
  let fPad := pad.fPad.Clear
  if pad.fTQ = kTQ then
    let raw := raw.Reset
    let reco := reco.Reset
    let raw := raw.FillAll (env.rawDataDraw.FillTQHisto evt pad.fPlane pad.fWire)
    let filled := env.recoBaseDraw.FillTQHistoDP evt pad.fPlane pad.fWire
    let reco := reco.FillAll filled.1
    let recs := filled.2
    let mode := env.drawopt.fDrawRawDataOrCalibWires
    let sw := switchDP mode raw reco fPad
    let raw := sw.1
    match overlayLoop env.recoBaseDraw recs mode (pad.fView, sw.2) with
    | none => none
    | some (fView, fPad) =>
      let fPad := redrawDP mode fPad
      some { pad with fRawHisto := some (drawStyleDP raw),
                      fRecoHisto := some (drawStyleDP reco),
                      fView := fView, fPad := fPad }
  else
    some { pad with fPad := fPad }

/-! ## `TQPad::Draw`, single-phase path -/

/-- State threaded through the single-phase branch. -/
structure DrawState where
  frame : Option TH1F
  raw : TH1F
  reco : TH1F
  fView : View2D
  fHitFuncVec : List TF1
  fPad : TPad
deriving DecidableEq, Repr

/-- Block `if (fTQ == kTQ)` of the single-phase branch (source lines 262-294). -/
def drawTQ (env : Env) (fPlane fWire : Nat) (st : DrawState) : Option DrawState := do
  let mode := env.drawopt.fDrawRawDataOrCalibWires
  let channel := env.geo.PlaneWireToChannel fPlane fWire env.drawopt.fTPC env.drawopt.fCryostat
  let start := env.rawDataDraw.StartTick
  let ticks := env.rawDataDraw.TotalClockTicks
  let fView := env.fRawDigitDrawerTool.Fill st.fView channel start ticks
  let fView := env.fWireDrawerTool.Fill fView channel start ticks
  let frame ← st.frame
  let frame := frame.SetMaximum
    (1.1 * max (env.fRawDigitDrawerTool.getMaximum channel start ticks)
               (env.fWireDrawerTool.getMaximum channel start ticks))
  let frame := frame.SetMinimum
    (1.1 * min (env.fRawDigitDrawerTool.getMinimum channel start ticks)
               (env.fWireDrawerTool.getMinimum channel start ticks))
  let fPad := st.fPad.draw (.hist .frame "AXIS")
  let st1 : View2D × List TF1 × TPad :=
    if mode ≠ kRAW then
      let fPad := fPad.draw (.wireTool "HIST same")
      let res := env.fHitDrawerTool.Draw fView st.fHitFuncVec channel
      let fPad := res.2.foldl (fun p func => p.draw (.hitFunc func "HIST same same")) fPad
      (res.1, res.2, fPad)
    else (fView, st.fHitFuncVec, fPad)
  let fPad := if mode ≠ kCALIB then st1.2.2.draw (.rawDigitTool "HIST same") else st1.2.2
  let frame := frame.SetTitleOffset 0.2 .Y
  pure { st with frame := some frame, fView := st1.1, fHitFuncVec := st1.2.1, fPad := fPad }

/-- Selection made at the top of the charge-only block: the buffer `hist` points to
(`none` while the pointer is unassigned) and the division count. -/
structure QSelection where
  hist : Option HistRef
  raw : TH1F
  reco : TH1F
  ndiv : Int
deriving DecidableEq, Repr

/-- The two `if` statements selecting buffer, bounds and division count (source
lines 306-320). -/
def selectQ (cst : ColorDrawingOptions) (sigType : SigType) (mode : Int) (raw reco : TH1F) :
    QSelection :=
  let sel : QSelection := { hist := none, raw := raw, reco := reco, ndiv := 0 }
  let sel : QSelection :=
    if mode ≠ kCALIB then
      let hist := sel.raw.SetMinimum (cst.fRawQLow sigType)
      let hist := hist.SetMaximum (cst.fRawQHigh sigType)
      { sel with hist := some .raw, raw := hist, ndiv := cst.fRawDiv sigType }
    else sel
  if mode = kCALIB then
    let hist := sel.reco.SetMinimum (cst.fRecoQLow sigType)
    let hist := hist.SetMaximum (cst.fRecoQHigh sigType)
    { sel with hist := some .reco, reco := hist, ndiv := cst.fRecoDiv sigType }
  else sel

/-- Fill colour of a box (source lines 339-345). -/
def boxColor (cst : ColorDrawingOptions) (sigType : SigType) (mode : Int) (y1 y2 : ℚ) : Int :=
  let c : Int := 1
  let c := if mode = kRAW then (cst.RawQ sigType).GetColor (0.5 * (y1 + y2)) else c
  if mode ≠ kRAW then (cst.CalQ sigType).GetColor (0.5 * (y1 + y2)) else c

/-- The box of iteration `i` of the colour loop (source lines 336-349). -/
def qBox (cst : ColorDrawingOptions) (sigType : SigType) (mode : Int) (hist : TH1F)
    (ndiv : Int) (i : Nat) : TBox :=
  let x1 : ℚ := 0
  let x2 : ℚ := 1
  let y1 := hist.GetMinimum + i * (hist.GetMaximum - hist.GetMinimum) / (1 * ndiv)
  let y2 := hist.GetMinimum + (i + 1) * (hist.GetMaximum - hist.GetMinimum) / (1 * ndiv)
  let c := boxColor cst sigType mode y1 y2
  let b : TBox := { x1 := x1, y1 := y1, x2 := x2, y2 := y2, fillStyle := none, fillColor := none }
  (b.SetFillStyle 1001).SetFillColor c

/-- The colour loop `for (int i = 0; i < ndiv; ++i)`: each iteration adds one box to
the view and draws it on the pad. -/
def qLoop (cst : ColorDrawingOptions) (sigType : SigType) (mode : Int) (hist : TH1F)
    (ndiv : Int) (st : View2D × TPad) : View2D × TPad :=
  (List.range ndiv.toNat).foldl
    (fun acc i =>
      let b := qBox cst sigType mode hist ndiv i
      (acc.1.AddBox b, acc.2.draw (.box b)))
    st

/-- Styling of the selected buffer before it is drawn (source lines 322-325). -/
def drawStyleQ (h : TH1F) : TH1F :=
  let h := h.SetLabelSize 0 .X
  let h := h.SetLabelSize 0 .Y
  let h := h.SetTickLength 0 .X
  h.SetTickLength 0 .Y

/-- Block `if (fTQ == kQ)` of the single-phase branch (source lines 297-354). -/
def drawQ (env : Env) (fPlane : Nat) (st : DrawState) : Option DrawState := do
  let mode := env.drawopt.fDrawRawDataOrCalibWires
  let planeid := (env.drawopt.CurrentTPC, fPlane)
  let sigType := env.geo.SignalType planeid
  let sel := selectQ env.cst sigType mode st.raw st.reco
  let ref ← sel.hist
  let hist0 := match ref with
    | .reco => sel.reco
    | _ => sel.raw
  let hist := drawStyleQ hist0
  let fPad := st.fPad.draw (.hist ref "pY+")
  let res := qLoop env.cst sigType mode hist sel.ndiv (st.fView, fPad)
  let fPad := res.2.draw (.hist ref "same")
  match ref with
  | .reco => pure { st with raw := sel.raw, reco := hist, fView := res.1, fPad := fPad }
  | _ => pure { st with raw := hist, reco := sel.reco, fView := res.1, fPad := fPad }

/-- Single-phase branch of `TQPad::Draw` (source lines 255-355), entered with both
`fRawHisto` and `fRecoHisto` non-null. -/
def drawSinglePhase (env : Env) (pad : TQPad) (raw reco : TH1F) : Option TQPad := do
  let st : DrawState :=
    { frame := pad.fFrameHist, raw := raw, reco := reco, fView := pad.fView,
      fHitFuncVec := [], fPad := pad.fPad.Clear }
  let st ← if pad.fTQ = kTQ then drawTQ env pad.fPlane pad.fWire st else pure st
  let st ← if pad.fTQ = kQ then drawQ env pad.fPlane st else pure st
  pure { pad with fFrameHist := st.frame, fRawHisto := some st.raw, fRecoHisto := some st.reco,
                  fView := st.fView, fHitFuncVec := st.fHitFuncVec, fPad := st.fPad }

/-- `TQPad::Draw`: returns at once when a buffer is missing or no event is bound;
otherwise takes the dual-phase branch when the event holds the fitted-hit product
`"dprawhit"` and the single-phase branch when it does not. -/
def TQPad.Draw (env : Env) (pad : TQPad) : Option TQPad :=
  match pad.fRawHisto, pad.fRecoHisto with
  | some raw, some reco =>
    match env.evt with
    | none => some pad
    | some evt =>
      if evt.dprawhit then drawDualPhase env evt pad raw reco
      else drawSinglePhase env pad raw reco
  | _, _ => some pad

/-- Constructor `TQPad::TQPad`: pad margins by plane count, plot mode from the option
string (`fTQ` keeps the indeterminate value `fTQ0` for any other string), buffers
booked, empty view. -/
def TQPad.new (env : Env) (fTQ0 : Int) (opt : String) (plane wire : Nat) :
    Except CetException TQPad :=
  let planes := env.geo.Nplanes
  let p : TPad := { leftMargin := some 0.050, rightMargin := some 0.050,
                    topMargin := some 0.005, bottomMargin := some 0.110, primitives := [] }
  let p : TPad :=
    if planes = 2 ∧ plane > 0 then
      { p with topMargin := some 0.110, bottomMargin := some 0.010 }
    else if planes > 2 then
      if plane = 1 then { p with topMargin := some 0.005, bottomMargin := some 0.010 }
      else if plane = 2 then { p with topMargin := some 0.110, bottomMargin := some 0.010 }
      else p
    else p
  let fTQ := fTQ0
  let st : Int × TPad :=
    if opt = "TQ" then (kTQ, { p with topMargin := some 0, bottomMargin := some 0.2 })
    else (fTQ, p)
  let st : Int × TPad := if opt = "Q" then (kQ, st.2) else st
  let pad : TQPad :=
    { fWire := wire, fPlane := plane, fTQ := st.1,
      fFrameHist := none, fRawHisto := none, fRecoHisto := none,
      fView := { fPolyLineL := [], fBoxL := [] }, fHitFuncVec := [], fPad := st.2 }
  match pad.BookHistogram env with
  | .error e => .error e
  | .ok pad => .ok { pad with fView := { fPolyLineL := [], fBoxL := [] }, fHitFuncVec := [] }

/-! ## Layout of the fitted-hit records -/

/-- Number of fitted-hit records (the bound `hamplitudes.size()` of the overlay loop). -/
def HitRecords.size (r : HitRecords) : Nat := r.hamplitudes.length

/-- The eight parallel arrays have one common length (as a vector's, below `2^64`). -/
def HitRecords.Aligned (r : HitRecords) : Prop :=
  r.size < 2 ^ 64 ∧ r.htau1.length = r.size ∧ r.htau2.length = r.size ∧
  r.hpeaktimes.length = r.size ∧ r.hstartT.length = r.size ∧ r.hendT.length = r.size ∧
  r.hNMultiHit.length = r.size ∧ r.hLocalHitIndex.length = r.size

instance (r : HitRecords) : Decidable r.Aligned := by
  unfold HitRecords.Aligned
  infer_instance

/-- The records at the contiguous indices `[f, f+n)` form one cluster of size `n`:
each carries multiplicity `n` and its offset from `f` as local index. -/
def IsCluster (r : HitRecords) (f n : Nat) : Prop :=
  1 ≤ n ∧ f + n ≤ r.size ∧
  ∀ k, k < f + n → f ≤ k →
    r.hNMultiHit[k]? = some (n : Int) ∧ r.hLocalHitIndex[k]? = some ((k : Int) - f)

instance (r : HitRecords) (f n : Nat) : Decidable (IsCluster r f n) := by
  unfold IsCluster
  infer_instance

/-- Layout invariant of the fitted-hit records: the arrays are aligned and every
record lies in a cluster. -/
def LayoutInvariant (r : HitRecords) : Prop :=
  r.Aligned ∧
  ∀ i, i < r.size → ∃ f, f < r.size ∧ ∃ n, n < r.size + 1 ∧ (f ≤ i ∧ i < f + n ∧ IsCluster r f n)

instance (r : HitRecords) : Decidable (LayoutInvariant r) := by
  unfold LayoutInvariant
  infer_instance

/-- Record `f` is the first record of a cluster of more than one hit. -/
def IsMultiHitHead (r : HitRecords) (f : Nat) : Prop :=
  ∃ n, n < r.size + 1 ∧ (1 < n ∧ IsCluster r f n)

instance (r : HitRecords) (f : Nat) : Decidable (IsMultiHitHead r f) := by
  unfold IsMultiHitHead
  infer_instance

/-- Number of multi-hit clusters among the records. -/
def multiHitClusters (r : HitRecords) : Nat :=
  (List.range r.size).countP (fun f => decide (IsMultiHitHead r f))

/-- The curves the overlay loop produces for record `i`, in order. -/
def overlayCurves (rb : RecoBaseDrawer) (r : HitRecords) (i : Nat) : List TPolyLine :=
  match r.hNMultiHit[i]?, r.hLocalHitIndex[i]? with
  | some n, some loc =>
    (if n > 1 ∧ loc = 0 then (sumPolyLine rb r i).toList else []) ++ (peakPolyLine rb r i).toList
  | _, _ => []

/-- View and pad after the given curves have been added and drawn. -/
def appendCurves (st : View2D × TPad) (cs : List TPolyLine) : View2D × TPad :=
  ({ st.1 with fPolyLineL := st.1.fPolyLineL ++ cs },
   { st.2 with primitives := st.2.primitives ++ cs.map (fun p => Drawn.polyline p "same") })

/-! ## Observations on the buffers -/

/-- Bin values and set minimum/maximum of a buffer (`none` for a null buffer). -/
def histData (h : Option TH1F) : Option (List ℚ × Option ℚ × Option ℚ) :=
  h.map fun h => (h.contents, h.fMinimum, h.fMaximum)

/-- Bin values and set minimum/maximum of the frame, raw and calibrated buffers. -/
def TQPad.bufferData (pad : TQPad) :
    Option (List ℚ × Option ℚ × Option ℚ) × Option (List ℚ × Option ℚ × Option ℚ) ×
      Option (List ℚ × Option ℚ × Option ℚ) :=
  (histData pad.fFrameHist, histData pad.fRawHisto, histData pad.fRecoHisto)

/-- Bin count and axis range of a buffer (`none` for a null buffer). -/
def histShape (h : Option TH1F) : Option (Int × ℚ × ℚ) :=
  h.map fun h => (h.nbins, h.xlow, h.xup)

/-- Bin count and axis range of the frame, raw and calibrated buffers. -/
def TQPad.shapes (pad : TQPad) :
    Option (Int × ℚ × ℚ) × Option (Int × ℚ × ℚ) × Option (Int × ℚ × ℚ) :=
  (histShape pad.fFrameHist, histShape pad.fRawHisto, histShape pad.fRecoHisto)

/-- A sequence of draws, each in its own environment (event and options may change
between draws). -/
def TQPad.DrawSeq (pad : TQPad) (envs : List Env) : Option TQPad :=
  envs.foldlM (fun p env => p.Draw env) pad

/-- The polyline of a pad primitive, if it is one. -/
def Drawn.polylineOf : Drawn → Option TPolyLine
  | .polyline p _ => some p
  | _ => none

/-- The box of a pad primitive, if it is one. -/
def Drawn.boxOf : Drawn → Option TBox
  | .box b => some b
  | _ => none

/-- Corner coordinates of a box. -/
def TBox.coords (b : TBox) : ℚ × ℚ × ℚ × ℚ := (b.x1, b.y1, b.x2, b.y2)

/-- The environment with the display mode replaced. -/
def Env.withMode (env : Env) (mode : Int) : Env :=
  { env with drawopt := { env.drawopt with fDrawRawDataOrCalibWires := mode } }

/-- The environment with the hit drawer tool replaced. -/
def Env.withHitDrawer (env : Env) (tool : IWFHitDrawer) : Env :=
  { env with fHitDrawerTool := tool }

/-! ## Sample configurations -/

/-- Colour options used in the examples: raw range `[-20, 20]` in 4 divisions,
calibrated range `[0, 100]` in 10 divisions. -/
def sampleColors : ColorDrawingOptions :=
  { fRawQLow := fun _ => -20, fRawQHigh := fun _ => 20,
    fRecoQLow := fun _ => 0, fRecoQHigh := fun _ => 100,
    fRawDiv := fun _ => 4, fRecoDiv := fun _ => 10,
    RawQ := fun _ => ⟨fun v => Rat.floor v⟩,
    CalQ := fun _ => ⟨fun v => Rat.floor v + 50⟩ }

/-- Fitted-hit records of one two-hit cluster over the ticks `[10, 30]`. -/
def sampleRecords : HitRecords :=
  { htau1 := [1, 1], htau2 := [2, 2], hamplitudes := [5, 7], hpeaktimes := [12, 20],
    hstartT := [10, 18], hendT := [17, 30], hNMultiHit := [2, 2], hLocalHitIndex := [0, 1] }

/-- Fitted-hit records of one single-hit cluster over the ticks `[0, 3000000]`. -/
def wideRecords : HitRecords :=
  { htau1 := [1], htau2 := [2], hamplitudes := [5], hpeaktimes := [12],
    hstartT := [0], hendT := [3000000], hNMultiHit := [1], hLocalHitIndex := [0] }

/-- Environment used in the examples, for a display mode and an event with
(`dp = true`) or without the fitted-hit product; every plane is an induction plane. -/
def sampleEnv (mode : Int) (dp : Bool) : Env :=
  { evt := some { dprawhit := dp, id := 1 },
    drawopt := { fDrawRawDataOrCalibWires := mode, fTPC := 0, fCryostat := 0, CurrentTPC := (0, 0) },
    cst := sampleColors,
    geo := { Nplanes := 3, SignalType := fun _ => .kInduction,
             PlaneWireToChannel := fun plane wire _ _ => 100 * plane + wire },
    rawDataDraw := { StartTick := 0, TotalClockTicks := 4,
                     FillTQHisto := fun _ _ _ => [(0, 3), (1, -2), (2, 5), (3, 1)] },
    recoBaseDraw := { FillTQHistoDP := fun _ _ _ => ([(0, 1), (1, 4), (2, 2), (3, -1)], sampleRecords),
                      EvalExpoFit := fun x _ _ amp _ => amp + x,
                      EvalMultiExpoFit := fun x _ _ _ _ _ _ => x },
    fHitDrawerTool := { Draw := fun v fs ch => (v, fs ++ [⟨ch⟩]) },
    fRawDigitDrawerTool := { Fill := fun v _ _ _ => v,
                             getMaximum := fun _ _ _ => 30, getMinimum := fun _ _ _ => -10 },
    fWireDrawerTool := { Fill := fun v _ _ _ => v,
                         getMaximum := fun _ _ _ => 20, getMinimum := fun _ _ _ => -5 } }

/-- The sample environment under CalibratedOnly with dual-phase data whose fitted-hit
records are `wideRecords`. -/
def wideEnv : Env :=
  { sampleEnv kCALIB true with
    recoBaseDraw := { FillTQHistoDP := fun _ _ _ => ([], wideRecords),
                      EvalExpoFit := fun x _ _ amp _ => amp + x,
                      EvalMultiExpoFit := fun x _ _ _ _ _ _ => x } }

/-- The sample environment under RawOnly without dual-phase data, with waveform tools
that report the ranges `[400, 500]` and `[410, 480]` (waveforms on a positive baseline). -/
def baselineEnv : Env :=
  { sampleEnv kRAW false with
    fRawDigitDrawerTool := { Fill := fun v _ _ _ => v,
                             getMaximum := fun _ _ _ => 500, getMinimum := fun _ _ _ => 400 },
    fWireDrawerTool := { Fill := fun v _ _ _ => v,
                         getMaximum := fun _ _ _ => 480, getMinimum := fun _ _ _ => 410 } }

/-- The sample environment under CalibratedOnly without dual-phase data, with a tick
window of `3000000000` ticks starting at tick 0. -/
def longEnv : Env :=
  { sampleEnv kCALIB false with
    rawDataDraw := { StartTick := 0, TotalClockTicks := 3000000000,
                     FillTQHisto := fun _ _ _ => [(0, 3), (1, -2), (2, 5), (3, 1)] } }

/-- A pad of the given plot mode with its three buffers allocated and an empty view. -/
def samplePad (fTQ : Int) : TQPad :=
  { fWire := 0, fPlane := 0, fTQ := fTQ,
    fFrameHist := some (TH1F.new "fFrameHist" "" 4 0 4),
    fRawHisto := some (TH1F.new "fRAWHisto" "" 4 0 4),
    fRecoHisto := some (TH1F.new "fCALHisto" "" 4 0 4),
    fView := { fPolyLineL := [], fBoxL := [] }, fHitFuncVec := [],
    fPad := { leftMargin := none, rightMargin := none, topMargin := none, bottomMargin := none,
              primitives := [] } }

/-! ## Auxiliary facts: charge-only rendering -/

theorem headroom_lit : (1.2 : ℚ) = 6 / 5 := by norm_num

/-- The colour loop appends its boxes, in order, to the view and to the pad. -/
theorem qLoop_eq (cst : ColorDrawingOptions) (sigType : SigType) (mode : Int) (hist : TH1F)
    (ndiv : Int) (v : View2D) (p : TPad) :
    qLoop cst sigType mode hist ndiv (v, p) =
      ({ v with fBoxL := v.fBoxL ++ (List.range ndiv.toNat).map (qBox cst sigType mode hist ndiv) },
       { p with primitives := p.primitives ++
           (List.range ndiv.toNat).map (fun i => Drawn.box (qBox cst sigType mode hist ndiv i)) }) := by
  unfold qLoop
  generalize List.range ndiv.toNat = l
  induction l generalizing v p with
  | nil => simp
  | cons a l ih =>
    simp only [List.foldl_cons, List.map_cons]
    rw [View2D.AddBox, TPad.draw, ih]
    simp

/-- The buffer the charge-only block renders: the calibrated one under
`CalibratedOnly`, the raw one under every other display mode. -/
theorem selectQ_calib (cst : ColorDrawingOptions) (sigType : SigType) (raw reco : TH1F) :
    selectQ cst sigType kCALIB raw reco =
      { hist := some .reco, raw := raw,
        reco := (reco.SetMinimum (cst.fRecoQLow sigType)).SetMaximum (cst.fRecoQHigh sigType),
        ndiv := cst.fRecoDiv sigType } := by
  simp [selectQ]

theorem selectQ_not_calib (cst : ColorDrawingOptions) (sigType : SigType) (mode : Int)
    (raw reco : TH1F) (hmode : mode ≠ kCALIB) :
    selectQ cst sigType mode raw reco =
      { hist := some .raw,
        raw := (raw.SetMinimum (cst.fRawQLow sigType)).SetMaximum (cst.fRawQHigh sigType),
        reco := reco,
        ndiv := cst.fRawDiv sigType } := by
  simp [selectQ, hmode]

/-- Entry of `Draw` into the single-phase branch. -/
theorem Draw_eq_singlePhase (env : Env) (pad : TQPad) (raw reco : TH1F) (evt : Event)
    (hraw : pad.fRawHisto = some raw) (hreco : pad.fRecoHisto = some reco)
    (hevt : env.evt = some evt) (hsp : evt.dprawhit = false) :
    pad.Draw env = drawSinglePhase env pad raw reco := by
  simp [TQPad.Draw, hraw, hreco, hevt, hsp]

/-- Entry of `Draw` into the dual-phase branch. -/
theorem Draw_eq_dualPhase (env : Env) (pad : TQPad) (raw reco : TH1F) (evt : Event)
    (hraw : pad.fRawHisto = some raw) (hreco : pad.fRecoHisto = some reco)
    (hevt : env.evt = some evt) (hdp : evt.dprawhit = true) :
    pad.Draw env = drawDualPhase env evt pad raw reco := by
  simp [TQPad.Draw, hraw, hreco, hevt, hdp]

/-- Charge-only draw under `CalibratedOnly`, in closed form. -/
theorem drawSinglePhase_Q_calib (env : Env) (pad : TQPad) (raw reco : TH1F)
    (hQ : pad.fTQ = kQ) (hmode : env.drawopt.fDrawRawDataOrCalibWires = kCALIB) :
    drawSinglePhase env pad raw reco =
      let sigType := env.geo.SignalType (env.drawopt.CurrentTPC, pad.fPlane)
      let hist := drawStyleQ
        ((reco.SetMinimum (env.cst.fRecoQLow sigType)).SetMaximum (env.cst.fRecoQHigh sigType))
      let ndiv := env.cst.fRecoDiv sigType
      some { pad with
        fRawHisto := some raw, fRecoHisto := some hist,
        fView := { pad.fView with fBoxL := pad.fView.fBoxL ++
          (List.range ndiv.toNat).map (qBox env.cst sigType kCALIB hist ndiv) },
        fHitFuncVec := [],
        fPad := { pad.fPad with primitives :=
          [Drawn.hist .reco "pY+"] ++
          (List.range ndiv.toNat).map (fun i => Drawn.box (qBox env.cst sigType kCALIB hist ndiv i))
          ++ [Drawn.hist .reco "same"] } } := by
  simp [drawSinglePhase, hQ, drawQ, hmode, selectQ_calib, qLoop_eq, TPad.draw, TPad.Clear]

/-- Charge-only draw under any display mode other than `CalibratedOnly`, in closed
form. -/
theorem drawSinglePhase_Q_not_calib (env : Env) (pad : TQPad) (raw reco : TH1F)
    (hQ : pad.fTQ = kQ) (hmode : env.drawopt.fDrawRawDataOrCalibWires ≠ kCALIB) :
    drawSinglePhase env pad raw reco =
      let mode := env.drawopt.fDrawRawDataOrCalibWires
      let sigType := env.geo.SignalType (env.drawopt.CurrentTPC, pad.fPlane)
      let hist := drawStyleQ
        ((raw.SetMinimum (env.cst.fRawQLow sigType)).SetMaximum (env.cst.fRawQHigh sigType))
      let ndiv := env.cst.fRawDiv sigType
      some { pad with
        fRawHisto := some hist, fRecoHisto := some reco,
        fView := { pad.fView with fBoxL := pad.fView.fBoxL ++
          (List.range ndiv.toNat).map (qBox env.cst sigType mode hist ndiv) },
        fHitFuncVec := [],
        fPad := { pad.fPad with primitives :=
          [Drawn.hist .raw "pY+"] ++
          (List.range ndiv.toNat).map (fun i => Drawn.box (qBox env.cst sigType mode hist ndiv i))
          ++ [Drawn.hist .raw "same"] } } := by
  simp [drawSinglePhase, hQ, drawQ, selectQ_not_calib _ _ _ _ _ hmode, qLoop_eq, TPad.draw,
    TPad.Clear]

theorem drawStyleQ_GetMinimum (h : TH1F) : (drawStyleQ h).GetMinimum = h.GetMinimum := by
  simp [drawStyleQ, TH1F.SetLabelSize, TH1F.SetTickLength, TH1F.GetMinimum, TH1F.binMinimum]

theorem drawStyleQ_GetMaximum (h : TH1F) : (drawStyleQ h).GetMaximum = h.GetMaximum := by
  simp [drawStyleQ, TH1F.SetLabelSize, TH1F.SetTickLength, TH1F.GetMaximum, TH1F.binMaximum]

theorem GetMinimum_set (h : TH1F) (lo hi : ℚ) :
    ((h.SetMinimum lo).SetMaximum hi).GetMinimum = lo := by
  simp [TH1F.SetMinimum, TH1F.SetMaximum, TH1F.GetMinimum]

theorem GetMaximum_set (h : TH1F) (lo hi : ℚ) :
    ((h.SetMinimum lo).SetMaximum hi).GetMaximum = hi := by
  simp [TH1F.SetMinimum, TH1F.SetMaximum, TH1F.GetMaximum]

/-! ## Claims -/

/-- C1: on the single-phase path with plot mode ChargeOnly, under display mode RawOnly
or CalibratedOnly and a non-negative configured division count, the draw succeeds and
appends to the view exactly as many boxes as the configured division count of the
plane's signal type (raw count under RawOnly, calibrated count under CalibratedOnly),
and no polyline. -/
theorem chargeOnly_box_count (env : Env) (pad : TQPad) (raw reco : TH1F) (evt : Event)
    (hraw : pad.fRawHisto = some raw) (hreco : pad.fRecoHisto = some reco)
    (hevt : env.evt = some evt) (hsp : evt.dprawhit = false) (hQ : pad.fTQ = kQ)
    (hmode : env.drawopt.fDrawRawDataOrCalibWires = kRAW ∨
      env.drawopt.fDrawRawDataOrCalibWires = kCALIB)
    (ndiv : Int)
    (hndiv : ndiv =
      if env.drawopt.fDrawRawDataOrCalibWires = kRAW then
        env.cst.fRawDiv (env.geo.SignalType (env.drawopt.CurrentTPC, pad.fPlane))
      else env.cst.fRecoDiv (env.geo.SignalType (env.drawopt.CurrentTPC, pad.fPlane)))
    (hnn : 0 ≤ ndiv) :
    ∃ pad' added, pad.Draw env = some pad' ∧
      pad'.fView.fBoxL = pad.fView.fBoxL ++ added ∧
      pad'.fView.fPolyLineL = pad.fView.fPolyLineL ∧
      (added.length : Int) = ndiv := by
  rw [Draw_eq_singlePhase env pad raw reco evt hraw hreco hevt hsp]
  rcases hmode with hmode | hmode
  · have hne : env.drawopt.fDrawRawDataOrCalibWires ≠ kCALIB := by rw [hmode]; decide
    rw [drawSinglePhase_Q_not_calib env pad raw reco hQ hne]
    rw [if_pos hmode] at hndiv
    refine ⟨_, _, rfl, rfl, rfl, ?_⟩
    simp only [List.length_map, List.length_range]
    rw [← hndiv]
    exact Int.toNat_of_nonneg hnn
  · have hne : env.drawopt.fDrawRawDataOrCalibWires ≠ kRAW := by rw [hmode]; decide
    rw [drawSinglePhase_Q_calib env pad raw reco hQ hmode]
    rw [if_neg hne] at hndiv
    refine ⟨_, _, rfl, rfl, rfl, ?_⟩
    simp only [List.length_map, List.length_range]
    rw [← hndiv]
    exact Int.toNat_of_nonneg hnn

/-- Witness of C1: the sample pad under RawOnly with 4 raw divisions. -/
theorem chargeOnly_box_count_witness :
    ∃ pad' added, (samplePad kQ).Draw (sampleEnv kRAW false) = some pad' ∧
      pad'.fView.fBoxL = (samplePad kQ).fView.fBoxL ++ added ∧
      pad'.fView.fPolyLineL = (samplePad kQ).fView.fPolyLineL ∧
      (added.length : Int) = 4 :=
  chargeOnly_box_count (sampleEnv kRAW false) (samplePad kQ) _ _ _ rfl rfl rfl rfl rfl
    (Or.inl rfl) 4 rfl (by decide)

/-- C2: on the single-phase path with plot mode ChargeOnly and display mode
CalibratedOnly, with calibrated bounds `low`, `high` and division count `n > 0` of the
plane's signal type, the draw appends `n` boxes to the view; box `i` spans `x` in `[0,1]`
and `y` from `low + i*(high-low)/n` to `low + (i+1)*(high-low)/n`, has height
`(high-low)/n`, solid fill style, and the calibrated colour of the signal type at the
midpoint of its `y`-span; the first box starts at `low`, the last ends at `high`, and
each box's top is the next box's bottom. -/
theorem chargeOnly_calibrated_slices (env : Env) (pad : TQPad) (raw reco : TH1F) (evt : Event)
    (hraw : pad.fRawHisto = some raw) (hreco : pad.fRecoHisto = some reco)
    (hevt : env.evt = some evt) (hsp : evt.dprawhit = false) (hQ : pad.fTQ = kQ)
    (hmode : env.drawopt.fDrawRawDataOrCalibWires = kCALIB)
    (sigType : SigType)
    (hsig : env.geo.SignalType (env.drawopt.CurrentTPC, pad.fPlane) = sigType)
    (low high : ℚ) (n : Nat)
    (hlow : env.cst.fRecoQLow sigType = low) (hhigh : env.cst.fRecoQHigh sigType = high)
    (hn : env.cst.fRecoDiv sigType = n) (hpos : 0 < n) :
    ∃ pad' added, pad.Draw env = some pad' ∧
      pad'.fView.fBoxL = pad.fView.fBoxL ++ added ∧
      added.length = n ∧
      (∀ i, i < n → ∃ b, added[i]? = some b ∧
        b.x1 = 0 ∧ b.x2 = 1 ∧
        b.y1 = low + i * (high - low) / n ∧
        b.y2 = low + (i + 1) * (high - low) / n ∧
        b.y2 - b.y1 = (high - low) / n ∧
        b.fillStyle = some 1001 ∧
        b.fillColor = some ((env.cst.CalQ sigType).GetColor ((b.y1 + b.y2) / 2))) ∧
      (∃ b, added[0]? = some b ∧ b.y1 = low) ∧
      (∃ b, added[n - 1]? = some b ∧ b.y2 = high) ∧
      (∀ i, i + 1 < n → ∃ b c, added[i]? = some b ∧ added[i + 1]? = some c ∧ b.y2 = c.y1) := by
  rw [Draw_eq_singlePhase env pad raw reco evt hraw hreco hevt hsp,
    drawSinglePhase_Q_calib env pad raw reco hQ hmode]
  subst hsig hlow hhigh
  have hn0 : (n : ℚ) ≠ 0 := by exact_mod_cast hpos.ne'
  have hget : ∀ i, i < n →
      ((List.range (n : Int).toNat).map
        (qBox env.cst (env.geo.SignalType (env.drawopt.CurrentTPC, pad.fPlane)) kCALIB
          (drawStyleQ ((reco.SetMinimum
            (env.cst.fRecoQLow (env.geo.SignalType (env.drawopt.CurrentTPC, pad.fPlane)))).SetMaximum
            (env.cst.fRecoQHigh (env.geo.SignalType (env.drawopt.CurrentTPC, pad.fPlane)))))
          (n : Int)))[i]? =
      some (qBox env.cst (env.geo.SignalType (env.drawopt.CurrentTPC, pad.fPlane)) kCALIB
          (drawStyleQ ((reco.SetMinimum
            (env.cst.fRecoQLow (env.geo.SignalType (env.drawopt.CurrentTPC, pad.fPlane)))).SetMaximum
            (env.cst.fRecoQHigh (env.geo.SignalType (env.drawopt.CurrentTPC, pad.fPlane)))))
          (n : Int) i) := by
    intro i hi
    rw [List.getElem?_map, List.getElem?_range (by simpa using hi)]
    rfl
  simp only [hn]
  refine ⟨_, _, rfl, rfl, by simp, ?_, ?_, ?_, ?_⟩
  · intro i hi
    refine ⟨_, hget i hi, ?_⟩
    have hc : kCALIB ≠ kRAW := by decide
    refine ⟨?_, ?_, ?_, ?_, ?_, ?_, ?_⟩
    · simp [qBox, TBox.SetFillStyle, TBox.SetFillColor]
    · simp [qBox, TBox.SetFillStyle, TBox.SetFillColor]
    · simp [qBox, TBox.SetFillStyle, TBox.SetFillColor, drawStyleQ_GetMinimum,
        drawStyleQ_GetMaximum, GetMinimum_set, GetMaximum_set]
    · simp [qBox, TBox.SetFillStyle, TBox.SetFillColor, drawStyleQ_GetMinimum,
        drawStyleQ_GetMaximum, GetMinimum_set, GetMaximum_set]
    · simp only [qBox, TBox.SetFillStyle, TBox.SetFillColor, drawStyleQ_GetMinimum,
        drawStyleQ_GetMaximum, GetMinimum_set, GetMaximum_set, Int.cast_natCast, one_mul]
      field_simp
      ring
    · simp [qBox, TBox.SetFillStyle, TBox.SetFillColor]
    · simp only [qBox, boxColor, TBox.SetFillStyle, TBox.SetFillColor, drawStyleQ_GetMinimum,
        drawStyleQ_GetMaximum, GetMinimum_set, GetMaximum_set, Int.cast_natCast, one_mul,
        if_neg hc, if_pos hc, ne_eq, not_false_eq_true]
      congr 2
      ring
  · refine ⟨_, hget 0 hpos, ?_⟩
    simp [qBox, TBox.SetFillStyle, TBox.SetFillColor, drawStyleQ_GetMinimum, GetMinimum_set]
  · refine ⟨_, hget (n - 1) (by omega), ?_⟩
    simp only [qBox, TBox.SetFillStyle, TBox.SetFillColor, drawStyleQ_GetMinimum,
      drawStyleQ_GetMaximum, GetMinimum_set, GetMaximum_set]
    have h1 : ((n - 1 : Nat) : ℚ) + 1 = n := by
      have : 1 ≤ n := hpos
      push_cast [Nat.cast_sub this]
      ring
    simp only [Int.cast_natCast, one_mul, h1]
    field_simp
  · intro i hi
    refine ⟨_, _, hget i (by omega), hget (i + 1) hi, ?_⟩
    simp [qBox, TBox.SetFillStyle, TBox.SetFillColor]

/-- Witness of C2: an induction plane with calibrated range `[0, 100]` in 10 divisions. -/
theorem chargeOnly_calibrated_slices_witness :
    ∃ pad' added, (samplePad kQ).Draw (sampleEnv kCALIB false) = some pad' ∧
      pad'.fView.fBoxL = (samplePad kQ).fView.fBoxL ++ added ∧
      added.length = 10 ∧
      (∀ i : Nat, i < 10 → ∃ b : TBox, added[i]? = some b ∧
        b.x1 = 0 ∧ b.x2 = 1 ∧
        b.y1 = 0 + (i : ℚ) * (100 - 0) / ((10 : Nat) : ℚ) ∧
        b.y2 = 0 + ((i : ℚ) + 1) * (100 - 0) / ((10 : Nat) : ℚ) ∧
        b.y2 - b.y1 = (100 - 0) / ((10 : Nat) : ℚ) ∧
        b.fillStyle = some 1001 ∧
        b.fillColor = some ((sampleColors.CalQ .kInduction).GetColor ((b.y1 + b.y2) / 2))) ∧
      (∃ b, added[0]? = some b ∧ b.y1 = 0) ∧
      (∃ b, added[10 - 1]? = some b ∧ b.y2 = 100) ∧
      (∀ i, i + 1 < 10 → ∃ b c, added[i]? = some b ∧ added[i + 1]? = some c ∧ b.y2 = c.y1) :=
  chargeOnly_calibrated_slices (sampleEnv kCALIB false) (samplePad kQ) _ _ _ rfl rfl rfl rfl rfl
    rfl .kInduction rfl 0 100 10 rfl rfl rfl (by decide)

/-! ## Auxiliary facts: overlay curves of the dual-phase path -/

theorem toSizeT_sub_local (f i : Nat) (hf : f < 2 ^ 64) :
    toSizeT ((i : Int) - ((i : Int) - f)) = f := by
  unfold toSizeT
  omega

theorem toSizeT_last (f n i : Nat) (hn : 1 ≤ n) (hf : f + n < 2 ^ 64 + 1) :
    toSizeT ((i : Int) + n - ((i : Int) - f) - 1) = f + n - 1 := by
  unfold toSizeT
  omega

theorem toSizeT_last_head (f n : Nat) (hn : 1 ≤ n) (hf : f + n < 2 ^ 64 + 1) :
    toSizeT ((f : Int) + n - 1) = f + n - 1 := by
  unfold toSizeT
  omega

/-- Inside a cluster `[f, f+n)` the single-peak curve of record `i` exists and is
sampled from `hstartT[f]` to `hendT[f+n-1]`. -/
theorem peakPolyLine_cluster (rb : RecoBaseDrawer) (r : HitRecords) (f n i : Nat)
    (hal : r.Aligned) (hc : IsCluster r f n) (hfi : f ≤ i) (hin : i < f + n) :
    ∃ s e tau1 tau2 amp peak,
      r.hstartT[f]? = some s ∧ r.hendT[f + n - 1]? = some e ∧
      r.htau1[i]? = some tau1 ∧ r.htau2[i]? = some tau2 ∧
      r.hamplitudes[i]? = some amp ∧ r.hpeaktimes[i]? = some peak ∧
      peakPolyLine rb r i = some
        { n := 1001, color := kOrange + 7, width := 3, style := 1,
          points := (List.range 1001).map fun j =>
            (curveX s e j, rb.EvalExpoFit (curveX s e j) tau1 tau2 amp peak) } := by
  obtain ⟨hsz, h1, h2, h3, h4, h5, _, _⟩ := hal
  obtain ⟨hn1, hfn, hk⟩ := hc
  obtain ⟨hm, hl⟩ := hk i hin hfi
  have hi : i < r.size := by omega
  have hf64 : f < 2 ^ 64 := by omega
  have hfn64 : f + n < 2 ^ 64 + 1 := by omega
  obtain ⟨s, e1⟩ : ∃ s, r.hstartT[f]? = some s :=
    ⟨_, List.getElem?_eq_getElem (by omega)⟩
  obtain ⟨e, e2⟩ : ∃ e, r.hendT[f + n - 1]? = some e :=
    ⟨_, List.getElem?_eq_getElem (by omega)⟩
  obtain ⟨tau1, e3⟩ : ∃ t, r.htau1[i]? = some t := ⟨_, List.getElem?_eq_getElem (by omega)⟩
  obtain ⟨tau2, e4⟩ : ∃ t, r.htau2[i]? = some t := ⟨_, List.getElem?_eq_getElem (by omega)⟩
  obtain ⟨amp, e5⟩ : ∃ t, r.hamplitudes[i]? = some t :=
    ⟨_, List.getElem?_eq_getElem (by unfold HitRecords.size at hi; omega)⟩
  obtain ⟨peak, e6⟩ : ∃ t, r.hpeaktimes[i]? = some t := ⟨_, List.getElem?_eq_getElem (by omega)⟩
  refine ⟨s, e, tau1, tau2, amp, peak, e1, e2, e3, e4, e5, e6, ?_⟩
  simp only [peakPolyLine, hm, hl, toSizeT_sub_local f i hf64, toSizeT_last f n i hn1 hfn64,
    e1, e2, e3, e4, e5, e6, Option.bind_eq_bind, Option.some_bind, Option.pure_def]

/-- At the first record `f` of a cluster `[f, f+n)` the sum curve exists and is
sampled from `hstartT[f]` to `hendT[f+n-1]`. -/
theorem sumPolyLine_cluster (rb : RecoBaseDrawer) (r : HitRecords) (f n : Nat)
    (hal : r.Aligned) (hc : IsCluster r f n) :
    ∃ s e,
      r.hstartT[f]? = some s ∧ r.hendT[f + n - 1]? = some e ∧
      sumPolyLine rb r f = some
        { n := 1001, color := kRed, width := 3, style := 1,
          points := (List.range 1001).map fun j =>
            (curveX s e j,
             rb.EvalMultiExpoFit (curveX s e j) f n r.htau1 r.htau2 r.hamplitudes r.hpeaktimes) } := by
  obtain ⟨hsz, _, _, _, h4, h5, _, _⟩ := hal
  obtain ⟨hn1, hfn, hk⟩ := hc
  obtain ⟨hm, _⟩ := hk f (by omega) (le_refl f)
  have hfn64 : f + n < 2 ^ 64 + 1 := by omega
  obtain ⟨s, e1⟩ : ∃ s, r.hstartT[f]? = some s :=
    ⟨_, List.getElem?_eq_getElem (by omega)⟩
  obtain ⟨e, e2⟩ : ∃ e, r.hendT[f + n - 1]? = some e :=
    ⟨_, List.getElem?_eq_getElem (by omega)⟩
  refine ⟨s, e, e1, e2, ?_⟩
  simp only [sumPolyLine, hm, toSizeT_last_head f n hn1 hfn64, e1, e2, Option.bind_eq_bind,
    Option.some_bind, Option.pure_def]

/-- Inside a cluster `[f, f+n)` the overlay loop produces for record `i` the sum curve
(only at `i = f` and when `n > 1`) followed by the single-peak curve. -/
theorem overlayCurves_cluster (rb : RecoBaseDrawer) (r : HitRecords) (f n i : Nat)
    (hal : r.Aligned) (hc : IsCluster r f n) (hfi : f ≤ i) (hin : i < f + n) :
    ∃ p1, peakPolyLine rb r i = some p1 ∧
      p1.color = kOrange + 7 ∧ p1.n = 1001 ∧ p1.points.length = 1001 ∧
      ((1 < n ∧ i = f) → ∃ p2, sumPolyLine rb r i = some p2 ∧
        p2.color = kRed ∧ p2.n = 1001 ∧ p2.points.length = 1001 ∧
        overlayCurves rb r i = [p2, p1]) ∧
      (¬ (1 < n ∧ i = f) → overlayCurves rb r i = [p1]) := by
  obtain ⟨s, e, tau1, tau2, amp, peak, _, _, _, _, _, _, hp⟩ :=
    peakPolyLine_cluster rb r f n i hal hc hfi hin
  obtain ⟨_, _, hk⟩ := id hc
  obtain ⟨hm, hl⟩ := hk i hin hfi
  refine ⟨_, hp, rfl, rfl, by simp, ?_, ?_⟩
  · rintro ⟨hn, rfl⟩
    obtain ⟨s2, e2, _, _, hs⟩ := sumPolyLine_cluster rb r i n hal hc
    refine ⟨_, hs, rfl, rfl, by simp, ?_⟩
    have hn' : (1 : Int) < n := by exact_mod_cast hn
    simp [overlayCurves, hm, hl, hs, hp, hn']
  · intro hnot
    have hcond : ¬ ((n : Int) > 1 ∧ (i : Int) - f = 0) := by
      rintro ⟨ha, hb⟩
      exact hnot ⟨by exact_mod_cast ha, by omega⟩
    simp only [overlayCurves, hm, hl, if_neg hcond, hp]
    rfl

/-- Inside a cluster, one iteration of the overlay loop succeeds and adds exactly the
curves of `overlayCurves` to the view and the pad. -/
theorem overlayStep_cluster (rb : RecoBaseDrawer) (r : HitRecords) (f n i : Nat)
    (hal : r.Aligned) (hc : IsCluster r f n) (hfi : f ≤ i) (hin : i < f + n)
    (st : View2D × TPad) :
    overlayStep rb r st i = some (appendCurves st (overlayCurves rb r i)) := by
  obtain ⟨p1, hp, _, _, _, hhead, hrest⟩ := overlayCurves_cluster rb r f n i hal hc hfi hin
  obtain ⟨_, _, hk⟩ := id hc
  obtain ⟨hm, hl⟩ := hk i hin hfi
  by_cases h : 1 < n ∧ i = f
  · obtain ⟨p2, hs, _, _, _, hcur⟩ := hhead h
    have hcond : (n : Int) > 1 ∧ (i : Int) - f = 0 := ⟨by exact_mod_cast h.1, by omega⟩
    simp only [overlayStep, hm, hl, hcond, hs, hp, hcur, Option.bind_eq_bind, Option.some_bind,
      Option.pure_def, and_self, if_true, appendCurves, View2D.AddPolyLine, TPad.draw]
    simp
  · have hcond : ¬ ((n : Int) > 1 ∧ (i : Int) - f = 0) := by
      rintro ⟨ha, hb⟩
      exact h ⟨by exact_mod_cast ha, by omega⟩
    simp only [overlayStep, hm, hl, if_neg hcond, hp, hrest h, Option.bind_eq_bind,
      Option.some_bind, Option.pure_def, appendCurves, View2D.AddPolyLine, TPad.draw]
    simp

theorem appendCurves_nil (st : View2D × TPad) : appendCurves st [] = st := by
  simp [appendCurves]

theorem appendCurves_append (st : View2D × TPad) (a b : List TPolyLine) :
    appendCurves (appendCurves st a) b = appendCurves st (a ++ b) := by
  simp [appendCurves]

/-- A run of the overlay loop over indices that all lie in clusters succeeds and adds
the curves of these records, in order. -/
theorem overlay_foldlM (rb : RecoBaseDrawer) (r : HitRecords) (l : List Nat)
    (hl : ∀ i ∈ l, ∀ st, overlayStep rb r st i = some (appendCurves st (overlayCurves rb r i)))
    (st : View2D × TPad) :
    l.foldlM (overlayStep rb r) st = some (appendCurves st (l.flatMap (overlayCurves rb r))) := by
  induction l generalizing st with
  | nil => simp [appendCurves_nil]
  | cons a l ih =>
    rw [List.foldlM_cons, hl a (List.mem_cons_self a l) st]
    simp only [Option.bind_eq_bind, Option.some_bind]
    rw [ih (fun i hi => hl i (List.mem_cons_of_mem a hi)), appendCurves_append]
    simp [List.flatMap_cons]

/-- Counting the curves of one kind over a run of records. -/
theorem countP_flatMap_indicator {α β : Type} (p : β → Bool) (q : α → Bool) (g : α → List β)
    (l : List α) (h : ∀ a ∈ l, (g a).countP p = if q a then 1 else 0) :
    (l.flatMap g).countP p = l.countP q := by
  induction l with
  | nil => simp
  | cons a l ih =>
    rw [List.flatMap_cons, List.countP_append, h a (List.mem_cons_self a l),
      ih (fun b hb => h b (List.mem_cons_of_mem a hb)), List.countP_cons]
    omega

/-- Under the layout invariant every iteration of the overlay loop succeeds. -/
theorem overlayStep_layout (rb : RecoBaseDrawer) (r : HitRecords) (hinv : LayoutInvariant r)
    (i : Nat) (hi : i < r.size) (st : View2D × TPad) :
    overlayStep rb r st i = some (appendCurves st (overlayCurves rb r i)) := by
  obtain ⟨f, _, n, _, hfi, hin, hc⟩ := hinv.2 i hi
  exact overlayStep_cluster rb r f n i hinv.1 hc hfi hin st

/-- Under the layout invariant the overlay loop of a display mode other than `kRAW`
adds the curves of all records, in order. -/
theorem overlayLoop_layout (rb : RecoBaseDrawer) (r : HitRecords) (hinv : LayoutInvariant r)
    (mode : Int) (hmode : mode ≠ kRAW) (st : View2D × TPad) :
    overlayLoop rb r mode st =
      some (appendCurves st ((List.range r.size).flatMap (overlayCurves rb r))) := by
  unfold overlayLoop
  rw [if_pos hmode]
  exact overlay_foldlM rb r _
    (fun i hi st => overlayStep_layout rb r hinv i (List.mem_range.mp hi) st) st

/-- Two clusters that share a record coincide. -/
theorem cluster_unique (r : HitRecords) (f n g m i : Nat) (hc : IsCluster r f n)
    (hd : IsCluster r g m) (hfi : f ≤ i) (hin : i < f + n) (hgi : g ≤ i) (him : i < g + m) :
    f = g ∧ n = m := by
  obtain ⟨_, _, hk⟩ := hc
  obtain ⟨_, _, hj⟩ := hd
  obtain ⟨a1, a2⟩ := hk i hin hfi
  obtain ⟨b1, b2⟩ := hj i him hgi
  rw [a1] at b1
  rw [a2] at b2
  have h1 : (n : Int) = m := Option.some.inj b1
  have h2 : (i : Int) - f = (i : Int) - g := Option.some.inj b2
  omega

/-- Every curve of the overlay loop has 1001 points and one of the two colours; the
single-peak curves are one per record, the sum curves one per first record of a
multi-hit cluster. -/
theorem overlayCurves_layout (rb : RecoBaseDrawer) (r : HitRecords) (hinv : LayoutInvariant r)
    (i : Nat) (hi : i < r.size) :
    (∀ p ∈ overlayCurves rb r i,
      p.n = 1001 ∧ p.points.length = 1001 ∧ (p.color = kRed ∨ p.color = kOrange + 7)) ∧
    (overlayCurves rb r i).countP (fun p => decide (p.color = kOrange + 7)) = 1 ∧
    (overlayCurves rb r i).countP (fun p => decide (p.color = kRed)) =
      if decide (IsMultiHitHead r i) then 1 else 0 := by
  obtain ⟨f, _, n, hn, hfi, hin, hc⟩ := hinv.2 i hi
  obtain ⟨p1, _, c1, n1, l1, hhead, hrest⟩ := overlayCurves_cluster rb r f n i hinv.1 hc hfi hin
  have hne : kRed ≠ kOrange + 7 := by decide
  by_cases h : 1 < n ∧ i = f
  · obtain ⟨p2, _, c2, n2, l2, hcur⟩ := hhead h
    have hmh : IsMultiHitHead r i := ⟨n, hn, h.1, h.2 ▸ hc⟩
    rw [hcur]
    refine ⟨?_, ?_, ?_⟩
    · intro p hp
      simp only [List.mem_cons, List.mem_singleton, List.not_mem_nil, or_false] at hp
      rcases hp with rfl | rfl
      · exact ⟨n2, l2, Or.inl c2⟩
      · exact ⟨n1, l1, Or.inr c1⟩
    · simp [List.countP_cons, c1, c2, hne]
    · simp [List.countP_cons, c1, c2, hmh, hne.symm]
  · have hmh : ¬ IsMultiHitHead r i := by
      rintro ⟨m, _, hm1, hd⟩
      have hu := cluster_unique r f n i m i hc hd hfi hin (le_refl i) (by omega)
      exact h ⟨by omega, hu.1.symm⟩
    rw [hrest h]
    refine ⟨?_, ?_, ?_⟩
    · intro p hp
      simp only [List.mem_singleton] at hp
      subst hp
      exact ⟨n1, l1, Or.inr c1⟩
    · simp [List.countP_cons, c1]
    · simp [List.countP_cons, c1, hmh, hne.symm]

/-- The records of one multi-hit cluster contribute one sum curve followed by one
single-peak curve per record. -/
theorem overlayCurves_of_cluster (rb : RecoBaseDrawer) (r : HitRecords) (f n : Nat)
    (hal : r.Aligned) (hc : IsCluster r f n) (hn : 1 < n) :
    ∃ sum peaks, (List.range' f n).flatMap (overlayCurves rb r) = sum :: peaks ∧
      sum.color = kRed ∧ sum.n = 1001 ∧ peaks.length = n ∧
      ∀ p ∈ peaks, p.color = kOrange + 7 ∧ p.n = 1001 := by
  have htail : ∀ l : List Nat, (∀ i ∈ l, f < i ∧ i < f + n) →
      ∃ peaks, l.flatMap (overlayCurves rb r) = peaks ∧ peaks.length = l.length ∧
        ∀ p ∈ peaks, p.color = kOrange + 7 ∧ p.n = 1001 := by
    intro l
    induction l with
    | nil => intro _; exact ⟨[], by simp, rfl, by simp⟩
    | cons a l ih =>
      intro hl
      obtain ⟨peaks, he, hlen, hall⟩ := ih (fun i hi => hl i (List.mem_cons_of_mem a hi))
      obtain ⟨ha1, ha2⟩ := hl a (List.mem_cons_self a l)
      obtain ⟨p1, _, c1, n1, _, _, hrest⟩ :=
        overlayCurves_cluster rb r f n a hal hc (by omega) ha2
      refine ⟨p1 :: peaks, ?_, by simp [hlen], ?_⟩
      · rw [List.flatMap_cons, he, hrest (by omega)]
        rfl
      · intro p hp
        rcases List.mem_cons.mp hp with rfl | hp
        · exact ⟨c1, n1⟩
        · exact hall p hp
  obtain ⟨p1, _, c1, n1, _, hhead, _⟩ :=
    overlayCurves_cluster rb r f n f hal hc (le_refl f) (by omega)
  obtain ⟨p2, _, c2, n2, _, hcur⟩ := hhead ⟨hn, rfl⟩
  obtain ⟨m, rfl⟩ : ∃ m, n = m + 1 := ⟨n - 1, by omega⟩
  obtain ⟨peaks, he, hlen, hall⟩ := htail (List.range' (f + 1) m) (by
    intro i hi
    rw [List.mem_range'_1] at hi
    omega)
  refine ⟨p2, p1 :: peaks, ?_, c2, n2, by simp [hlen], ?_⟩
  · rw [List.range'_succ, List.flatMap_cons, he, hcur]
    rfl
  · intro p hp
    rcases List.mem_cons.mp hp with rfl | hp
    · exact ⟨c1, n1⟩
    · exact hall p hp

/-- Dual-phase time-vs-charge draw under the layout invariant and a display mode
other than `kRAW`, in closed form. -/
theorem drawDualPhase_TQ_layout (env : Env) (evt : Event) (pad : TQPad) (raw reco : TH1F)
    (hTQ : pad.fTQ = kTQ) (hmode : env.drawopt.fDrawRawDataOrCalibWires ≠ kRAW)
    (hinv : LayoutInvariant (env.recoBaseDraw.FillTQHistoDP evt pad.fPlane pad.fWire).2) :
    drawDualPhase env evt pad raw reco =
      let mode := env.drawopt.fDrawRawDataOrCalibWires
      let raw1 := raw.Reset.FillAll (env.rawDataDraw.FillTQHisto evt pad.fPlane pad.fWire)
      let filled := env.recoBaseDraw.FillTQHistoDP evt pad.fPlane pad.fWire
      let reco1 := reco.Reset.FillAll filled.1
      let sw := switchDP mode raw1 reco1 pad.fPad.Clear
      let st := appendCurves (pad.fView, sw.2)
        ((List.range filled.2.size).flatMap (overlayCurves env.recoBaseDraw filled.2))
      some { pad with fRawHisto := some (drawStyleDP sw.1),
                      fRecoHisto := some (drawStyleDP reco1),
                      fView := st.1, fPad := redrawDP mode st.2 } := by
  unfold drawDualPhase
  simp only [hTQ, if_true]
  rw [overlayLoop_layout _ _ hinv _ hmode]

/-- Dual-phase draw under display mode `kRAW`: the overlay loop does not run and the
view is left as it was. -/
theorem drawDualPhase_raw_view (env : Env) (evt : Event) (pad : TQPad) (raw reco : TH1F)
    (hmode : env.drawopt.fDrawRawDataOrCalibWires = kRAW) :
    ∃ pad', drawDualPhase env evt pad raw reco = some pad' ∧ pad'.fView = pad.fView := by
  unfold drawDualPhase
  by_cases hTQ : pad.fTQ = kTQ
  · simp only [hTQ, if_true, overlayLoop, hmode, ne_eq, not_true_eq_false, if_false]
    exact ⟨_, rfl, rfl⟩
  · simp only [hTQ, if_false]
    exact ⟨_, rfl, rfl⟩

theorem sampleRecords_cluster : IsCluster sampleRecords 0 2 := by
  refine ⟨by decide, by decide, ?_⟩
  intro k hk _
  have : k = 0 ∨ k = 1 := by omega
  rcases this with rfl | rfl <;> exact ⟨rfl, rfl⟩

theorem sampleRecords_layout : LayoutInvariant sampleRecords := by
  refine ⟨by decide, ?_⟩
  intro i hi
  have hi2 : i < 2 := hi
  exact ⟨0, by decide, 2, by decide, by omega, by omega, sampleRecords_cluster⟩

/-- C3 (amended): on the dual-phase path with plot mode ChargeVsTime, under every
display mode other than RawOnly and for fitted-hit records satisfying the layout
invariant, the draw succeeds and appends overlay polylines of 1001 points each to the
view: one single-peak polyline per record and one sum polyline per multi-hit cluster;
the records of a multi-hit cluster of size `n` contribute, contiguously, exactly one
sum polyline followed by exactly `n` single-peak polylines. -/
theorem dualPhase_overlay_curves (env : Env) (pad : TQPad) (raw reco : TH1F) (evt : Event)
    (hraw : pad.fRawHisto = some raw) (hreco : pad.fRecoHisto = some reco)
    (hevt : env.evt = some evt) (hdp : evt.dprawhit = true) (hTQ : pad.fTQ = kTQ)
    (hmode : env.drawopt.fDrawRawDataOrCalibWires ≠ kRAW)
    (recs : HitRecords)
    (hrecs : (env.recoBaseDraw.FillTQHistoDP evt pad.fPlane pad.fWire).2 = recs)
    (hinv : LayoutInvariant recs) :
    ∃ pad' added, pad.Draw env = some pad' ∧
      pad'.fView.fPolyLineL = pad.fView.fPolyLineL ++ added ∧
      (∀ p ∈ added,
        p.n = 1001 ∧ p.points.length = 1001 ∧ (p.color = kRed ∨ p.color = kOrange + 7)) ∧
      added.countP (fun p => decide (p.color = kOrange + 7)) = recs.size ∧
      added.countP (fun p => decide (p.color = kRed)) = multiHitClusters recs ∧
      (∀ f n, 1 < n → IsCluster recs f n →
        ∃ pre sum peaks post, added = pre ++ sum :: peaks ++ post ∧
          pre = (List.range f).flatMap (overlayCurves env.recoBaseDraw recs) ∧
          post = (List.range' (f + n) (recs.size - (f + n))).flatMap
            (overlayCurves env.recoBaseDraw recs) ∧
          sum.color = kRed ∧ sum.n = 1001 ∧ peaks.length = n ∧
          ∀ p ∈ peaks, p.color = kOrange + 7 ∧ p.n = 1001) := by
  subst hrecs
  rw [Draw_eq_dualPhase env pad raw reco evt hraw hreco hevt hdp,
    drawDualPhase_TQ_layout env evt pad raw reco hTQ hmode hinv]
  refine ⟨_, _, rfl, rfl, ?_, ?_, ?_, ?_⟩
  · intro p hp
    obtain ⟨i, hi, hpi⟩ := List.mem_flatMap.mp hp
    exact (overlayCurves_layout _ _ hinv i (List.mem_range.mp hi)).1 p hpi
  · rw [countP_flatMap_indicator _ (fun _ => true) _ _ (fun i hi => by
      simpa using (overlayCurves_layout _ _ hinv i (List.mem_range.mp hi)).2.1)]
    simp
  · rw [countP_flatMap_indicator _ _ _ _ (fun i hi =>
      (overlayCurves_layout _ _ hinv i (List.mem_range.mp hi)).2.2)]
    rfl
  · intro f n hn hc
    obtain ⟨sum, peaks, he, c2, n2, hlen, hall⟩ :=
      overlayCurves_of_cluster env.recoBaseDraw _ f n hinv.1 hc hn
    refine ⟨_, sum, peaks, _, ?_, rfl, rfl, c2, n2, hlen, hall⟩
    have hsplit : List.range (env.recoBaseDraw.FillTQHistoDP evt pad.fPlane pad.fWire).2.size =
        List.range f ++ (List.range' f n ++ List.range' (f + n)
          ((env.recoBaseDraw.FillTQHistoDP evt pad.fPlane pad.fWire).2.size - (f + n))) := by
      have hle := hc.2.1
      rw [List.range_eq_range', List.range_eq_range']
      have h1 := List.range'_append f n
        ((env.recoBaseDraw.FillTQHistoDP evt pad.fPlane pad.fWire).2.size - (f + n)) 1
      have h2 := List.range'_append 0 f
        ((env.recoBaseDraw.FillTQHistoDP evt pad.fPlane pad.fWire).2.size - (f + n) + n) 1
      simp only [one_mul, zero_add] at h1 h2
      rw [h1, h2]
      congr 1
      omega
    rw [hsplit, List.flatMap_append, List.flatMap_append, he, List.range_eq_range']
    simp

/-- Witness of C3 (amended): the sample two-hit cluster under CalibratedOnly. -/
theorem dualPhase_overlay_curves_witness :
    ∃ pad' added, (samplePad kTQ).Draw (sampleEnv kCALIB true) = some pad' ∧
      pad'.fView.fPolyLineL = (samplePad kTQ).fView.fPolyLineL ++ added ∧
      (∀ p ∈ added,
        p.n = 1001 ∧ p.points.length = 1001 ∧ (p.color = kRed ∨ p.color = kOrange + 7)) ∧
      added.countP (fun p => decide (p.color = kOrange + 7)) = sampleRecords.size ∧
      added.countP (fun p => decide (p.color = kRed)) = multiHitClusters sampleRecords ∧
      (∀ f n, 1 < n → IsCluster sampleRecords f n →
        ∃ pre sum peaks post, added = pre ++ sum :: peaks ++ post ∧
          pre = (List.range f).flatMap
            (overlayCurves (sampleEnv kCALIB true).recoBaseDraw sampleRecords) ∧
          post = (List.range' (f + n) (sampleRecords.size - (f + n))).flatMap
            (overlayCurves (sampleEnv kCALIB true).recoBaseDraw sampleRecords) ∧
          sum.color = kRed ∧ sum.n = 1001 ∧ peaks.length = n ∧
          ∀ p ∈ peaks, p.color = kOrange + 7 ∧ p.n = 1001) :=
  dualPhase_overlay_curves (sampleEnv kCALIB true) (samplePad kTQ) _ _ _ rfl rfl rfl rfl rfl
    (by decide) sampleRecords rfl sampleRecords_layout

/-- Counterexample to C3 as stated: under display mode RawOnly the records of the
sample two-hit cluster satisfy the layout invariant, yet the draw adds no polyline at
all to the view. -/
theorem dualPhase_overlay_rawOnly_counterexample :
    LayoutInvariant sampleRecords ∧ IsCluster sampleRecords 0 2 ∧
    ((sampleEnv kRAW true).recoBaseDraw.FillTQHistoDP ⟨true, 1⟩ 0 0).2 = sampleRecords ∧
    ∃ pad', (samplePad kTQ).Draw (sampleEnv kRAW true) = some pad' ∧
      pad'.fView.fPolyLineL = [] := by
  refine ⟨sampleRecords_layout, sampleRecords_cluster, rfl, ?_⟩
  obtain ⟨pad', h, hv⟩ := drawDualPhase_raw_view (sampleEnv kRAW true) ⟨true, 1⟩ (samplePad kTQ)
    (TH1F.new "fRAWHisto" "" 4 0 4) (TH1F.new "fCALHisto" "" 4 0 4) rfl
  refine ⟨pad', ?_, ?_⟩
  · rw [Draw_eq_dualPhase (sampleEnv kRAW true) (samplePad kTQ) _ _ ⟨true, 1⟩ rfl rfl rfl rfl]
    exact h
  · rw [hv]
    rfl

/-! ## Auxiliary facts: buffers -/

/-- Axis shape of a buffer: bin count and axis range. -/
theorem Fill_shape (h : TH1F) (x w : ℚ) :
    (h.Fill x w).nbins = h.nbins ∧ (h.Fill x w).xlow = h.xlow ∧ (h.Fill x w).xup = h.xup ∧
    (h.Fill x w).fMinimum = h.fMinimum ∧ (h.Fill x w).fMaximum = h.fMaximum ∧
    (h.Fill x w).contents.length = h.contents.length := by
  unfold TH1F.Fill
  cases h.FindBin x <;> simp

theorem FillAll_shape (h : TH1F) (l : List (ℚ × ℚ)) :
    (h.FillAll l).nbins = h.nbins ∧ (h.FillAll l).xlow = h.xlow ∧ (h.FillAll l).xup = h.xup ∧
    (h.FillAll l).fMinimum = h.fMinimum ∧ (h.FillAll l).fMaximum = h.fMaximum ∧
    (h.FillAll l).contents.length = h.contents.length := by
  unfold TH1F.FillAll
  induction l generalizing h with
  | nil => simp
  | cons a l ih =>
    rw [List.foldl_cons]
    obtain ⟨h1, h2, h3, h4, h5, h6⟩ := ih (h.Fill a.1 a.2)
    obtain ⟨g1, g2, g3, g4, g5, g6⟩ := Fill_shape h a.1 a.2
    exact ⟨h1.trans g1, h2.trans g2, h3.trans g3, h4.trans g4, h5.trans g5, h6.trans g6⟩

/-- The bin values after a `Fill` depend only on the axis and the bin values before. -/
theorem Fill_contents_congr (h g : TH1F) (x w : ℚ) (hn : h.nbins = g.nbins)
    (hl : h.xlow = g.xlow) (hu : h.xup = g.xup) (hc : h.contents = g.contents) :
    (h.Fill x w).contents = (g.Fill x w).contents := by
  unfold TH1F.Fill TH1F.FindBin
  rw [hn, hl, hu]
  split_ifs <;> simp [hc]

theorem FillAll_contents_congr (l : List (ℚ × ℚ)) (h g : TH1F) (hn : h.nbins = g.nbins)
    (hl : h.xlow = g.xlow) (hu : h.xup = g.xup) (hc : h.contents = g.contents) :
    (h.FillAll l).contents = (g.FillAll l).contents := by
  unfold TH1F.FillAll
  induction l generalizing h g with
  | nil => simpa using hc
  | cons a l ih =>
    rw [List.foldl_cons, List.foldl_cons]
    obtain ⟨h1, h2, h3, _, _, _⟩ := Fill_shape h a.1 a.2
    obtain ⟨g1, g2, g3, _, _, _⟩ := Fill_shape g a.1 a.2
    exact ih _ _ (by rw [h1, g1, hn]) (by rw [h2, g2, hl]) (by rw [h3, g3, hu])
      (Fill_contents_congr h g a.1 a.2 hn hl hu hc)

theorem drawStyleDP_data (h : TH1F) :
    (drawStyleDP h).nbins = h.nbins ∧ (drawStyleDP h).xlow = h.xlow ∧
    (drawStyleDP h).xup = h.xup ∧ (drawStyleDP h).contents = h.contents ∧
    (drawStyleDP h).fMinimum = h.fMinimum ∧ (drawStyleDP h).fMaximum = h.fMaximum := by
  simp [drawStyleDP, TH1F.SetLabelSize, TH1F.SetLabelOffset, TH1F.SetTitleSize,
    TH1F.SetTitleOffset]

theorem drawStyleQ_data (h : TH1F) :
    (drawStyleQ h).nbins = h.nbins ∧ (drawStyleQ h).xlow = h.xlow ∧
    (drawStyleQ h).xup = h.xup ∧ (drawStyleQ h).contents = h.contents ∧
    (drawStyleQ h).fMinimum = h.fMinimum ∧ (drawStyleQ h).fMaximum = h.fMaximum := by
  simp [drawStyleQ, TH1F.SetLabelSize, TH1F.SetTickLength]

theorem switchDP_data (mode : Int) (raw reco : TH1F) (p : TPad) :
    (switchDP mode raw reco p).1.nbins = raw.nbins ∧ (switchDP mode raw reco p).1.xlow = raw.xlow ∧
    (switchDP mode raw reco p).1.xup = raw.xup ∧
    (switchDP mode raw reco p).1.contents = raw.contents := by
  unfold switchDP
  split_ifs <;> simp [TH1F.SetMaximum, TH1F.SetMinimum]

/-- The minimum and maximum the `switch` of the dual-phase branch leaves set on the raw
buffer: the combined, scaled range under `kRAWCALIB`, those of the input otherwise. -/
theorem switchDP_minmax (mode : Int) (raw reco : TH1F) (p : TPad) :
    (mode = kRAWCALIB →
      (switchDP mode raw reco p).1.fMaximum = some (1.2 * max raw.GetMaximum reco.GetMaximum) ∧
      (switchDP mode raw reco p).1.fMinimum = some (1.2 * min raw.GetMinimum reco.GetMinimum)) ∧
    (mode ≠ kRAWCALIB →
      (switchDP mode raw reco p).1.fMaximum = raw.fMaximum ∧
      (switchDP mode raw reco p).1.fMinimum = raw.fMinimum) := by
  unfold switchDP
  constructor
  · intro h
    subst h
    simp [TH1F.SetMaximum, TH1F.SetMinimum, TH1F.GetMinimum, TH1F.binMinimum]
  · intro h
    split_ifs <;> simp

theorem overlayLoop_some (rb : RecoBaseDrawer) (r : HitRecords) (mode : Int)
    (hinv : mode ≠ kRAW → LayoutInvariant r) (st : View2D × TPad) :
    ∃ st', overlayLoop rb r mode st = some st' := by
  by_cases h : mode = kRAW
  · exact ⟨st, by simp [overlayLoop, h]⟩
  · exact ⟨_, overlayLoop_layout rb r (hinv h) mode h st⟩

/-- Dual-phase time-vs-charge draw: it succeeds when the overlay loop does, leaves the
frame buffer alone, and leaves the raw and calibrated buffers reset, filled, scaled by
the `switch` and styled. -/
theorem drawDualPhase_TQ_buffers (env : Env) (evt : Event) (pad : TQPad) (raw reco : TH1F)
    (hTQ : pad.fTQ = kTQ)
    (hinv : env.drawopt.fDrawRawDataOrCalibWires ≠ kRAW →
      LayoutInvariant (env.recoBaseDraw.FillTQHistoDP evt pad.fPlane pad.fWire).2) :
    ∃ pad', drawDualPhase env evt pad raw reco = some pad' ∧
      pad'.fTQ = pad.fTQ ∧ pad'.fPlane = pad.fPlane ∧ pad'.fWire = pad.fWire ∧
      pad'.fFrameHist = pad.fFrameHist ∧
      pad'.fRawHisto = some (drawStyleDP (switchDP env.drawopt.fDrawRawDataOrCalibWires
        (raw.Reset.FillAll (env.rawDataDraw.FillTQHisto evt pad.fPlane pad.fWire))
        (reco.Reset.FillAll (env.recoBaseDraw.FillTQHistoDP evt pad.fPlane pad.fWire).1)
        pad.fPad.Clear).1) ∧
      pad'.fRecoHisto = some (drawStyleDP
        (reco.Reset.FillAll (env.recoBaseDraw.FillTQHistoDP evt pad.fPlane pad.fWire).1)) := by
  obtain ⟨st', hst⟩ := overlayLoop_some env.recoBaseDraw
    (env.recoBaseDraw.FillTQHistoDP evt pad.fPlane pad.fWire).2
    env.drawopt.fDrawRawDataOrCalibWires hinv
    (pad.fView, (switchDP env.drawopt.fDrawRawDataOrCalibWires
        (raw.Reset.FillAll (env.rawDataDraw.FillTQHisto evt pad.fPlane pad.fWire))
        (reco.Reset.FillAll (env.recoBaseDraw.FillTQHistoDP evt pad.fPlane pad.fWire).1)
        pad.fPad.Clear).2)
  unfold drawDualPhase
  simp only [hTQ, if_true]
  rw [hst]
  exact ⟨_, rfl, hTQ.symm ▸ rfl, rfl, rfl, rfl, rfl, rfl⟩

theorem foldl_max_spec (l : List ℚ) (c : ℚ) :
    (∀ x ∈ c :: l, x ≤ l.foldl max c) ∧ l.foldl max c ∈ c :: l := by
  induction l generalizing c with
  | nil => simp
  | cons a l ih =>
    obtain ⟨h1, h2⟩ := ih (max c a)
    rw [List.foldl_cons]
    refine ⟨?_, ?_⟩
    · intro x hx
      rcases List.mem_cons.mp hx with rfl | hx
      · exact le_trans (le_max_left _ _) (h1 _ (List.mem_cons_self _ _))
      · rcases List.mem_cons.mp hx with rfl | hx
        · exact le_trans (le_max_right _ _) (h1 _ (List.mem_cons_self _ _))
        · exact h1 x (List.mem_cons_of_mem _ hx)
    · rcases List.mem_cons.mp h2 with h | h
      · rw [h]
        rcases max_choice c a with h' | h' <;> rw [h'] <;> simp
      · exact List.mem_cons_of_mem _ (List.mem_cons_of_mem _ h)

theorem foldl_min_spec (l : List ℚ) (c : ℚ) :
    (∀ x ∈ c :: l, l.foldl min c ≤ x) ∧ l.foldl min c ∈ c :: l := by
  induction l generalizing c with
  | nil => simp
  | cons a l ih =>
    obtain ⟨h1, h2⟩ := ih (min c a)
    rw [List.foldl_cons]
    refine ⟨?_, ?_⟩
    · intro x hx
      rcases List.mem_cons.mp hx with rfl | hx
      · exact le_trans (h1 _ (List.mem_cons_self _ _)) (min_le_left _ _)
      · rcases List.mem_cons.mp hx with rfl | hx
        · exact le_trans (h1 _ (List.mem_cons_self _ _)) (min_le_right _ _)
        · exact h1 x (List.mem_cons_of_mem _ hx)
    · rcases List.mem_cons.mp h2 with h | h
      · rw [h]
        rcases min_choice c a with h' | h' <;> rw [h'] <;> simp
      · exact List.mem_cons_of_mem _ (List.mem_cons_of_mem _ h)

/-- For a buffer with at least one bin, `binMaximum` is the largest bin value. -/
theorem binMaximum_spec (h : TH1F) (hne : h.contents ≠ []) :
    (∀ x ∈ h.contents, x ≤ h.binMaximum) ∧ h.binMaximum ∈ h.contents := by
  unfold TH1F.binMaximum
  cases hc : h.contents with
  | nil => exact absurd hc hne
  | cons c cs => exact foldl_max_spec cs c

/-- For a buffer with at least one bin, `binMinimum` is the smallest bin value. -/
theorem binMinimum_spec (h : TH1F) (hne : h.contents ≠ []) :
    (∀ x ∈ h.contents, h.binMinimum ≤ x) ∧ h.binMinimum ∈ h.contents := by
  unfold TH1F.binMinimum
  cases hc : h.contents with
  | nil => exact absurd hc hne
  | cons c cs => exact foldl_min_spec cs c

/-- A freshly reset and filled buffer has no minimum or maximum set, so that
`GetMaximum` and `GetMinimum` report the extreme bin values. -/
theorem reset_fill_unset (h : TH1F) (l : List (ℚ × ℚ)) :
    (h.Reset.FillAll l).fMaximum = none ∧ (h.Reset.FillAll l).fMinimum = none ∧
    (h.Reset.FillAll l).GetMaximum = (h.Reset.FillAll l).binMaximum ∧
    (h.Reset.FillAll l).GetMinimum = (h.Reset.FillAll l).binMinimum := by
  obtain ⟨_, _, _, h4, h5, _⟩ := FillAll_shape h.Reset l
  have hmax : (h.Reset.FillAll l).fMaximum = none := by rw [h5]; rfl
  have hmin : (h.Reset.FillAll l).fMinimum = none := by rw [h4]; rfl
  refine ⟨hmax, hmin, ?_, ?_⟩
  · simp [TH1F.GetMaximum, hmax]
  · simp [TH1F.GetMinimum, hmin]

/-- C4: on the dual-phase path with plot mode ChargeVsTime (fitted-hit records laid out
so that the overlay loop is defined), the draw leaves the raw and calibrated buffers
reset and freshly filled; under RawAndCalibrated the maximum set on the raw buffer is
`1.2 * max(rawMax, recoMax)` and the minimum is `1.2 * min(rawMin, recoMin)`, the extremes
being those of the bin values of the freshly filled raw and calibrated buffers; under
RawOnly and CalibratedOnly no maximum or minimum is set on either buffer. -/
theorem dualPhase_combined_scaling (env : Env) (pad : TQPad) (raw reco : TH1F) (evt : Event)
    (hraw : pad.fRawHisto = some raw) (hreco : pad.fRecoHisto = some reco)
    (hevt : env.evt = some evt) (hdp : evt.dprawhit = true) (hTQ : pad.fTQ = kTQ)
    (hinv : env.drawopt.fDrawRawDataOrCalibWires ≠ kRAW →
      LayoutInvariant (env.recoBaseDraw.FillTQHistoDP evt pad.fPlane pad.fWire).2)
    (rawF recoF : TH1F)
    (hrawF : rawF = raw.Reset.FillAll (env.rawDataDraw.FillTQHisto evt pad.fPlane pad.fWire))
    (hrecoF : recoF =
      reco.Reset.FillAll (env.recoBaseDraw.FillTQHistoDP evt pad.fPlane pad.fWire).1) :
    ∃ pad' raw' reco', pad.Draw env = some pad' ∧
      pad'.fRawHisto = some raw' ∧ pad'.fRecoHisto = some reco' ∧
      raw'.contents = rawF.contents ∧ reco'.contents = recoF.contents ∧
      (env.drawopt.fDrawRawDataOrCalibWires = kRAWCALIB →
        raw'.fMaximum = some (1.2 * max rawF.binMaximum recoF.binMaximum) ∧
        raw'.fMinimum = some (1.2 * min rawF.binMinimum recoF.binMinimum) ∧
        reco'.fMaximum = none ∧ reco'.fMinimum = none) ∧
      (env.drawopt.fDrawRawDataOrCalibWires = kRAW ∨
        env.drawopt.fDrawRawDataOrCalibWires = kCALIB →
        raw'.fMaximum = none ∧ raw'.fMinimum = none ∧
        reco'.fMaximum = none ∧ reco'.fMinimum = none) := by
  obtain ⟨pad', hd, _, _, _, _, hr, hc⟩ := drawDualPhase_TQ_buffers env evt pad raw reco hTQ hinv
  rw [← hrawF, ← hrecoF] at hr
  rw [← hrecoF] at hc
  obtain ⟨r1, r2, r3, r4⟩ := reset_fill_unset raw
    (env.rawDataDraw.FillTQHisto evt pad.fPlane pad.fWire)
  obtain ⟨c1, c2, c3, c4⟩ := reset_fill_unset reco
    (env.recoBaseDraw.FillTQHistoDP evt pad.fPlane pad.fWire).1
  rw [← hrawF] at r1 r2 r3 r4
  rw [← hrecoF] at c1 c2 c3 c4
  obtain ⟨_, _, _, s4⟩ := switchDP_data env.drawopt.fDrawRawDataOrCalibWires rawF recoF
    pad.fPad.Clear
  obtain ⟨m1, m2⟩ := switchDP_minmax env.drawopt.fDrawRawDataOrCalibWires rawF recoF
    pad.fPad.Clear
  obtain ⟨_, _, _, d4, d5, d6⟩ := drawStyleDP_data
    (switchDP env.drawopt.fDrawRawDataOrCalibWires rawF recoF pad.fPad.Clear).1
  obtain ⟨_, _, _, e4, e5, e6⟩ := drawStyleDP_data recoF
  refine ⟨pad', _, _, ?_, hr, hc, d4.trans s4, e4, ?_, ?_⟩
  · rw [Draw_eq_dualPhase env pad raw reco evt hraw hreco hevt hdp]
    exact hd
  · intro hm
    obtain ⟨a, b⟩ := m1 hm
    rw [r3, c3] at a
    rw [r4, c4] at b
    exact ⟨d6.trans a, d5.trans b, e6.trans c1, e5.trans c2⟩
  · intro hm
    have hne : env.drawopt.fDrawRawDataOrCalibWires ≠ kRAWCALIB := by
      rcases hm with h | h <;> rw [h] <;> decide
    obtain ⟨a, b⟩ := m2 hne
    exact ⟨d6.trans (a.trans r1), d5.trans (b.trans r2), e6.trans c1, e5.trans c2⟩

/-- Witness of C4: the sample event under RawAndCalibrated. -/
theorem dualPhase_combined_scaling_witness :
    ∃ pad' raw' reco', (samplePad kTQ).Draw (sampleEnv kRAWCALIB true) = some pad' ∧
      pad'.fRawHisto = some raw' ∧ pad'.fRecoHisto = some reco' ∧
      raw'.contents =
        ((TH1F.new "fRAWHisto" "" 4 0 4).Reset.FillAll [(0, 3), (1, -2), (2, 5), (3, 1)]).contents ∧
      reco'.contents =
        ((TH1F.new "fCALHisto" "" 4 0 4).Reset.FillAll [(0, 1), (1, 4), (2, 2), (3, -1)]).contents ∧
      (kRAWCALIB = kRAWCALIB →
        raw'.fMaximum = some (1.2 * max
          ((TH1F.new "fRAWHisto" "" 4 0 4).Reset.FillAll [(0, 3), (1, -2), (2, 5), (3, 1)]).binMaximum
          ((TH1F.new "fCALHisto" "" 4 0 4).Reset.FillAll [(0, 1), (1, 4), (2, 2), (3, -1)]).binMaximum) ∧
        raw'.fMinimum = some (1.2 * min
          ((TH1F.new "fRAWHisto" "" 4 0 4).Reset.FillAll [(0, 3), (1, -2), (2, 5), (3, 1)]).binMinimum
          ((TH1F.new "fCALHisto" "" 4 0 4).Reset.FillAll [(0, 1), (1, 4), (2, 2), (3, -1)]).binMinimum) ∧
        reco'.fMaximum = none ∧ reco'.fMinimum = none) ∧
      (kRAWCALIB = kRAW ∨ kRAWCALIB = kCALIB →
        raw'.fMaximum = none ∧ raw'.fMinimum = none ∧
        reco'.fMaximum = none ∧ reco'.fMinimum = none) :=
  dualPhase_combined_scaling (sampleEnv kRAWCALIB true) (samplePad kTQ) _ _ _ rfl rfl rfl rfl rfl
    (fun _ => sampleRecords_layout) _ _ rfl rfl

/-! ## Auxiliary facts: drawing twice -/

theorem overlayStep_isSome_congr (rb : RecoBaseDrawer) (r : HitRecords) (i : Nat)
    (st st2 : View2D × TPad) :
    (overlayStep rb r st i).isSome = (overlayStep rb r st2 i).isSome := by
  unfold overlayStep
  cases r.hNMultiHit[i]? <;> cases r.hLocalHitIndex[i]? <;>
    simp only [Option.bind_eq_bind, Option.none_bind, Option.some_bind, Option.pure_def]
  split_ifs <;> cases sumPolyLine rb r i <;> cases peakPolyLine rb r i <;> simp

theorem overlay_foldlM_isSome_congr (rb : RecoBaseDrawer) (r : HitRecords) (l : List Nat)
    (st st2 : View2D × TPad) :
    (l.foldlM (overlayStep rb r) st).isSome = (l.foldlM (overlayStep rb r) st2).isSome := by
  induction l generalizing st st2 with
  | nil => simp
  | cons a l ih =>
    rw [List.foldlM_cons, List.foldlM_cons]
    have h := overlayStep_isSome_congr rb r a st st2
    cases h1 : overlayStep rb r st a with
    | none =>
      rw [h1] at h
      cases h2 : overlayStep rb r st2 a with
      | none => rfl
      | some v => rw [h2] at h; simp at h
    | some u =>
      rw [h1] at h
      cases h2 : overlayStep rb r st2 a with
      | none => rw [h2] at h; simp at h
      | some v => exact ih u v

/-- Whether the overlay loop succeeds does not depend on the view and pad it starts
from. -/
theorem overlayLoop_some_congr (rb : RecoBaseDrawer) (r : HitRecords) (mode : Int)
    (st st' st2 : View2D × TPad) (h : overlayLoop rb r mode st = some st') :
    ∃ st2', overlayLoop rb r mode st2 = some st2' := by
  unfold overlayLoop at h ⊢
  split_ifs at h ⊢ with hm
  · have hc := overlay_foldlM_isSome_congr rb r (List.range r.hamplitudes.length) st st2
    rw [h] at hc
    exact Option.isSome_iff_exists.mp hc.symm
  · exact ⟨st2, rfl⟩

theorem binMaximum_congr (h g : TH1F) (hc : h.contents = g.contents) :
    h.binMaximum = g.binMaximum := by
  simp [TH1F.binMaximum, hc]

theorem binMinimum_congr (h g : TH1F) (hc : h.contents = g.contents) :
    h.binMinimum = g.binMinimum := by
  simp [TH1F.binMinimum, hc]

/-- Resetting and refilling a buffer gives bin values that depend only on its axis and
its number of bins. -/
theorem refill_contents (h g : TH1F) (l : List (ℚ × ℚ)) (hn : g.nbins = h.nbins)
    (hl : g.xlow = h.xlow) (hu : g.xup = h.xup) (hlen : g.contents.length = h.contents.length) :
    (g.Reset.FillAll l).contents = (h.Reset.FillAll l).contents := by
  apply FillAll_contents_congr
  · exact hn
  · exact hl
  · exact hu
  · simp [TH1F.Reset, hlen]

/-- Observable data of the raw buffer after the `switch` of the dual-phase branch, for
freshly reset and filled buffers: a function of the display mode and the bin values. -/
theorem switchDP_histData (mode : Int) (raw reco : TH1F) (l t : List (ℚ × ℚ)) (p : TPad) :
    histData (some (drawStyleDP (switchDP mode (raw.Reset.FillAll l) (reco.Reset.FillAll t) p).1)) =
      some ((raw.Reset.FillAll l).contents,
        (if mode = kRAWCALIB then
          some (1.2 * min (raw.Reset.FillAll l).binMinimum (reco.Reset.FillAll t).binMinimum)
         else none),
        (if mode = kRAWCALIB then
          some (1.2 * max (raw.Reset.FillAll l).binMaximum (reco.Reset.FillAll t).binMaximum)
         else none)) := by
  obtain ⟨r1, r2, r3, r4⟩ := reset_fill_unset raw l
  obtain ⟨c1, c2, c3, c4⟩ := reset_fill_unset reco t
  obtain ⟨_, _, _, s4⟩ := switchDP_data mode (raw.Reset.FillAll l) (reco.Reset.FillAll t) p
  obtain ⟨m1, m2⟩ := switchDP_minmax mode (raw.Reset.FillAll l) (reco.Reset.FillAll t) p
  obtain ⟨_, _, _, d4, d5, d6⟩ := drawStyleDP_data
    (switchDP mode (raw.Reset.FillAll l) (reco.Reset.FillAll t) p).1
  simp only [histData, Option.map_some']
  rw [d4, d5, d6, s4]
  by_cases hm : mode = kRAWCALIB
  · obtain ⟨a, b⟩ := m1 hm
    rw [a, b, r3, r4, c3, c4, if_pos hm, if_pos hm]
  · obtain ⟨a, b⟩ := m2 hm
    rw [a, b, r1, r2, if_neg hm, if_neg hm]

theorem reco_histData (reco : TH1F) (t : List (ℚ × ℚ)) :
    histData (some (drawStyleDP (reco.Reset.FillAll t))) =
      some ((reco.Reset.FillAll t).contents, none, none) := by
  obtain ⟨c1, c2, _, _⟩ := reset_fill_unset reco t
  obtain ⟨_, _, _, d4, d5, d6⟩ := drawStyleDP_data (reco.Reset.FillAll t)
  simp only [histData, Option.map_some']
  rw [d4, d5, d6, c1, c2]

theorem processed_raw_shape (mode : Int) (raw recoF : TH1F) (l : List (ℚ × ℚ)) (p : TPad) :
    (drawStyleDP (switchDP mode (raw.Reset.FillAll l) recoF p).1).nbins = raw.nbins ∧
    (drawStyleDP (switchDP mode (raw.Reset.FillAll l) recoF p).1).xlow = raw.xlow ∧
    (drawStyleDP (switchDP mode (raw.Reset.FillAll l) recoF p).1).xup = raw.xup ∧
    (drawStyleDP (switchDP mode (raw.Reset.FillAll l) recoF p).1).contents.length =
      raw.contents.length := by
  obtain ⟨d1, d2, d3, d4, _, _⟩ := drawStyleDP_data (switchDP mode (raw.Reset.FillAll l) recoF p).1
  obtain ⟨s1, s2, s3, s4⟩ := switchDP_data mode (raw.Reset.FillAll l) recoF p
  obtain ⟨f1, f2, f3, _, _, f6⟩ := FillAll_shape raw.Reset l
  refine ⟨d1.trans (s1.trans f1), d2.trans (s2.trans f2), d3.trans (s3.trans f3), ?_⟩
  rw [d4, s4, f6]
  simp [TH1F.Reset]

theorem processed_reco_shape (reco : TH1F) (t : List (ℚ × ℚ)) :
    (drawStyleDP (reco.Reset.FillAll t)).nbins = reco.nbins ∧
    (drawStyleDP (reco.Reset.FillAll t)).xlow = reco.xlow ∧
    (drawStyleDP (reco.Reset.FillAll t)).xup = reco.xup ∧
    (drawStyleDP (reco.Reset.FillAll t)).contents.length = reco.contents.length := by
  obtain ⟨d1, d2, d3, d4, _, _⟩ := drawStyleDP_data (reco.Reset.FillAll t)
  obtain ⟨f1, f2, f3, _, _, f6⟩ := FillAll_shape reco.Reset t
  refine ⟨d1.trans f1, d2.trans f2, d3.trans f3, ?_⟩
  rw [d4, f6]
  simp [TH1F.Reset]

/-- What a successful dual-phase time-vs-charge draw leaves in the pad. -/
theorem drawDualPhase_TQ_of_some (env : Env) (evt : Event) (pad pad1 : TQPad) (raw reco : TH1F)
    (hTQ : pad.fTQ = kTQ) (h : drawDualPhase env evt pad raw reco = some pad1) :
    pad1.fTQ = kTQ ∧ pad1.fPlane = pad.fPlane ∧ pad1.fWire = pad.fWire ∧
    pad1.fFrameHist = pad.fFrameHist ∧
    pad1.fRawHisto = some (drawStyleDP (switchDP env.drawopt.fDrawRawDataOrCalibWires
      (raw.Reset.FillAll (env.rawDataDraw.FillTQHisto evt pad.fPlane pad.fWire))
      (reco.Reset.FillAll (env.recoBaseDraw.FillTQHistoDP evt pad.fPlane pad.fWire).1)
      pad.fPad.Clear).1) ∧
    pad1.fRecoHisto = some (drawStyleDP
      (reco.Reset.FillAll (env.recoBaseDraw.FillTQHistoDP evt pad.fPlane pad.fWire).1)) ∧
    ∃ st', overlayLoop env.recoBaseDraw (env.recoBaseDraw.FillTQHistoDP evt pad.fPlane pad.fWire).2
      env.drawopt.fDrawRawDataOrCalibWires
      (pad.fView, (switchDP env.drawopt.fDrawRawDataOrCalibWires
        (raw.Reset.FillAll (env.rawDataDraw.FillTQHisto evt pad.fPlane pad.fWire))
        (reco.Reset.FillAll (env.recoBaseDraw.FillTQHistoDP evt pad.fPlane pad.fWire).1)
        pad.fPad.Clear).2) = some st' := by
  unfold drawDualPhase at h
  simp only [hTQ, if_true] at h
  cases hl : overlayLoop env.recoBaseDraw
      (env.recoBaseDraw.FillTQHistoDP evt pad.fPlane pad.fWire).2
      env.drawopt.fDrawRawDataOrCalibWires
      (pad.fView, (switchDP env.drawopt.fDrawRawDataOrCalibWires
        (raw.Reset.FillAll (env.rawDataDraw.FillTQHisto evt pad.fPlane pad.fWire))
        (reco.Reset.FillAll (env.recoBaseDraw.FillTQHistoDP evt pad.fPlane pad.fWire).1)
        pad.fPad.Clear).2) with
  | none => rw [hl] at h; simp at h
  | some st' =>
    rw [hl] at h
    have h' := Option.some.inj h
    subst h'
    exact ⟨rfl, rfl, rfl, rfl, rfl, rfl, st', rfl⟩

/-- A dual-phase time-vs-charge draw succeeds when its overlay loop does. -/
theorem drawDualPhase_TQ_of_loop (env : Env) (evt : Event) (pad : TQPad) (raw reco : TH1F)
    (st' : View2D × TPad) (hTQ : pad.fTQ = kTQ)
    (hst : overlayLoop env.recoBaseDraw (env.recoBaseDraw.FillTQHistoDP evt pad.fPlane pad.fWire).2
      env.drawopt.fDrawRawDataOrCalibWires
      (pad.fView, (switchDP env.drawopt.fDrawRawDataOrCalibWires
        (raw.Reset.FillAll (env.rawDataDraw.FillTQHisto evt pad.fPlane pad.fWire))
        (reco.Reset.FillAll (env.recoBaseDraw.FillTQHistoDP evt pad.fPlane pad.fWire).1)
        pad.fPad.Clear).2) = some st') :
    ∃ pad', drawDualPhase env evt pad raw reco = some pad' ∧
      pad'.fFrameHist = pad.fFrameHist ∧
      pad'.fRawHisto = some (drawStyleDP (switchDP env.drawopt.fDrawRawDataOrCalibWires
        (raw.Reset.FillAll (env.rawDataDraw.FillTQHisto evt pad.fPlane pad.fWire))
        (reco.Reset.FillAll (env.recoBaseDraw.FillTQHistoDP evt pad.fPlane pad.fWire).1)
        pad.fPad.Clear).1) ∧
      pad'.fRecoHisto = some (drawStyleDP
        (reco.Reset.FillAll (env.recoBaseDraw.FillTQHistoDP evt pad.fPlane pad.fWire).1)) := by
  unfold drawDualPhase
  simp only [hTQ, if_true]
  rw [hst]
  exact ⟨_, rfl, rfl, rfl, rfl⟩

theorem drawDualPhase_not_TQ (env : Env) (evt : Event) (pad : TQPad) (raw reco : TH1F)
    (hTQ : pad.fTQ ≠ kTQ) :
    drawDualPhase env evt pad raw reco = some { pad with fPad := pad.fPad.Clear } := by
  unfold drawDualPhase
  simp only [hTQ, if_false]

/-- A second dual-phase draw succeeds when the first did and leaves the same bin
values and set minimum/maximum in the three buffers. -/
theorem drawDualPhase_twice (env : Env) (evt : Event) (pad pad1 : TQPad) (raw reco : TH1F)
    (hraw : pad.fRawHisto = some raw) (hreco : pad.fRecoHisto = some reco)
    (h : drawDualPhase env evt pad raw reco = some pad1) :
    ∃ raw1 reco1 pad2, pad1.fRawHisto = some raw1 ∧ pad1.fRecoHisto = some reco1 ∧
      drawDualPhase env evt pad1 raw1 reco1 = some pad2 ∧ pad2.bufferData = pad1.bufferData := by
  by_cases hTQ : pad.fTQ = kTQ
  · obtain ⟨t1, t2, t3, t4, t5, t6, st', hst⟩ :=
      drawDualPhase_TQ_of_some env evt pad pad1 raw reco hTQ h
    obtain ⟨st2, hst2⟩ := overlayLoop_some_congr _ _ _ _ _
      (pad1.fView, (switchDP env.drawopt.fDrawRawDataOrCalibWires
        ((drawStyleDP (switchDP env.drawopt.fDrawRawDataOrCalibWires
          (raw.Reset.FillAll (env.rawDataDraw.FillTQHisto evt pad.fPlane pad.fWire))
          (reco.Reset.FillAll (env.recoBaseDraw.FillTQHistoDP evt pad.fPlane pad.fWire).1)
          pad.fPad.Clear).1).Reset.FillAll (env.rawDataDraw.FillTQHisto evt pad.fPlane pad.fWire))
        ((drawStyleDP (reco.Reset.FillAll
          (env.recoBaseDraw.FillTQHistoDP evt pad.fPlane pad.fWire).1)).Reset.FillAll
          (env.recoBaseDraw.FillTQHistoDP evt pad.fPlane pad.fWire).1)
        pad1.fPad.Clear).2) hst
    rw [← t2, ← t3] at hst2
    obtain ⟨pad2, hd2, u4, u5, u6⟩ := drawDualPhase_TQ_of_loop env evt pad1 _ _ st2 t1 hst2
    refine ⟨_, _, pad2, t5, t6, ?_, ?_⟩
    · rw [← t2, ← t3]
      exact hd2
    · obtain ⟨a1, a2, a3, a4⟩ := processed_raw_shape env.drawopt.fDrawRawDataOrCalibWires raw
        (reco.Reset.FillAll (env.recoBaseDraw.FillTQHistoDP evt pad.fPlane pad.fWire).1)
        (env.rawDataDraw.FillTQHisto evt pad.fPlane pad.fWire) pad.fPad.Clear
      obtain ⟨b1, b2, b3, b4⟩ := processed_reco_shape reco
        (env.recoBaseDraw.FillTQHistoDP evt pad.fPlane pad.fWire).1
      have hr := refill_contents raw _ (env.rawDataDraw.FillTQHisto evt pad.fPlane pad.fWire)
        a1 a2 a3 a4
      have hc := refill_contents reco _
        (env.recoBaseDraw.FillTQHistoDP evt pad.fPlane pad.fWire).1 b1 b2 b3 b4
      rw [t2, t3] at u5 u6
      simp only [TQPad.bufferData, t4, t5, t6, u4, u5, u6, switchDP_histData, reco_histData, hr,
        hc, binMaximum_congr _ _ hr, binMinimum_congr _ _ hr, binMaximum_congr _ _ hc,
        binMinimum_congr _ _ hc]
  · rw [drawDualPhase_not_TQ env evt pad raw reco hTQ] at h
    have h' := Option.some.inj h
    subst h'
    exact ⟨raw, reco, _, hraw, hreco, drawDualPhase_not_TQ env evt _ raw reco hTQ, rfl⟩

/-! ## Auxiliary facts: single-phase time-vs-charge rendering -/

theorem drawTQ_none (env : Env) (fPlane fWire : Nat) (st : DrawState) (hfr : st.frame = none) :
    drawTQ env fPlane fWire st = none := by
  simp [drawTQ, hfr]

/-- The time-vs-charge block succeeds when the frame buffer is allocated; it scales and
styles the frame buffer and leaves the raw and calibrated buffers alone. -/
theorem drawTQ_some (env : Env) (fPlane fWire : Nat) (st : DrawState) (fr : TH1F)
    (hfr : st.frame = some fr) :
    ∃ st', drawTQ env fPlane fWire st = some st' ∧
      st'.frame = some (((fr.SetMaximum
        (1.1 * max
          (env.fRawDigitDrawerTool.getMaximum
            (env.geo.PlaneWireToChannel fPlane fWire env.drawopt.fTPC env.drawopt.fCryostat)
            env.rawDataDraw.StartTick env.rawDataDraw.TotalClockTicks)
          (env.fWireDrawerTool.getMaximum
            (env.geo.PlaneWireToChannel fPlane fWire env.drawopt.fTPC env.drawopt.fCryostat)
            env.rawDataDraw.StartTick env.rawDataDraw.TotalClockTicks))).SetMinimum
        (1.1 * min
          (env.fRawDigitDrawerTool.getMinimum
            (env.geo.PlaneWireToChannel fPlane fWire env.drawopt.fTPC env.drawopt.fCryostat)
            env.rawDataDraw.StartTick env.rawDataDraw.TotalClockTicks)
          (env.fWireDrawerTool.getMinimum
            (env.geo.PlaneWireToChannel fPlane fWire env.drawopt.fTPC env.drawopt.fCryostat)
            env.rawDataDraw.StartTick env.rawDataDraw.TotalClockTicks))).SetTitleOffset 0.2 .Y) ∧
      st'.raw = st.raw ∧ st'.reco = st.reco := by
  simp [drawTQ, hfr]

/-- Single-phase draw with plot mode `kTQ`. -/
theorem drawSinglePhase_TQ (env : Env) (pad : TQPad) (raw reco : TH1F) (hTQ : pad.fTQ = kTQ) :
    drawSinglePhase env pad raw reco =
      (drawTQ env pad.fPlane pad.fWire
        { frame := pad.fFrameHist, raw := raw, reco := reco, fView := pad.fView,
          fHitFuncVec := [], fPad := pad.fPad.Clear }).map
        (fun st => { pad with fFrameHist := st.frame, fRawHisto := some st.raw,
                              fRecoHisto := some st.reco, fView := st.fView,
                              fHitFuncVec := st.fHitFuncVec, fPad := st.fPad }) := by
  have hQ : ¬ ((kTQ : Int) = kQ) := by decide
  unfold drawSinglePhase
  simp only [hTQ, if_true, hQ, if_false]
  cases drawTQ env pad.fPlane pad.fWire
      { frame := pad.fFrameHist, raw := raw, reco := reco, fView := pad.fView,
        fHitFuncVec := [], fPad := pad.fPad.Clear } <;> rfl

/-- Single-phase draw with a plot mode that is neither `kTQ` nor `kQ`. -/
theorem drawSinglePhase_other (env : Env) (pad : TQPad) (raw reco : TH1F)
    (hTQ : pad.fTQ ≠ kTQ) (hQ : pad.fTQ ≠ kQ) :
    drawSinglePhase env pad raw reco =
      some { pad with fRawHisto := some raw, fRecoHisto := some reco,
                      fHitFuncVec := [], fPad := pad.fPad.Clear } := by
  unfold drawSinglePhase
  simp only [hTQ, hQ, if_false]
  rfl

/-- A second single-phase draw succeeds when the first did and leaves the same bin
values and set minimum/maximum in the three buffers. -/
theorem drawSinglePhase_twice (env : Env) (pad pad1 : TQPad) (raw reco : TH1F)
    (h : drawSinglePhase env pad raw reco = some pad1) :
    ∃ raw1 reco1 pad2, pad1.fRawHisto = some raw1 ∧ pad1.fRecoHisto = some reco1 ∧
      drawSinglePhase env pad1 raw1 reco1 = some pad2 ∧ pad2.bufferData = pad1.bufferData := by
  by_cases hTQ : pad.fTQ = kTQ
  · rw [drawSinglePhase_TQ env pad raw reco hTQ] at h
    cases hfr : pad.fFrameHist with
    | none =>
      rw [drawTQ_none env _ _ _ hfr] at h
      simp at h
    | some fr =>
      obtain ⟨st', hd, f1, f2, f3⟩ := drawTQ_some env pad.fPlane pad.fWire
        { frame := pad.fFrameHist, raw := raw, reco := reco, fView := pad.fView,
          fHitFuncVec := [], fPad := pad.fPad.Clear } fr hfr
      rw [hd, Option.map_some'] at h
      have h' := Option.some.inj h
      subst h'
      obtain ⟨st2, hd2, g1, g2, g3⟩ := drawTQ_some env pad.fPlane pad.fWire
        { frame := st'.frame, raw := st'.raw, reco := st'.reco, fView := st'.fView,
          fHitFuncVec := [], fPad := st'.fPad.Clear } _ f1
      refine ⟨st'.raw, st'.reco,
        { pad with fFrameHist := st2.frame, fRawHisto := some st2.raw,
                   fRecoHisto := some st2.reco, fView := st2.fView,
                   fHitFuncVec := st2.fHitFuncVec, fPad := st2.fPad }, rfl, rfl, ?_, ?_⟩
      · have e := drawSinglePhase_TQ env
          { pad with fFrameHist := st'.frame, fRawHisto := some st'.raw,
                     fRecoHisto := some st'.reco, fView := st'.fView,
                     fHitFuncVec := st'.fHitFuncVec, fPad := st'.fPad } st'.raw st'.reco hTQ
        rw [e]
        simp only [hd2, Option.map_some']
      · simp only [TQPad.bufferData, g1, g2, g3, f1, histData, Option.map_some',
          TH1F.SetMaximum, TH1F.SetMinimum, TH1F.SetTitleOffset]
  · by_cases hQ : pad.fTQ = kQ
    · by_cases hmode : env.drawopt.fDrawRawDataOrCalibWires = kCALIB
      · rw [drawSinglePhase_Q_calib env pad raw reco hQ hmode] at h
        have h' := Option.some.inj h
        subst h'
        refine ⟨_, _, _, rfl, rfl, drawSinglePhase_Q_calib env _ _ _ hQ hmode, ?_⟩
        simp [TQPad.bufferData, histData, drawStyleQ, TH1F.SetLabelSize, TH1F.SetTickLength,
          TH1F.SetMaximum, TH1F.SetMinimum]
      · rw [drawSinglePhase_Q_not_calib env pad raw reco hQ hmode] at h
        have h' := Option.some.inj h
        subst h'
        refine ⟨_, _, _, rfl, rfl, drawSinglePhase_Q_not_calib env _ _ _ hQ hmode, ?_⟩
        simp [TQPad.bufferData, histData, drawStyleQ, TH1F.SetLabelSize, TH1F.SetTickLength,
          TH1F.SetMaximum, TH1F.SetMinimum]
    · rw [drawSinglePhase_other env pad raw reco hTQ hQ] at h
      have h' := Option.some.inj h
      subst h'
      exact ⟨_, _, _, rfl, rfl, drawSinglePhase_other env _ _ _ hTQ hQ, rfl⟩

/-- C5: drawing is idempotent on the buffers.  Whenever a draw succeeds, a second draw
in the same environment (same bound event, options and extraction results) succeeds as
well and leaves the frame, raw and calibrated buffers with the same bin values and the
same set minimum and maximum as the first; this covers the early returns, the
dual-phase path and both single-phase plot modes. -/
theorem Draw_idempotent_on_buffers (env : Env) (pad pad1 : TQPad)
    (h : pad.Draw env = some pad1) :
    ∃ pad2, pad1.Draw env = some pad2 ∧ pad2.bufferData = pad1.bufferData := by
  unfold TQPad.Draw at h
  cases hraw : pad.fRawHisto with
  | none =>
    simp only [hraw] at h
    have h' := Option.some.inj h
    subst h'
    exact ⟨pad, by simp [TQPad.Draw, hraw], rfl⟩
  | some raw =>
    cases hreco : pad.fRecoHisto with
    | none =>
      simp only [hraw, hreco] at h
      have h' := Option.some.inj h
      subst h'
      exact ⟨pad, by simp [TQPad.Draw, hraw, hreco], rfl⟩
    | some reco =>
      cases hevt : env.evt with
      | none =>
        simp only [hraw, hreco, hevt] at h
        have h' := Option.some.inj h
        subst h'
        exact ⟨pad, by simp [TQPad.Draw, hraw, hreco, hevt], rfl⟩
      | some evt =>
        simp only [hraw, hreco, hevt] at h
        cases hdp : evt.dprawhit with
        | true =>
          simp only [hdp, if_true] at h
          obtain ⟨raw1, reco1, pad2, e1, e2, hd, hb⟩ :=
            drawDualPhase_twice env evt pad pad1 raw reco hraw hreco h
          exact ⟨pad2, by rw [Draw_eq_dualPhase env pad1 raw1 reco1 evt e1 e2 hevt hdp]; exact hd,
            hb⟩
        | false =>
          simp only [hdp] at h
          obtain ⟨raw1, reco1, pad2, e1, e2, hd, hb⟩ :=
            drawSinglePhase_twice env pad pad1 raw reco h
          exact ⟨pad2, by rw [Draw_eq_singlePhase env pad1 raw1 reco1 evt e1 e2 hevt hdp]; exact hd,
            hb⟩

/-- Witness of C5: the sample dual-phase event under RawAndCalibrated, drawn twice. -/
theorem Draw_idempotent_on_buffers_witness :
    ∃ pad1 pad2, (samplePad kTQ).Draw (sampleEnv kRAWCALIB true) = some pad1 ∧
      pad1.Draw (sampleEnv kRAWCALIB true) = some pad2 ∧ pad2.bufferData = pad1.bufferData := by
  obtain ⟨pad1, h1, _⟩ := drawDualPhase_TQ_buffers (sampleEnv kRAWCALIB true) ⟨true, 1⟩
    (samplePad kTQ) (TH1F.new "fRAWHisto" "" 4 0 4) (TH1F.new "fCALHisto" "" 4 0 4) rfl
    (fun _ => sampleRecords_layout)
  have h : (samplePad kTQ).Draw (sampleEnv kRAWCALIB true) = some pad1 := by
    rw [Draw_eq_dualPhase (sampleEnv kRAWCALIB true) (samplePad kTQ) _ _ ⟨true, 1⟩ rfl rfl rfl rfl]
    exact h1
  obtain ⟨pad2, h2, h3⟩ :=
    Draw_idempotent_on_buffers (sampleEnv kRAWCALIB true) (samplePad kTQ) pad1 h
  exact ⟨pad1, pad2, h, h2, h3⟩

/-! ## Auxiliary facts: what every draw preserves -/

/-- A successful draw keeps the plot mode, plane and wire of the pad and the bin count
and axis range of each buffer; in particular it turns no buffer null. -/
theorem Draw_preserves (env : Env) (pad pad1 : TQPad) (h : pad.Draw env = some pad1) :
    pad1.fTQ = pad.fTQ ∧ pad1.fPlane = pad.fPlane ∧ pad1.fWire = pad.fWire ∧
    pad1.shapes = pad.shapes := by
  unfold TQPad.Draw at h
  cases hraw : pad.fRawHisto with
  | none =>
    simp only [hraw] at h
    have h' := Option.some.inj h
    subst h'
    exact ⟨rfl, rfl, rfl, rfl⟩
  | some raw =>
    cases hreco : pad.fRecoHisto with
    | none =>
      simp only [hraw, hreco] at h
      have h' := Option.some.inj h
      subst h'
      exact ⟨rfl, rfl, rfl, rfl⟩
    | some reco =>
      cases hevt : env.evt with
      | none =>
        simp only [hraw, hreco, hevt] at h
        have h' := Option.some.inj h
        subst h'
        exact ⟨rfl, rfl, rfl, rfl⟩
      | some evt =>
        simp only [hraw, hreco, hevt] at h
        cases hdp : evt.dprawhit with
        | true =>
          simp only [hdp, if_true] at h
          by_cases hTQ : pad.fTQ = kTQ
          · obtain ⟨t1, t2, t3, t4, t5, t6, _⟩ :=
              drawDualPhase_TQ_of_some env evt pad pad1 raw reco hTQ h
            obtain ⟨a1, a2, a3, _⟩ := processed_raw_shape env.drawopt.fDrawRawDataOrCalibWires raw
              (reco.Reset.FillAll (env.recoBaseDraw.FillTQHistoDP evt pad.fPlane pad.fWire).1)
              (env.rawDataDraw.FillTQHisto evt pad.fPlane pad.fWire) pad.fPad.Clear
            obtain ⟨b1, b2, b3, _⟩ := processed_reco_shape reco
              (env.recoBaseDraw.FillTQHistoDP evt pad.fPlane pad.fWire).1
            refine ⟨t1.trans hTQ.symm, t2, t3, ?_⟩
            simp only [TQPad.shapes, t4, t5, t6, hraw, hreco, histShape, Option.map_some', a1, a2,
              a3, b1, b2, b3]
          · rw [drawDualPhase_not_TQ env evt pad raw reco hTQ] at h
            have h' := Option.some.inj h
            subst h'
            exact ⟨rfl, rfl, rfl, rfl⟩
        | false =>
          simp only [hdp] at h
          by_cases hTQ : pad.fTQ = kTQ
          · rw [drawSinglePhase_TQ env pad raw reco hTQ] at h
            cases hfr : pad.fFrameHist with
            | none =>
              rw [drawTQ_none env _ _ _ hfr] at h
              simp at h
            | some fr =>
              obtain ⟨st', hd, f1, f2, f3⟩ := drawTQ_some env pad.fPlane pad.fWire
                { frame := pad.fFrameHist, raw := raw, reco := reco, fView := pad.fView,
                  fHitFuncVec := [], fPad := pad.fPad.Clear } fr hfr
              rw [hd, Option.map_some'] at h
              have h' := Option.some.inj h
              subst h'
              refine ⟨rfl, rfl, rfl, ?_⟩
              simp only [TQPad.shapes, f1, f2, f3, hfr, hraw, hreco, histShape, Option.map_some',
                TH1F.SetMaximum, TH1F.SetMinimum, TH1F.SetTitleOffset]
          · by_cases hQ : pad.fTQ = kQ
            · by_cases hmode : env.drawopt.fDrawRawDataOrCalibWires = kCALIB
              · rw [drawSinglePhase_Q_calib env pad raw reco hQ hmode] at h
                have h' := Option.some.inj h
                subst h'
                refine ⟨rfl, rfl, rfl, ?_⟩
                simp [TQPad.shapes, hraw, hreco, histShape, drawStyleQ, TH1F.SetLabelSize,
                  TH1F.SetTickLength, TH1F.SetMaximum, TH1F.SetMinimum]
              · rw [drawSinglePhase_Q_not_calib env pad raw reco hQ hmode] at h
                have h' := Option.some.inj h
                subst h'
                refine ⟨rfl, rfl, rfl, ?_⟩
                simp [TQPad.shapes, hraw, hreco, histShape, drawStyleQ, TH1F.SetLabelSize,
                  TH1F.SetTickLength, TH1F.SetMaximum, TH1F.SetMinimum]
            · rw [drawSinglePhase_other env pad raw reco hTQ hQ] at h
              have h' := Option.some.inj h
              subst h'
              refine ⟨rfl, rfl, rfl, ?_⟩
              simp [TQPad.shapes, hraw, hreco]

/-- A draw on a pad with all three buffers allocated is defined, provided that on the
dual-phase time-vs-charge path with a display mode other than `kRAW` the fitted-hit
records satisfy the layout invariant. -/
theorem Draw_defined (env : Env) (pad : TQPad) (hfr : pad.fFrameHist.isSome)
    (hinv : ∀ evt, env.evt = some evt → evt.dprawhit = true → pad.fTQ = kTQ →
      env.drawopt.fDrawRawDataOrCalibWires ≠ kRAW →
      LayoutInvariant (env.recoBaseDraw.FillTQHistoDP evt pad.fPlane pad.fWire).2) :
    ∃ pad1, pad.Draw env = some pad1 := by
  cases hraw : pad.fRawHisto with
  | none => exact ⟨pad, by simp [TQPad.Draw, hraw]⟩
  | some raw =>
    cases hreco : pad.fRecoHisto with
    | none => exact ⟨pad, by simp [TQPad.Draw, hraw, hreco]⟩
    | some reco =>
      cases hevt : env.evt with
      | none => exact ⟨pad, by simp [TQPad.Draw, hraw, hreco, hevt]⟩
      | some evt =>
        cases hdp : evt.dprawhit with
        | true =>
          rw [Draw_eq_dualPhase env pad raw reco evt hraw hreco hevt hdp]
          by_cases hTQ : pad.fTQ = kTQ
          · obtain ⟨pad1, hd, _⟩ := drawDualPhase_TQ_buffers env evt pad raw reco hTQ
              (hinv evt hevt hdp hTQ)
            exact ⟨pad1, hd⟩
          · exact ⟨_, drawDualPhase_not_TQ env evt pad raw reco hTQ⟩
        | false =>
          rw [Draw_eq_singlePhase env pad raw reco evt hraw hreco hevt hdp]
          by_cases hTQ : pad.fTQ = kTQ
          · obtain ⟨fr, hfr'⟩ := Option.isSome_iff_exists.mp hfr
            obtain ⟨st', hd, _⟩ := drawTQ_some env pad.fPlane pad.fWire
              { frame := pad.fFrameHist, raw := raw, reco := reco, fView := pad.fView,
                fHitFuncVec := [], fPad := pad.fPad.Clear } fr hfr'
            rw [drawSinglePhase_TQ env pad raw reco hTQ, hd]
            exact ⟨_, rfl⟩
          · by_cases hQ : pad.fTQ = kQ
            · by_cases hmode : env.drawopt.fDrawRawDataOrCalibWires = kCALIB
              · exact ⟨_, drawSinglePhase_Q_calib env pad raw reco hQ hmode⟩
              · exact ⟨_, drawSinglePhase_Q_not_calib env pad raw reco hQ hmode⟩
            · exact ⟨_, drawSinglePhase_other env pad raw reco hTQ hQ⟩

theorem histShape_isSome (h g : Option TH1F) (hs : histShape h = histShape g) :
    h.isSome = g.isSome := by
  cases h <;> cases g <;> simp [histShape] at hs ⊢

/-- A successful draw leaves non-null every buffer that was non-null. -/
theorem Draw_nonnull (env : Env) (pad pad1 : TQPad) (h : pad.Draw env = some pad1) :
    pad1.fFrameHist.isSome = pad.fFrameHist.isSome ∧
    pad1.fRawHisto.isSome = pad.fRawHisto.isSome ∧
    pad1.fRecoHisto.isSome = pad.fRecoHisto.isSome := by
  obtain ⟨_, _, _, hs⟩ := Draw_preserves env pad pad1 h
  simp only [TQPad.shapes, Prod.mk.injEq] at hs
  exact ⟨histShape_isSome _ _ hs.1, histShape_isSome _ _ hs.2.1, histShape_isSome _ _ hs.2.2⟩

/-- The buffers `BookHistogram` allocates for the two recognised plot modes. -/
theorem BookHistogram_ok (env : Env) (pad : TQPad) (hmode : pad.fTQ = kQ ∨ pad.fTQ = kTQ) :
    ∃ pad' frame raw reco, pad.BookHistogram env = .ok pad' ∧
      pad'.fTQ = pad.fTQ ∧ pad'.fPlane = pad.fPlane ∧ pad'.fWire = pad.fWire ∧
      pad'.fFrameHist = some frame ∧ pad'.fRawHisto = some raw ∧ pad'.fRecoHisto = some reco := by
  have hne : ¬ ((kTQ : Int) = kQ) := by decide
  unfold TQPad.BookHistogram
  rcases hmode with h | h
  · simp only [h, if_true]
    exact ⟨_, _, _, _, rfl, rfl, rfl, rfl, rfl, rfl, rfl⟩
  · simp only [h, hne, if_false, if_true]
    exact ⟨_, _, _, _, rfl, rfl, rfl, rfl, rfl, rfl, rfl⟩

/-- C6: `BookHistogram` throws exactly when the plot mode is neither `kQ` nor `kTQ`,
and then the exception has category `TQPad` and a message that carries the plot-mode
value; for the two recognised modes it returns with the frame, raw and calibrated
buffers all non-null, every following draw that returns leaves all three non-null,
and a following draw does return (given, where the overlay loop runs, fitted-hit
records satisfying the layout invariant). -/
theorem BookHistogram_error_iff (env : Env) (pad : TQPad) :
    ((∃ e, pad.BookHistogram env = .error e) ↔ (pad.fTQ ≠ kQ ∧ pad.fTQ ≠ kTQ)) ∧
    (∀ e, pad.BookHistogram env = .error e →
      e.category = "TQPad" ∧
      e.message = "BookHistogram" ++ ": unexpected quantity #" ++ toString pad.fTQ ++ "\n") ∧
    (pad.fTQ = kQ ∨ pad.fTQ = kTQ →
      ∃ pad', pad.BookHistogram env = .ok pad' ∧
        pad'.fFrameHist.isSome ∧ pad'.fRawHisto.isSome ∧ pad'.fRecoHisto.isSome ∧
        (∀ env' pad'', pad'.Draw env' = some pad'' →
          pad''.fFrameHist.isSome ∧ pad''.fRawHisto.isSome ∧ pad''.fRecoHisto.isSome) ∧
        (∀ env',
          (∀ evt, env'.evt = some evt → evt.dprawhit = true → pad.fTQ = kTQ →
            env'.drawopt.fDrawRawDataOrCalibWires ≠ kRAW →
            LayoutInvariant (env'.recoBaseDraw.FillTQHistoDP evt pad.fPlane pad.fWire).2) →
          ∃ pad'', pad'.Draw env' = some pad'')) := by
  refine ⟨?_, ?_, ?_⟩
  · constructor
    · rintro ⟨e, he⟩
      refine ⟨?_, ?_⟩
      · intro hq
        obtain ⟨pad', _, _, _, hok, _⟩ := BookHistogram_ok env pad (Or.inl hq)
        rw [hok] at he
        cases he
      · intro hq
        obtain ⟨pad', _, _, _, hok, _⟩ := BookHistogram_ok env pad (Or.inr hq)
        rw [hok] at he
        cases he
    · rintro ⟨h1, h2⟩
      unfold TQPad.BookHistogram
      simp only [h1, h2, if_false]
      exact ⟨_, rfl⟩
  · intro e he
    by_cases h1 : pad.fTQ = kQ
    · obtain ⟨pad', _, _, _, hok, _⟩ := BookHistogram_ok env pad (Or.inl h1)
      rw [hok] at he
      cases he
    · by_cases h2 : pad.fTQ = kTQ
      · obtain ⟨pad', _, _, _, hok, _⟩ := BookHistogram_ok env pad (Or.inr h2)
        rw [hok] at he
        cases he
      · simp only [TQPad.BookHistogram, h1, h2, if_false] at he
        cases he
        exact ⟨rfl, rfl⟩
  · intro hmode
    obtain ⟨pad', frame, raw, reco, hok, t1, t2, t3, f1, f2, f3⟩ := BookHistogram_ok env pad hmode
    refine ⟨pad', hok, by simp [f1], by simp [f2], by simp [f3], ?_, ?_⟩
    · intro env' pad'' hd
      obtain ⟨g1, g2, g3⟩ := Draw_nonnull env' pad' pad'' hd
      rw [g1, g2, g3, f1, f2, f3]
      exact ⟨rfl, rfl, rfl⟩
    · intro env' hinv
      apply Draw_defined env' pad' (by simp [f1])
      intro evt hevt hdp hTQ hm
      rw [t2, t3]
      exact hinv evt hevt hdp (t1 ▸ hTQ) hm

/-! ## Auxiliary facts: the view and the pad across a draw -/

theorem overlayStep_appends (rb : RecoBaseDrawer) (r : HitRecords) (i : Nat)
    (st st' : View2D × TPad) (h : overlayStep rb r st i = some st') :
    ∃ cs, st' = appendCurves st cs := by
  unfold overlayStep at h
  cases h1 : r.hNMultiHit[i]? with
  | none => simp [h1] at h
  | some n =>
    cases h2 : r.hLocalHitIndex[i]? with
    | none => simp [h1, h2] at h
    | some loc =>
      cases h4 : peakPolyLine rb r i with
      | none =>
        simp only [h1, h2, h4, Option.bind_eq_bind, Option.some_bind, Option.pure_def] at h
        split_ifs at h <;> cases h3 : sumPolyLine rb r i <;> simp [h3] at h
      | some p1 =>
        simp only [h1, h2, h4, Option.bind_eq_bind, Option.some_bind, Option.pure_def] at h
        split_ifs at h
        · cases h3 : sumPolyLine rb r i with
          | none => simp [h3] at h
          | some p2 =>
            simp only [h3, Option.some_bind, Option.some.injEq] at h
            refine ⟨[p2, p1], ?_⟩
            rw [← h]
            simp [appendCurves, View2D.AddPolyLine, TPad.draw]
        · simp only [Option.some_bind, Option.some.injEq] at h
          refine ⟨[p1], ?_⟩
          rw [← h]
          simp [appendCurves, View2D.AddPolyLine, TPad.draw]

theorem overlay_foldlM_appends (rb : RecoBaseDrawer) (r : HitRecords) (l : List Nat)
    (st st' : View2D × TPad) (h : l.foldlM (overlayStep rb r) st = some st') :
    ∃ cs, st' = appendCurves st cs := by
  induction l generalizing st with
  | nil =>
    simp only [List.foldlM_nil, Option.pure_def, Option.some.injEq] at h
    exact ⟨[], by rw [appendCurves_nil, h]⟩
  | cons a l ih =>
    rw [List.foldlM_cons] at h
    cases h1 : overlayStep rb r st a with
    | none => simp [h1] at h
    | some u =>
      simp only [h1, Option.bind_eq_bind, Option.some_bind] at h
      obtain ⟨cs1, e1⟩ := overlayStep_appends rb r a st u h1
      obtain ⟨cs2, e2⟩ := ih u h
      exact ⟨cs1 ++ cs2, by rw [e2, e1, appendCurves_append]⟩

/-- A successful overlay loop only appends curves to the view and the pad. -/
theorem overlayLoop_appends (rb : RecoBaseDrawer) (r : HitRecords) (mode : Int)
    (st st' : View2D × TPad) (h : overlayLoop rb r mode st = some st') :
    ∃ cs, st' = appendCurves st cs := by
  unfold overlayLoop at h
  split_ifs at h
  · exact overlay_foldlM_appends rb r _ st st' h
  · exact ⟨[], by rw [appendCurves_nil]; exact (Option.some.inj h).symm⟩

theorem filterMap_polylineOf_curves (cs : List TPolyLine) :
    (cs.map (fun p => Drawn.polyline p "same")).filterMap Drawn.polylineOf = cs := by
  induction cs with
  | nil => rfl
  | cons a l ih => simp [Drawn.polylineOf, ih]

theorem filterMap_boxOf_curves (cs : List TPolyLine) :
    (cs.map (fun p => Drawn.polyline p "same")).filterMap Drawn.boxOf = [] := by
  induction cs with
  | nil => rfl
  | cons a l ih => simp [Drawn.boxOf, ih]

theorem filterMap_boxOf_boxes (f : Nat → TBox) (l : List Nat) :
    (l.map (fun i => Drawn.box (f i))).filterMap Drawn.boxOf = l.map f := by
  induction l with
  | nil => rfl
  | cons a l ih => simp [Drawn.boxOf, ih]

theorem filterMap_polylineOf_boxes (f : Nat → TBox) (l : List Nat) :
    (l.map (fun i => Drawn.box (f i))).filterMap Drawn.polylineOf = [] := by
  induction l with
  | nil => rfl
  | cons a l ih => simp [Drawn.polylineOf, ih]

theorem primitives_Q_boxes (ref : HistRef) (f : Nat → TBox) (l : List Nat) :
    ([Drawn.hist ref "pY+"] ++ l.map (fun i => Drawn.box (f i)) ++
      [Drawn.hist ref "same"]).filterMap Drawn.boxOf = l.map f := by
  rw [List.filterMap_append, List.filterMap_append, filterMap_boxOf_boxes]
  simp [Drawn.boxOf]

theorem primitives_Q_polylines (ref : HistRef) (f : Nat → TBox) (l : List Nat) :
    ([Drawn.hist ref "pY+"] ++ l.map (fun i => Drawn.box (f i)) ++
      [Drawn.hist ref "same"]).filterMap Drawn.polylineOf = [] := by
  rw [List.filterMap_append, List.filterMap_append, filterMap_polylineOf_boxes]
  simp [Drawn.polylineOf]

/-- The pad primitives recorded by the `switch` of the dual-phase branch on a cleared
pad hold no polyline and no box. -/
theorem switchDP_primitives (mode : Int) (raw reco : TH1F) (p : TPad) :
    (switchDP mode raw reco p.Clear).2.primitives.filterMap Drawn.polylineOf = [] ∧
    (switchDP mode raw reco p.Clear).2.primitives.filterMap Drawn.boxOf = [] := by
  unfold switchDP
  split_ifs <;> simp [TPad.draw, TPad.Clear, Drawn.polylineOf, Drawn.boxOf]

theorem redrawDP_primitives (mode : Int) (p : TPad) :
    (redrawDP mode p).primitives.filterMap Drawn.polylineOf =
      p.primitives.filterMap Drawn.polylineOf ∧
    (redrawDP mode p).primitives.filterMap Drawn.boxOf = p.primitives.filterMap Drawn.boxOf := by
  unfold redrawDP
  split_ifs <;> simp [TPad.draw, Drawn.polylineOf, Drawn.boxOf]

/-- C7 (amended): a draw that passes the early-return guards clears and rebuilds the
pad, not the view.  On the dual-phase path and on the single-phase path outside the
time-vs-charge block (where the view is handed to the extraction tools), the view after
a successful draw holds its prior polylines and boxes followed by those produced by
that draw, while the pad holds exactly the polylines and boxes of that draw. -/
theorem Draw_appends_to_view (env : Env) (pad pad1 : TQPad) (raw reco : TH1F) (evt : Event)
    (hraw : pad.fRawHisto = some raw) (hreco : pad.fRecoHisto = some reco)
    (hevt : env.evt = some evt) (hpath : evt.dprawhit = true ∨ pad.fTQ ≠ kTQ)
    (h : pad.Draw env = some pad1) :
    ∃ lines boxes,
      pad1.fView.fPolyLineL = pad.fView.fPolyLineL ++ lines ∧
      pad1.fView.fBoxL = pad.fView.fBoxL ++ boxes ∧
      pad1.fPad.primitives.filterMap Drawn.polylineOf = lines ∧
      pad1.fPad.primitives.filterMap Drawn.boxOf = boxes := by
  cases hdp : evt.dprawhit with
  | true =>
    rw [Draw_eq_dualPhase env pad raw reco evt hraw hreco hevt hdp] at h
    by_cases hTQ : pad.fTQ = kTQ
    · unfold drawDualPhase at h
      simp only [hTQ, if_true] at h
      cases hl : overlayLoop env.recoBaseDraw
          (env.recoBaseDraw.FillTQHistoDP evt pad.fPlane pad.fWire).2
          env.drawopt.fDrawRawDataOrCalibWires
          (pad.fView, (switchDP env.drawopt.fDrawRawDataOrCalibWires
            (raw.Reset.FillAll (env.rawDataDraw.FillTQHisto evt pad.fPlane pad.fWire))
            (reco.Reset.FillAll (env.recoBaseDraw.FillTQHistoDP evt pad.fPlane pad.fWire).1)
            pad.fPad.Clear).2) with
      | none => rw [hl] at h; simp at h
      | some st' =>
        rw [hl] at h
        have h' := Option.some.inj h
        subst h'
        obtain ⟨cs, hcs⟩ := overlayLoop_appends _ _ _ _ _ hl
        obtain ⟨s1, s2⟩ := switchDP_primitives env.drawopt.fDrawRawDataOrCalibWires
          (raw.Reset.FillAll (env.rawDataDraw.FillTQHisto evt pad.fPlane pad.fWire))
          (reco.Reset.FillAll (env.recoBaseDraw.FillTQHistoDP evt pad.fPlane pad.fWire).1) pad.fPad
        obtain ⟨r1, r2⟩ := redrawDP_primitives env.drawopt.fDrawRawDataOrCalibWires st'.2
        have v1 : st'.1.fPolyLineL = pad.fView.fPolyLineL ++ cs := by rw [hcs]; rfl
        have v2 : st'.1.fBoxL = pad.fView.fBoxL ++ [] := by rw [hcs]; simp [appendCurves]
        refine ⟨cs, [], v1, v2, ?_, ?_⟩
        · show (redrawDP env.drawopt.fDrawRawDataOrCalibWires st'.2).primitives.filterMap
            Drawn.polylineOf = cs
          rw [r1, hcs]
          show List.filterMap Drawn.polylineOf (_ ++ _) = cs
          rw [List.filterMap_append, s1, filterMap_polylineOf_curves, List.nil_append]
        · show (redrawDP env.drawopt.fDrawRawDataOrCalibWires st'.2).primitives.filterMap
            Drawn.boxOf = []
          rw [r2, hcs]
          show List.filterMap Drawn.boxOf (_ ++ _) = []
          rw [List.filterMap_append, s2, filterMap_boxOf_curves, List.nil_append]
    · rw [drawDualPhase_not_TQ env evt pad raw reco hTQ] at h
      have h' := Option.some.inj h
      subst h'
      exact ⟨[], [], by simp, by simp, rfl, rfl⟩
  | false =>
    rw [Draw_eq_singlePhase env pad raw reco evt hraw hreco hevt hdp] at h
    have hTQ : pad.fTQ ≠ kTQ := by
      rcases hpath with hp | hp
      · rw [hdp] at hp
        cases hp
      · exact hp
    by_cases hQ : pad.fTQ = kQ
    · by_cases hmode : env.drawopt.fDrawRawDataOrCalibWires = kCALIB
      · rw [drawSinglePhase_Q_calib env pad raw reco hQ hmode] at h
        have h' := Option.some.inj h
        subst h'
        exact ⟨[], _, by simp, rfl, primitives_Q_polylines _ _ _, primitives_Q_boxes _ _ _⟩
      · rw [drawSinglePhase_Q_not_calib env pad raw reco hQ hmode] at h
        have h' := Option.some.inj h
        subst h'
        exact ⟨[], _, by simp, rfl, primitives_Q_polylines _ _ _, primitives_Q_boxes _ _ _⟩
    · rw [drawSinglePhase_other env pad raw reco hTQ hQ] at h
      have h' := Option.some.inj h
      subst h'
      exact ⟨[], [], by simp, by simp, rfl, rfl⟩

/-- Witness of C7 (amended): second charge-only draw on the sample pad, whose view
already holds the boxes of a first draw. -/
theorem Draw_appends_to_view_witness :
    ∃ pad1 pad2, (samplePad kQ).Draw (sampleEnv kRAW false) = some pad1 ∧
      pad1.Draw (sampleEnv kRAW false) = some pad2 ∧
      ∃ lines boxes,
        pad2.fView.fPolyLineL = pad1.fView.fPolyLineL ++ lines ∧
        pad2.fView.fBoxL = pad1.fView.fBoxL ++ boxes ∧
        pad2.fPad.primitives.filterMap Drawn.polylineOf = lines ∧
        pad2.fPad.primitives.filterMap Drawn.boxOf = boxes := by
  obtain ⟨pad1, h1⟩ := Draw_defined (sampleEnv kRAW false) (samplePad kQ) rfl
    (fun _ _ _ hTQ _ => absurd hTQ (by decide))
  obtain ⟨k1, k2, k3, k4⟩ := Draw_preserves _ _ _ h1
  obtain ⟨n1, n2, n3⟩ := Draw_nonnull _ _ _ h1
  obtain ⟨pad2, h2⟩ := Draw_defined (sampleEnv kRAW false) pad1 (by rw [n1]; rfl)
    (fun _ _ _ hTQ _ => absurd (k1 ▸ hTQ) (by decide))
  obtain ⟨raw1, hr⟩ := Option.isSome_iff_exists.mp (show pad1.fRawHisto.isSome by rw [n2]; rfl)
  obtain ⟨reco1, hc⟩ := Option.isSome_iff_exists.mp (show pad1.fRecoHisto.isSome by rw [n3]; rfl)
  exact ⟨pad1, pad2, h1, h2,
    Draw_appends_to_view (sampleEnv kRAW false) pad1 pad2 raw1 reco1 ⟨false, 1⟩ hr hc rfl
      (Or.inr (by rw [k1]; decide)) h2⟩

/-- Counterexample to C7 as stated: two successive single-phase charge-only draws with
4 divisions on a pad with an empty view leave 8 boxes in the view, not 4. -/
theorem view_not_cleared_counterexample :
    ∃ pad1 pad2, (samplePad kQ).Draw (sampleEnv kRAW false) = some pad1 ∧
      pad1.Draw (sampleEnv kRAW false) = some pad2 ∧
      (sampleEnv kRAW false).cst.fRawDiv .kInduction = 4 ∧
      (samplePad kQ).fView.fBoxL.length = 0 ∧
      pad1.fView.fBoxL.length = 4 ∧ pad2.fView.fBoxL.length = 8 := by
  have hne : (sampleEnv kRAW false).drawopt.fDrawRawDataOrCalibWires ≠ kCALIB := by decide
  have e1 := drawSinglePhase_Q_not_calib (sampleEnv kRAW false) (samplePad kQ)
    (TH1F.new "fRAWHisto" "" 4 0 4) (TH1F.new "fCALHisto" "" 4 0 4) rfl hne
  rw [← Draw_eq_singlePhase (sampleEnv kRAW false) (samplePad kQ) _ _ ⟨false, 1⟩ rfl rfl rfl rfl]
    at e1
  obtain ⟨pad1, h1⟩ : ∃ pad1, (samplePad kQ).Draw (sampleEnv kRAW false) = some pad1 ∧
      pad1.fTQ = kQ ∧ pad1.fView.fBoxL.length = 4 ∧
      pad1.fRawHisto.isSome ∧ pad1.fRecoHisto.isSome := by
    refine ⟨_, e1, rfl, ?_, rfl, rfl⟩
    simp [samplePad, sampleEnv, sampleColors]
  obtain ⟨d1, q1, l1, r1, c1⟩ := h1
  obtain ⟨raw1, hr⟩ := Option.isSome_iff_exists.mp r1
  obtain ⟨reco1, hc⟩ := Option.isSome_iff_exists.mp c1
  have e2 := drawSinglePhase_Q_not_calib (sampleEnv kRAW false) pad1 raw1 reco1 q1 hne
  rw [← Draw_eq_singlePhase (sampleEnv kRAW false) pad1 _ _ ⟨false, 1⟩ hr hc rfl rfl] at e2
  refine ⟨pad1, _, d1, e2, rfl, rfl, l1, ?_⟩
  simp [l1, sampleEnv, sampleColors]

/-! ## Charge-only rendering under `RawAndCalibrated` -/

theorem qBox_coords (cst : ColorDrawingOptions) (sigType : SigType) (mode mode' : Int)
    (hist : TH1F) (ndiv : Int) (i : Nat) :
    (qBox cst sigType mode hist ndiv i).coords = (qBox cst sigType mode' hist ndiv i).coords := by
  simp [qBox, TBox.coords, TBox.SetFillStyle, TBox.SetFillColor]

theorem qBox_color_not_raw (cst : ColorDrawingOptions) (sigType : SigType) (mode : Int)
    (hist : TH1F) (ndiv : Int) (i : Nat) (hmode : mode ≠ kRAW) :
    (qBox cst sigType mode hist ndiv i).fillColor =
      some ((cst.CalQ sigType).GetColor
        (0.5 * ((qBox cst sigType mode hist ndiv i).y1 + (qBox cst sigType mode hist ndiv i).y2))) := by
  simp [qBox, boxColor, TBox.SetFillStyle, TBox.SetFillColor, hmode]

/-- C8 (amended): on the single-phase path with plot mode ChargeOnly, display mode
RawAndCalibrated renders the raw buffer, as RawOnly does: the three buffers after the
draw (with the raw bounds set as minimum and maximum of the raw buffer), the buffer
drawn, the division count and the coordinates of the boxes added to the view are the
same as under RawOnly; the fill colour of each box is the calibrated colour of the
signal type at the midpoint of the box, as under CalibratedOnly. -/
theorem chargeOnly_rawAndCalibrated (env : Env) (pad : TQPad) (raw reco : TH1F) (evt : Event)
    (hraw : pad.fRawHisto = some raw) (hreco : pad.fRecoHisto = some reco)
    (hevt : env.evt = some evt) (hsp : evt.dprawhit = false) (hQ : pad.fTQ = kQ)
    (hmode : env.drawopt.fDrawRawDataOrCalibWires = kRAWCALIB) :
    ∃ padB padR addedB addedR rawB,
      pad.Draw env = some padB ∧ pad.Draw (env.withMode kRAW) = some padR ∧
      padB.fFrameHist = padR.fFrameHist ∧ padB.fRawHisto = padR.fRawHisto ∧
      padB.fRecoHisto = padR.fRecoHisto ∧
      padB.fRawHisto = some rawB ∧
      rawB.fMinimum = some (env.cst.fRawQLow
        (env.geo.SignalType (env.drawopt.CurrentTPC, pad.fPlane))) ∧
      rawB.fMaximum = some (env.cst.fRawQHigh
        (env.geo.SignalType (env.drawopt.CurrentTPC, pad.fPlane))) ∧
      padB.fPad.primitives.head? = some (Drawn.hist .raw "pY+") ∧
      padR.fPad.primitives.head? = some (Drawn.hist .raw "pY+") ∧
      padB.fView.fBoxL = pad.fView.fBoxL ++ addedB ∧
      padR.fView.fBoxL = pad.fView.fBoxL ++ addedR ∧
      addedB.length = (env.cst.fRawDiv
        (env.geo.SignalType (env.drawopt.CurrentTPC, pad.fPlane))).toNat ∧
      addedB.map TBox.coords = addedR.map TBox.coords ∧
      ∀ b ∈ addedB, b.fillColor = some
        ((env.cst.CalQ (env.geo.SignalType (env.drawopt.CurrentTPC, pad.fPlane))).GetColor
          (0.5 * (b.y1 + b.y2))) := by
  have hneB : env.drawopt.fDrawRawDataOrCalibWires ≠ kCALIB := by rw [hmode]; decide
  have hneR : (env.withMode kRAW).drawopt.fDrawRawDataOrCalibWires ≠ kCALIB := by
    simp [Env.withMode]
  have hrawmode : env.drawopt.fDrawRawDataOrCalibWires ≠ kRAW := by rw [hmode]; decide
  have eB := drawSinglePhase_Q_not_calib env pad raw reco hQ hneB
  have eR := drawSinglePhase_Q_not_calib (env.withMode kRAW) pad raw reco hQ hneR
  rw [← Draw_eq_singlePhase env pad raw reco evt hraw hreco hevt hsp] at eB
  rw [← Draw_eq_singlePhase (env.withMode kRAW) pad raw reco evt hraw hreco hevt hsp] at eR
  refine ⟨_, _, _, _, _, eB, eR, rfl, rfl, rfl, rfl, ?_, ?_, rfl, rfl, rfl, rfl, ?_, ?_, ?_⟩
  · simp [drawStyleQ, TH1F.SetLabelSize, TH1F.SetTickLength, TH1F.SetMaximum, TH1F.SetMinimum]
  · simp [drawStyleQ, TH1F.SetLabelSize, TH1F.SetTickLength, TH1F.SetMaximum, TH1F.SetMinimum]
  · simp
  · simp only [List.map_map, Env.withMode]
    apply List.map_congr_left
    intro i _
    exact qBox_coords _ _ _ _ _ _ i
  · intro b hb
    obtain ⟨i, _, rfl⟩ := List.mem_map.mp hb
    exact qBox_color_not_raw _ _ _ _ _ i hrawmode

/-- Witness of C8 (amended): the sample pad under RawAndCalibrated. -/
theorem chargeOnly_rawAndCalibrated_witness :
    ∃ padB padR addedB addedR rawB,
      (samplePad kQ).Draw (sampleEnv kRAWCALIB false) = some padB ∧
      (samplePad kQ).Draw ((sampleEnv kRAWCALIB false).withMode kRAW) = some padR ∧
      padB.fFrameHist = padR.fFrameHist ∧ padB.fRawHisto = padR.fRawHisto ∧
      padB.fRecoHisto = padR.fRecoHisto ∧
      padB.fRawHisto = some rawB ∧
      rawB.fMinimum = some (-20) ∧
      rawB.fMaximum = some 20 ∧
      padB.fPad.primitives.head? = some (Drawn.hist .raw "pY+") ∧
      padR.fPad.primitives.head? = some (Drawn.hist .raw "pY+") ∧
      padB.fView.fBoxL = (samplePad kQ).fView.fBoxL ++ addedB ∧
      padR.fView.fBoxL = (samplePad kQ).fView.fBoxL ++ addedR ∧
      addedB.length = 4 ∧
      addedB.map TBox.coords = addedR.map TBox.coords ∧
      ∀ b ∈ addedB, b.fillColor = some
        ((sampleColors.CalQ .kInduction).GetColor (0.5 * (b.y1 + b.y2))) :=
  chargeOnly_rawAndCalibrated (sampleEnv kRAWCALIB false) (samplePad kQ) _ _ _ rfl rfl rfl rfl rfl
    rfl

/-- Counterexample to C8 as stated: with 4 raw and 10 calibrated divisions the draw
under RawAndCalibrated renders the raw buffer and adds 4 boxes, the draw under
CalibratedOnly renders the calibrated buffer and adds 10 boxes. -/
theorem rawAndCalibrated_not_calibrated_counterexample :
    ∃ padB padC, (samplePad kQ).Draw (sampleEnv kRAWCALIB false) = some padB ∧
      (samplePad kQ).Draw (sampleEnv kCALIB false) = some padC ∧
      padB.fPad.primitives.head? = some (Drawn.hist .raw "pY+") ∧
      padC.fPad.primitives.head? = some (Drawn.hist .reco "pY+") ∧
      padB.fView.fBoxL.length = 4 ∧ padC.fView.fBoxL.length = 10 := by
  have hneB : (sampleEnv kRAWCALIB false).drawopt.fDrawRawDataOrCalibWires ≠ kCALIB := by decide
  have eB := drawSinglePhase_Q_not_calib (sampleEnv kRAWCALIB false) (samplePad kQ)
    (TH1F.new "fRAWHisto" "" 4 0 4) (TH1F.new "fCALHisto" "" 4 0 4) rfl hneB
  have eC := drawSinglePhase_Q_calib (sampleEnv kCALIB false) (samplePad kQ)
    (TH1F.new "fRAWHisto" "" 4 0 4) (TH1F.new "fCALHisto" "" 4 0 4) rfl rfl
  rw [← Draw_eq_singlePhase (sampleEnv kRAWCALIB false) (samplePad kQ) _ _ ⟨false, 1⟩
    rfl rfl rfl rfl] at eB
  rw [← Draw_eq_singlePhase (sampleEnv kCALIB false) (samplePad kQ) _ _ ⟨false, 1⟩
    rfl rfl rfl rfl] at eC
  refine ⟨_, _, eB, eC, rfl, rfl, ?_, ?_⟩
  · simp [samplePad, sampleEnv, sampleColors]
  · simp [samplePad, sampleEnv, sampleColors]

/-! ## Single-phase time-vs-charge rendering by display mode -/

theorem foldl_draw_hitFuncs (fs : List TF1) (p : TPad) :
    (fs.foldl (fun p func => p.draw (.hitFunc func "HIST same same")) p).primitives =
      p.primitives ++ fs.map (fun f => Drawn.hitFunc f "HIST same same") := by
  induction fs generalizing p with
  | nil => simp
  | cons a l ih =>
    rw [List.foldl_cons, ih]
    simp [TPad.draw]

theorem foldl_draw_hitFuncs_unfolded (fs : List TF1) (p : TPad) :
    (fs.foldl (fun p func =>
      ({ leftMargin := p.leftMargin, rightMargin := p.rightMargin, topMargin := p.topMargin,
         bottomMargin := p.bottomMargin,
         primitives := p.primitives ++ [Drawn.hitFunc func "HIST same same"] } : TPad))
      p).primitives =
      p.primitives ++ fs.map (fun f => Drawn.hitFunc f "HIST same same") :=
  foldl_draw_hitFuncs fs p

/-- The time-vs-charge block in closed form: view, hit functions and pad primitives. -/
theorem drawTQ_rendering (env : Env) (fPlane fWire : Nat) (st : DrawState) (fr : TH1F)
    (hfr : st.frame = some fr) :
    ∃ st', drawTQ env fPlane fWire st = some st' ∧
      st'.fView =
        (if env.drawopt.fDrawRawDataOrCalibWires ≠ kRAW then
          (env.fHitDrawerTool.Draw
            (env.fWireDrawerTool.Fill
              (env.fRawDigitDrawerTool.Fill st.fView
                (env.geo.PlaneWireToChannel fPlane fWire env.drawopt.fTPC env.drawopt.fCryostat)
                env.rawDataDraw.StartTick env.rawDataDraw.TotalClockTicks)
              (env.geo.PlaneWireToChannel fPlane fWire env.drawopt.fTPC env.drawopt.fCryostat)
              env.rawDataDraw.StartTick env.rawDataDraw.TotalClockTicks)
            st.fHitFuncVec
            (env.geo.PlaneWireToChannel fPlane fWire env.drawopt.fTPC env.drawopt.fCryostat)).1
         else
          env.fWireDrawerTool.Fill
            (env.fRawDigitDrawerTool.Fill st.fView
              (env.geo.PlaneWireToChannel fPlane fWire env.drawopt.fTPC env.drawopt.fCryostat)
              env.rawDataDraw.StartTick env.rawDataDraw.TotalClockTicks)
            (env.geo.PlaneWireToChannel fPlane fWire env.drawopt.fTPC env.drawopt.fCryostat)
            env.rawDataDraw.StartTick env.rawDataDraw.TotalClockTicks) ∧
      st'.fHitFuncVec =
        (if env.drawopt.fDrawRawDataOrCalibWires ≠ kRAW then
          (env.fHitDrawerTool.Draw
            (env.fWireDrawerTool.Fill
              (env.fRawDigitDrawerTool.Fill st.fView
                (env.geo.PlaneWireToChannel fPlane fWire env.drawopt.fTPC env.drawopt.fCryostat)
                env.rawDataDraw.StartTick env.rawDataDraw.TotalClockTicks)
              (env.geo.PlaneWireToChannel fPlane fWire env.drawopt.fTPC env.drawopt.fCryostat)
              env.rawDataDraw.StartTick env.rawDataDraw.TotalClockTicks)
            st.fHitFuncVec
            (env.geo.PlaneWireToChannel fPlane fWire env.drawopt.fTPC env.drawopt.fCryostat)).2
         else st.fHitFuncVec) ∧
      st'.fPad.primitives =
        st.fPad.primitives ++ [Drawn.hist .frame "AXIS"] ++
        (if env.drawopt.fDrawRawDataOrCalibWires ≠ kRAW then
          [Drawn.wireTool "HIST same"] ++
            st'.fHitFuncVec.map (fun f => Drawn.hitFunc f "HIST same same")
         else []) ++
        (if env.drawopt.fDrawRawDataOrCalibWires ≠ kCALIB then
          [Drawn.rawDigitTool "HIST same"] else []) := by
  by_cases h1 : env.drawopt.fDrawRawDataOrCalibWires = kRAW <;>
    by_cases h2 : env.drawopt.fDrawRawDataOrCalibWires = kCALIB <;>
    simp [drawTQ, hfr, h1, h2, TPad.draw, foldl_draw_hitFuncs_unfolded]

/-- C9: on the single-phase path with plot mode ChargeVsTime (frame buffer allocated)
the draw first renders the frame axis; what follows is decided by the display mode
alone: the reconstructed waveform and, after it, every hit function returned by the hit
drawer are rendered if and only if the display mode is not RawOnly, and the raw waveform
is rendered if and only if the display mode is not CalibratedOnly.  Under RawOnly only
the frame axis and the raw waveform are rendered, no hit function is produced, and the
result does not depend on the hit drawer (it is not invoked). -/
theorem singlePhase_TQ_rendering (env : Env) (pad : TQPad) (raw reco frame : TH1F) (evt : Event)
    (hraw : pad.fRawHisto = some raw) (hreco : pad.fRecoHisto = some reco)
    (hframe : pad.fFrameHist = some frame)
    (hevt : env.evt = some evt) (hsp : evt.dprawhit = false) (hTQ : pad.fTQ = kTQ) :
    ∃ pad', pad.Draw env = some pad' ∧
      pad'.fPad.primitives =
        [Drawn.hist .frame "AXIS"] ++
        (if env.drawopt.fDrawRawDataOrCalibWires ≠ kRAW then
          [Drawn.wireTool "HIST same"] ++
            pad'.fHitFuncVec.map (fun f => Drawn.hitFunc f "HIST same same")
         else []) ++
        (if env.drawopt.fDrawRawDataOrCalibWires ≠ kCALIB then
          [Drawn.rawDigitTool "HIST same"] else []) ∧
      ((∃ opt, Drawn.rawDigitTool opt ∈ pad'.fPad.primitives) ↔
        env.drawopt.fDrawRawDataOrCalibWires ≠ kCALIB) ∧
      ((∃ opt, Drawn.wireTool opt ∈ pad'.fPad.primitives) ↔
        env.drawopt.fDrawRawDataOrCalibWires ≠ kRAW) ∧
      ((∃ f opt, Drawn.hitFunc f opt ∈ pad'.fPad.primitives) ↔
        (env.drawopt.fDrawRawDataOrCalibWires ≠ kRAW ∧ pad'.fHitFuncVec ≠ [])) ∧
      (env.drawopt.fDrawRawDataOrCalibWires ≠ kRAW →
        pad'.fHitFuncVec =
          (env.fHitDrawerTool.Draw
            (env.fWireDrawerTool.Fill
              (env.fRawDigitDrawerTool.Fill pad.fView
                (env.geo.PlaneWireToChannel pad.fPlane pad.fWire env.drawopt.fTPC
                  env.drawopt.fCryostat)
                env.rawDataDraw.StartTick env.rawDataDraw.TotalClockTicks)
              (env.geo.PlaneWireToChannel pad.fPlane pad.fWire env.drawopt.fTPC
                env.drawopt.fCryostat)
              env.rawDataDraw.StartTick env.rawDataDraw.TotalClockTicks)
            []
            (env.geo.PlaneWireToChannel pad.fPlane pad.fWire env.drawopt.fTPC
              env.drawopt.fCryostat)).2) ∧
      (env.drawopt.fDrawRawDataOrCalibWires = kRAW →
        pad'.fHitFuncVec = [] ∧
        pad'.fPad.primitives = [Drawn.hist .frame "AXIS", Drawn.rawDigitTool "HIST same"] ∧
        ∀ tool, pad.Draw (env.withHitDrawer tool) = some pad') := by
  obtain ⟨st', hd, v1, v2, v3⟩ := drawTQ_rendering env pad.fPlane pad.fWire
    { frame := pad.fFrameHist, raw := raw, reco := reco, fView := pad.fView,
      fHitFuncVec := [], fPad := pad.fPad.Clear } frame hframe
  have hprim : st'.fPad.primitives =
      [Drawn.hist .frame "AXIS"] ++
        (if env.drawopt.fDrawRawDataOrCalibWires ≠ kRAW then
          [Drawn.wireTool "HIST same"] ++
            st'.fHitFuncVec.map (fun f => Drawn.hitFunc f "HIST same same")
         else []) ++
        (if env.drawopt.fDrawRawDataOrCalibWires ≠ kCALIB then
          [Drawn.rawDigitTool "HIST same"] else []) := by
    rw [v3]
    simp [TPad.Clear]
  refine ⟨{ pad with fFrameHist := st'.frame, fRawHisto := some st'.raw,
                     fRecoHisto := some st'.reco, fView := st'.fView,
                     fHitFuncVec := st'.fHitFuncVec, fPad := st'.fPad }, ?_, hprim, ?_, ?_, ?_, ?_, ?_⟩
  · rw [Draw_eq_singlePhase env pad raw reco evt hraw hreco hevt hsp,
      drawSinglePhase_TQ env pad raw reco hTQ, hd]
    rfl
  · show (∃ opt, Drawn.rawDigitTool opt ∈ st'.fPad.primitives) ↔ _
    rw [hprim]
    by_cases h1 : env.drawopt.fDrawRawDataOrCalibWires = kRAW <;>
      by_cases h2 : env.drawopt.fDrawRawDataOrCalibWires = kCALIB <;> simp [h1, h2]
  · show (∃ opt, Drawn.wireTool opt ∈ st'.fPad.primitives) ↔ _
    rw [hprim]
    by_cases h1 : env.drawopt.fDrawRawDataOrCalibWires = kRAW <;>
      by_cases h2 : env.drawopt.fDrawRawDataOrCalibWires = kCALIB <;> simp [h1, h2]
  · show (∃ f opt, Drawn.hitFunc f opt ∈ st'.fPad.primitives) ↔ (_ ∧ st'.fHitFuncVec ≠ [])
    rw [hprim]
    by_cases h1 : env.drawopt.fDrawRawDataOrCalibWires = kRAW <;>
      by_cases h2 : env.drawopt.fDrawRawDataOrCalibWires = kCALIB <;>
      simp [h1, h2, List.eq_nil_iff_forall_not_mem] <;>
      exact ⟨fun ⟨f, _, a, ha, _⟩ => ⟨a, ha⟩, fun ⟨a, ha⟩ => ⟨a, _, a, ha, rfl, rfl⟩⟩
  · intro h1
    show st'.fHitFuncVec = _
    rw [v2, if_pos h1]
  · intro h1
    have hne : env.drawopt.fDrawRawDataOrCalibWires ≠ kCALIB := by rw [h1]; decide
    have hf : st'.fHitFuncVec = [] := by rw [v2]; simp [h1]
    refine ⟨hf, ?_, ?_⟩
    · show st'.fPad.primitives = _
      rw [hprim]
      simp [h1]
    · intro tool
      rw [Draw_eq_singlePhase (env.withHitDrawer tool) pad raw reco evt hraw hreco hevt hsp,
        drawSinglePhase_TQ (env.withHitDrawer tool) pad raw reco hTQ]
      have hd' : drawTQ (env.withHitDrawer tool) pad.fPlane pad.fWire
          { frame := pad.fFrameHist, raw := raw, reco := reco, fView := pad.fView,
            fHitFuncVec := [], fPad := pad.fPad.Clear } =
          drawTQ env pad.fPlane pad.fWire
          { frame := pad.fFrameHist, raw := raw, reco := reco, fView := pad.fView,
            fHitFuncVec := [], fPad := pad.fPad.Clear } := by
        simp [drawTQ, Env.withHitDrawer, h1, hframe]
      rw [hd', hd]
      rfl

/-- Witness of C9: the sample pad under RawOnly in an event without dual-phase data. -/
theorem singlePhase_TQ_rendering_witness :
    ∃ pad', (samplePad kTQ).Draw (sampleEnv kRAW false) = some pad' ∧
      pad'.fHitFuncVec = [] ∧
      pad'.fPad.primitives = [Drawn.hist .frame "AXIS", Drawn.rawDigitTool "HIST same"] ∧
      ∀ tool, (samplePad kTQ).Draw ((sampleEnv kRAW false).withHitDrawer tool) = some pad' := by
  obtain ⟨pad', hd, _, _, _, _, _, hr⟩ :=
    singlePhase_TQ_rendering (sampleEnv kRAW false) (samplePad kTQ) _ _ _ ⟨false, 1⟩
      rfl rfl rfl rfl rfl rfl
  exact ⟨pad', hd, hr rfl⟩

/-! ## Axis shapes of the buffers -/

/-- Any sequence of successful draws keeps the plot mode, plane and wire of the pad and
the bin count and axis range of each buffer. -/
theorem DrawSeq_preserves (envs : List Env) (pad pad1 : TQPad)
    (h : pad.DrawSeq envs = some pad1) :
    pad1.fTQ = pad.fTQ ∧ pad1.fPlane = pad.fPlane ∧ pad1.fWire = pad.fWire ∧
    pad1.shapes = pad.shapes := by
  unfold TQPad.DrawSeq at h
  induction envs generalizing pad with
  | nil =>
    simp only [List.foldlM_nil, Option.pure_def, Option.some.injEq] at h
    subst h
    exact ⟨rfl, rfl, rfl, rfl⟩
  | cons env envs ih =>
    rw [List.foldlM_cons] at h
    cases hd : pad.Draw env with
    | none => simp [hd] at h
    | some p =>
      simp only [hd, Option.bind_eq_bind, Option.some_bind] at h
      obtain ⟨a1, a2, a3, a4⟩ := Draw_preserves env pad p hd
      obtain ⟨b1, b2, b3, b4⟩ := ih p h
      exact ⟨b1.trans a1, b2.trans a2, b3.trans a3, b4.trans a4⟩

/-- The conversion `(int)x` truncates toward zero when the truncated value fits. -/
theorem truncToInt_of_isInt32 (x : ℚ) (h : IsInt32 (truncToZero x)) :
    truncToInt x = truncToZero x := by
  unfold truncToInt
  rw [if_pos h]

/-- The buffers `BookHistogram` allocates for plot mode `kTQ`: all three are built with
the bin count `(int)tqxhi` and the axis range from `tqxlo` to `tqxhi+tqxlo`. -/
theorem BookHistogram_TQ_ok (env : Env) (pad : TQPad) (hTQ : pad.fTQ = kTQ) :
    ∃ pad', pad.BookHistogram env = .ok pad' ∧ pad'.fTQ = kTQ ∧
      pad'.fPlane = pad.fPlane ∧ pad'.fWire = pad.fWire ∧ pad'.fFrameHist.isSome ∧
      pad'.shapes =
        (some (truncToInt env.rawDataDraw.TotalClockTicks, env.rawDataDraw.StartTick,
           env.rawDataDraw.StartTick + env.rawDataDraw.TotalClockTicks),
         some (truncToInt env.rawDataDraw.TotalClockTicks, env.rawDataDraw.StartTick,
           env.rawDataDraw.StartTick + env.rawDataDraw.TotalClockTicks),
         some (truncToInt env.rawDataDraw.TotalClockTicks, env.rawDataDraw.StartTick,
           env.rawDataDraw.StartTick + env.rawDataDraw.TotalClockTicks)) := by
  have hne : ¬ ((kTQ : Int) = kQ) := by decide
  unfold TQPad.BookHistogram
  simp only [hTQ, hne, if_false, if_true]
  refine ⟨_, rfl, rfl, rfl, rfl, rfl, ?_⟩
  simp [TQPad.shapes, histShape, bookStyleFrame, bookStyleRaw, bookStyleReco, TH1F.new,
    TH1F.SetLabelSize, TH1F.SetLabelOffset, TH1F.SetTitleSize, TH1F.SetTitleOffset,
    TH1F.SetLineColor, TH1F.SetLineWidth, add_comm]

/-- C10 (amended): after `BookHistogram` with plot mode ChargeVsTime the frame, raw and
calibrated buffers all have one and the same bin count, the value of `(int)totalTicks`,
and the same axis range `[startTick, startTick + totalTicks]`, for the start tick and
total tick count of the raw-data drawer; when `totalTicks` truncated to an integer is
representable as a 32-bit `int`, that bin count equals `totalTicks` truncated to an
integer.  A following draw returns (given, where the overlay loop runs, fitted-hit
records satisfying the layout invariant), and after any sequence of following draws, in
whatever environments, the three buffers still have this same bin count and axis
range. -/
theorem BookHistogram_TQ_shapes (env : Env) (pad : TQPad) (hTQ : pad.fTQ = kTQ) :
    ∃ pad' nbins, pad.BookHistogram env = .ok pad' ∧
      pad'.shapes =
        (some (nbins, env.rawDataDraw.StartTick,
           env.rawDataDraw.StartTick + env.rawDataDraw.TotalClockTicks),
         some (nbins, env.rawDataDraw.StartTick,
           env.rawDataDraw.StartTick + env.rawDataDraw.TotalClockTicks),
         some (nbins, env.rawDataDraw.StartTick,
           env.rawDataDraw.StartTick + env.rawDataDraw.TotalClockTicks)) ∧
      nbins = truncToInt env.rawDataDraw.TotalClockTicks ∧
      (IsInt32 (truncToZero env.rawDataDraw.TotalClockTicks) →
        nbins = truncToZero env.rawDataDraw.TotalClockTicks) ∧
      (∀ env',
        (∀ evt, env'.evt = some evt → evt.dprawhit = true →
          env'.drawopt.fDrawRawDataOrCalibWires ≠ kRAW →
          LayoutInvariant (env'.recoBaseDraw.FillTQHistoDP evt pad.fPlane pad.fWire).2) →
        ∃ pad'', pad'.Draw env' = some pad'') ∧
      (∀ envs pad'', pad'.DrawSeq envs = some pad'' → pad''.shapes = pad'.shapes) := by
  obtain ⟨pad', hok, t1, t2, t3, hfr, hs⟩ := BookHistogram_TQ_ok env pad hTQ
  refine ⟨pad', _, hok, hs, rfl, truncToInt_of_isInt32 _, ?_, ?_⟩
  · intro env' hinv
    apply Draw_defined env' pad' hfr
    intro evt hevt hdp _ hm
    rw [t2, t3]
    exact hinv evt hevt hdp hm
  · intro envs pad'' hseq
    exact (DrawSeq_preserves envs pad' pad'' hseq).2.2.2

theorem truncToZero_four : truncToZero (4 : ℚ) = 4 := by
  simp [truncToZero]

/-- Witness of C10 (amended): the sample tick window `[0, 4]`, booked and then drawn
twice, once without and once with dual-phase data. -/
theorem BookHistogram_TQ_shapes_witness :
    ∃ pad' pad'', (samplePad kTQ).BookHistogram (sampleEnv kCALIB false) = .ok pad' ∧
      IsInt32 (truncToZero (sampleEnv kCALIB false).rawDataDraw.TotalClockTicks) ∧
      pad'.shapes = (some (4, 0, 4), some (4, 0, 4), some (4, 0, 4)) ∧
      pad'.DrawSeq [sampleEnv kCALIB false, sampleEnv kRAWCALIB true] = some pad'' ∧
      pad''.shapes = (some (4, 0, 4), some (4, 0, 4), some (4, 0, 4)) := by
  obtain ⟨pad', nbins, hok, hs, _, hnb, hdef, hseq⟩ :=
    BookHistogram_TQ_shapes (sampleEnv kCALIB false) (samplePad kTQ) rfl
  have hr : IsInt32 (truncToZero (sampleEnv kCALIB false).rawDataDraw.TotalClockTicks) := by
    have h4 : (sampleEnv kCALIB false).rawDataDraw.TotalClockTicks = 4 := rfl
    rw [h4, truncToZero_four]
    decide
  have hnb' : nbins = 4 := by
    rw [hnb hr]
    have h4 : (sampleEnv kCALIB false).rawDataDraw.TotalClockTicks = 4 := rfl
    rw [h4, truncToZero_four]
  subst hnb'
  have hs' : pad'.shapes = (some (4, 0, 4), some (4, 0, 4), some (4, 0, 4)) := by
    rw [hs]
    simp [sampleEnv]
  obtain ⟨p1, h1⟩ := hdef (sampleEnv kCALIB false) (fun evt hevt hdp _ => by
    cases hevt
    cases hdp)
  have n := Draw_nonnull _ _ _ h1
  have hfr1 : p1.fFrameHist.isSome := by
    rw [n.1]
    have := congrArg (fun s => s.1.isSome) hs'
    simpa [TQPad.shapes, histShape] using this
  obtain ⟨p2, h2⟩ := Draw_defined (sampleEnv kRAWCALIB true) p1 hfr1
    (fun _ _ _ _ _ => sampleRecords_layout)
  have hseq2 : pad'.DrawSeq [sampleEnv kCALIB false, sampleEnv kRAWCALIB true] = some p2 := by
    simp [TQPad.DrawSeq, h1, h2]
  exact ⟨pad', p2, hok, hr, hs', hseq2, (hseq _ p2 hseq2).trans hs'⟩

theorem truncToZero_long : truncToZero (3000000000 : ℚ) = 3000000000 := by
  simp [truncToZero]

/-- Counterexample to C10 as stated: for a total tick count of `3000000000`, which
truncated to an integer is `3000000000`, the three buffers are booked with the bin count
`-2147483648`, because the truncated value is not representable as an `int`. -/
theorem bin_count_overflow_counterexample :
    longEnv.rawDataDraw.TotalClockTicks = 3000000000 ∧
    truncToZero longEnv.rawDataDraw.TotalClockTicks = 3000000000 ∧
    ∃ pad', (samplePad kTQ).BookHistogram longEnv = .ok pad' ∧
      pad'.shapes =
        (some (-2147483648, 0, 3000000000), some (-2147483648, 0, 3000000000),
         some (-2147483648, 0, 3000000000)) := by
  have hT : longEnv.rawDataDraw.TotalClockTicks = 3000000000 := rfl
  have hS : longEnv.rawDataDraw.StartTick = 0 := rfl
  refine ⟨hT, by rw [hT, truncToZero_long], ?_⟩
  obtain ⟨pad', hok, _, _, _, _, hs⟩ := BookHistogram_TQ_ok longEnv (samplePad kTQ) rfl
  refine ⟨pad', hok, ?_⟩
  have hn : truncToInt (3000000000 : ℚ) = -2147483648 := by
    unfold truncToInt
    rw [truncToZero_long, if_neg (by decide)]
    norm_num
  rw [hs, hT, hS, hn]
  norm_num

/-! ## Tick span of the overlay curves -/

theorem wrapInt32_of_isInt32 (z : Int) (h : IsInt32 z) : wrapInt32 z = z := by
  unfold IsInt32 at h
  unfold wrapInt32
  omega

/-- The first sample of an overlay curve lies at the start tick. -/
theorem curveX_first (s e : Int) (hs : IsInt32 s) : curveX s e 0 = s := by
  unfold curveX
  have h0 : wrapInt32 (((0 : Nat) : Int) * wrapInt32 (e - s)) = 0 := by
    simp [wrapInt32]
  rw [h0]
  simp [wrapInt32_of_isInt32 s hs]

/-- The last sample of an overlay curve lies at the end tick when `1000 * (e - s)` does
not overflow an `int`. -/
theorem curveX_last (s e : Int) (he : IsInt32 e) (hspan : IsInt32 (1000 * (e - s))) :
    curveX s e 1000 = e := by
  have hd : IsInt32 (e - s) := by
    unfold IsInt32 at hspan ⊢
    omega
  unfold curveX
  rw [wrapInt32_of_isInt32 _ hd]
  have h1 : (((1000 : Nat) : Int) * (e - s)) = 1000 * (e - s) := by norm_num
  rw [h1, wrapInt32_of_isInt32 _ hspan, Int.mul_tdiv_cancel_left _ (by norm_num)]
  have h2 : s + (e - s) = e := by ring
  rw [h2, wrapInt32_of_isInt32 _ he]

theorem curve_points_get (l : List (ℚ × ℚ)) (s e : Int)
    (h : l.map Prod.fst = (List.range 1001).map (curveX s e)) (j : Nat) (hj : j < 1001) :
    (l[j]?).map Prod.fst = some (curveX s e j) := by
  rw [← List.getElem?_map, h, List.getElem?_map, List.getElem?_range hj]
  rfl

/-- C11 (amended): for fitted-hit records satisfying the layout invariant and any
record `i` of a cluster `[f, f+n)`, the index `i - hLocalHitIndex[i]` equals `f` and the
index `i + hNMultiHit[i] - hLocalHitIndex[i] - 1` equals `f+n-1` (in `size_t`
arithmetic), both within the bounds of the start and end arrays; the index
`f + hNMultiHit[f] - 1` of the sum curve equals `f+n-1` as well.  So the single-peak
curve of every member and the sum curve of the cluster exist, have 1001 points and are
sampled over the same span from `hstartT[f]` to `hendT[f+n-1]`.  When the start tick,
the end tick and `1000 * (end - start)` are representable as `int`, the first sample of
each curve lies at the start tick and the last at the end tick. -/
theorem overlay_cluster_span (rb : RecoBaseDrawer) (r : HitRecords) (f n i : Nat)
    (hinv : LayoutInvariant r) (hc : IsCluster r f n) (hfi : f ≤ i) (hin : i < f + n) :
    ∃ m loc mf s e p1 p2,
      r.hNMultiHit[i]? = some m ∧ r.hLocalHitIndex[i]? = some loc ∧
      r.hNMultiHit[f]? = some mf ∧
      m = n ∧ loc = (i : Int) - f ∧ mf = n ∧
      toSizeT ((i : Int) - loc) = f ∧ f < r.hstartT.length ∧
      toSizeT ((i : Int) + m - loc - 1) = f + n - 1 ∧ f + n - 1 < r.hendT.length ∧
      toSizeT ((f : Int) + mf - 1) = f + n - 1 ∧
      r.hstartT[f]? = some s ∧ r.hendT[f + n - 1]? = some e ∧
      peakPolyLine rb r i = some p1 ∧ sumPolyLine rb r f = some p2 ∧
      p1.n = 1001 ∧ p2.n = 1001 ∧
      p1.points.length = 1001 ∧ p2.points.length = 1001 ∧
      p1.points.map Prod.fst = (List.range 1001).map (curveX s e) ∧
      p2.points.map Prod.fst = (List.range 1001).map (curveX s e) ∧
      (IsInt32 s → IsInt32 e → IsInt32 (1000 * (e - s)) →
        (p1.points[0]?).map Prod.fst = some (s : ℚ) ∧
        (p1.points[1000]?).map Prod.fst = some (e : ℚ) ∧
        (p2.points[0]?).map Prod.fst = some (s : ℚ) ∧
        (p2.points[1000]?).map Prod.fst = some (e : ℚ)) := by
  have hal := hinv.1
  obtain ⟨s, e, tau1, tau2, amp, peak, hs, he, _, _, _, _, hp⟩ :=
    peakPolyLine_cluster rb r f n i hal hc hfi hin
  obtain ⟨s', e', hs', he', hsum⟩ := sumPolyLine_cluster rb r f n hal hc
  rw [hs] at hs'
  rw [he] at he'
  obtain rfl : s = s' := Option.some.inj hs'
  obtain rfl : e = e' := Option.some.inj he'
  obtain ⟨hsz, _, _, _, h4, h5, _, _⟩ := id hal
  obtain ⟨hn1, hfn, hk⟩ := id hc
  obtain ⟨hm, hl⟩ := hk i hin hfi
  obtain ⟨hmf, _⟩ := hk f (by omega) (le_refl f)
  have hf64 : f < 2 ^ 64 := by omega
  have hfn64 : f + n < 2 ^ 64 + 1 := by omega
  obtain ⟨p1, hp1, n1, l1, x1⟩ : ∃ p1, peakPolyLine rb r i = some p1 ∧ p1.n = 1001 ∧
      p1.points.length = 1001 ∧
      p1.points.map Prod.fst = (List.range 1001).map (curveX s e) :=
    ⟨_, hp, rfl, by simp only [List.length_map, List.length_range],
      by simp only [List.map_map, Function.comp_def]⟩
  obtain ⟨p2, hp2, n2, l2, x2⟩ : ∃ p2, sumPolyLine rb r f = some p2 ∧ p2.n = 1001 ∧
      p2.points.length = 1001 ∧
      p2.points.map Prod.fst = (List.range 1001).map (curveX s e) :=
    ⟨_, hsum, rfl, by simp only [List.length_map, List.length_range],
      by simp only [List.map_map, Function.comp_def]⟩
  refine ⟨n, (i : Int) - f, n, s, e, p1, p2, hm, hl, hmf, rfl, rfl, rfl,
    toSizeT_sub_local f i hf64, by omega, toSizeT_last f n i hn1 hfn64, by omega,
    toSizeT_last_head f n hn1 hfn64, hs, he, hp1, hp2, n1, n2, l1, l2, x1, x2, ?_⟩
  intro rs re rspan
  have c0 := curveX_first s e rs
  have c1 := curveX_last s e re rspan
  refine ⟨?_, ?_, ?_, ?_⟩
  · rw [curve_points_get _ s e x1 0 (by norm_num), c0]
  · rw [curve_points_get _ s e x1 1000 (by norm_num), c1]
  · rw [curve_points_get _ s e x2 0 (by norm_num), c0]
  · rw [curve_points_get _ s e x2 1000 (by norm_num), c1]

/-- Witness of C11 (amended): the second record of the sample two-hit cluster over the
ticks `[10, 30]`. -/
theorem overlay_cluster_span_witness :
    ∃ (p1 p2 : TPolyLine),
      toSizeT ((1 : Int) - 1) = 0 ∧ toSizeT ((1 : Int) + 2 - 1 - 1) = 1 ∧
      toSizeT ((0 : Int) + 2 - 1) = 1 ∧
      peakPolyLine (sampleEnv kCALIB true).recoBaseDraw sampleRecords 1 = some p1 ∧
      sumPolyLine (sampleEnv kCALIB true).recoBaseDraw sampleRecords 0 = some p2 ∧
      p1.points.length = 1001 ∧ p2.points.length = 1001 ∧
      (p1.points[0]?).map Prod.fst = some (10 : ℚ) ∧
      (p1.points[1000]?).map Prod.fst = some (30 : ℚ) ∧
      (p2.points[0]?).map Prod.fst = some (10 : ℚ) ∧
      (p2.points[1000]?).map Prod.fst = some (30 : ℚ) := by
  obtain ⟨m, loc, mf, s, e, p1, p2, hm, hl, hmf, _, _, _, _, _, _, _, _, hs, he, hp1, hp2, _, _,
      l1, l2, _, _, hends⟩ :=
    overlay_cluster_span (sampleEnv kCALIB true).recoBaseDraw sampleRecords 0 2 1
      sampleRecords_layout sampleRecords_cluster (by decide) (by decide)
  have hs' : s = 10 := by
    have : sampleRecords.hstartT[0]? = some 10 := rfl
    rw [this] at hs
    exact (Option.some.inj hs).symm
  have he' : e = 30 := by
    have : sampleRecords.hendT[0 + 2 - 1]? = some 30 := rfl
    rw [this] at he
    exact (Option.some.inj he).symm
  subst hs' he'
  obtain ⟨a, b, c, d⟩ := hends (by decide) (by decide) (by decide)
  refine ⟨p1, p2, by decide, by decide, by decide, hp1, hp2, l1, l2, ?_, ?_, ?_, ?_⟩
  · simpa using a
  · simpa using b
  · simpa using c
  · simpa using d

theorem wideRecords_cluster : IsCluster wideRecords 0 1 := by
  refine ⟨by decide, by decide, ?_⟩
  intro k hk _
  have : k = 0 := by omega
  subst this
  exact ⟨rfl, rfl⟩

theorem wideRecords_layout : LayoutInvariant wideRecords := by
  refine ⟨by decide, ?_⟩
  intro i hi
  have hi2 : i < 1 := hi
  exact ⟨0, by decide, 1, by decide, by omega, by omega, wideRecords_cluster⟩

theorem curveX_wide : curveX 0 3000000 1000 = -1294967 := by
  unfold curveX
  have h : wrapInt32 (0 + Int.tdiv (wrapInt32 (((1000 : Nat) : Int) * wrapInt32 (3000000 - 0))) 1000)
      = -1294967 := by decide
  rw [h]
  norm_num

/-- Counterexample to C11 as stated: the single-hit cluster over the ticks
`[0, 3000000]` satisfies the layout invariant, the dual-phase draw adds its single-peak
curve of 1001 points to the view, and the last sample of that curve lies at `-1294967`,
not at the end tick `3000000`, because `1000 * (end - start)` overflows an `int`. -/
theorem overlay_span_overflow_counterexample :
    LayoutInvariant wideRecords ∧ IsCluster wideRecords 0 1 ∧
    (wideEnv.recoBaseDraw.FillTQHistoDP ⟨true, 1⟩ 0 0).2 = wideRecords ∧
    wideRecords.hstartT[0]? = some 0 ∧ wideRecords.hendT[0]? = some 3000000 ∧
    ∃ (pad' : TQPad) (p1 : TPolyLine), (samplePad kTQ).Draw wideEnv = some pad' ∧
      pad'.fView.fPolyLineL = [p1] ∧
      peakPolyLine wideEnv.recoBaseDraw wideRecords 0 = some p1 ∧
      p1.points.length = 1001 ∧
      (p1.points[0]?).map Prod.fst = some (0 : ℚ) ∧
      (p1.points[1000]?).map Prod.fst = some (-1294967 : ℚ) := by
  refine ⟨wideRecords_layout, wideRecords_cluster, rfl, rfl, rfl, ?_⟩
  obtain ⟨s, e, tau1, tau2, amp, peak, hs, he, _, _, _, _, hp⟩ :=
    peakPolyLine_cluster wideEnv.recoBaseDraw wideRecords 0 1 0 wideRecords_layout.1
      wideRecords_cluster (le_refl 0) (by decide)
  have hs' : s = 0 := by
    have : wideRecords.hstartT[0]? = some 0 := rfl
    rw [this] at hs
    exact (Option.some.inj hs).symm
  have he' : e = 3000000 := by
    have : wideRecords.hendT[0 + 1 - 1]? = some 3000000 := rfl
    rw [this] at he
    exact (Option.some.inj he).symm
  subst hs' he'
  obtain ⟨p1, hp1, l1, x1⟩ : ∃ p1, peakPolyLine wideEnv.recoBaseDraw wideRecords 0 = some p1 ∧
      p1.points.length = 1001 ∧
      p1.points.map Prod.fst = (List.range 1001).map (curveX 0 3000000) :=
    ⟨_, hp, by simp only [List.length_map, List.length_range],
      by simp only [List.map_map, Function.comp_def]⟩
  obtain ⟨q, hq, _, _, _, _, hrest⟩ :=
    overlayCurves_cluster wideEnv.recoBaseDraw wideRecords 0 1 0 wideRecords_layout.1
      wideRecords_cluster (le_refl 0) (by decide)
  rw [hp1] at hq
  obtain rfl : p1 = q := Option.some.inj hq
  have hcur := hrest (by decide)
  have hd := drawDualPhase_TQ_layout wideEnv ⟨true, 1⟩ (samplePad kTQ)
    (TH1F.new "fRAWHisto" "" 4 0 4) (TH1F.new "fCALHisto" "" 4 0 4) rfl (by decide)
    wideRecords_layout
  rw [← Draw_eq_dualPhase wideEnv (samplePad kTQ) _ _ ⟨true, 1⟩ rfl rfl rfl rfl] at hd
  refine ⟨_, p1, hd, ?_, hp1, l1, ?_, ?_⟩
  · show ([] : List TPolyLine) ++
      (List.range wideRecords.size).flatMap (overlayCurves wideEnv.recoBaseDraw wideRecords) = [p1]
    have hsz : wideRecords.size = 1 := rfl
    rw [hsz]
    simp [List.range_succ, hcur]
  · rw [curve_points_get _ 0 3000000 x1 0 (by norm_num), curveX_first 0 3000000 (by decide)]
    norm_num
  · rw [curve_points_get _ 0 3000000 x1 1000 (by norm_num), curveX_wide]

/-! ## Headroom scaling -/

/-- Scaling both extremes by one factor `k > 1`: the scaled range contains the data
range exactly when the data range contains zero. -/
theorem headroom_contains_iff (k m M : ℚ) (hk : 1 < k) :
    ((k * m ≤ m ∧ M ≤ k * M) ↔ (m ≤ 0 ∧ 0 ≤ M)) ∧
    (0 < m → m < k * m) ∧ (M < 0 → k * M < M) := by
  refine ⟨⟨?_, ?_⟩, ?_, ?_⟩
  · rintro ⟨h1, h2⟩
    constructor
    · by_contra hm
      push_neg at hm
      nlinarith
    · by_contra hM
      push_neg at hM
      nlinarith
  · rintro ⟨h1, h2⟩
    constructor <;> nlinarith
  · intro hm
    nlinarith
  · intro hM
    nlinarith

/-- A strictly positive smallest bin value is the value of some bin. -/
theorem binMinimum_mem_of_pos (h : TH1F) (hpos : 0 < h.binMinimum) :
    h.binMinimum ∈ h.contents := by
  have hne : h.contents ≠ [] := by
    intro hc
    simp [TH1F.binMinimum, hc] at hpos
  exact (binMinimum_spec h hne).2

/-- A strictly negative largest bin value is the value of some bin. -/
theorem binMaximum_mem_of_neg (h : TH1F) (hneg : h.binMaximum < 0) :
    h.binMaximum ∈ h.contents := by
  have hne : h.contents ≠ [] := by
    intro hc
    simp [TH1F.binMaximum, hc] at hneg
  exact (binMaximum_spec h hne).2

/-- C12: the headroom scaling of a time-vs-charge draw multiplies both extremes by one
factor above 1.  On the dual-phase path under RawAndCalibrated the raw buffer gets
minimum `1.2 * m` and maximum `1.2 * M`, with `m` and `M` the combined smallest and
largest bin values of the freshly filled raw and calibrated buffers; on the single-phase
path the frame buffer gets minimum `1.1 * m` and maximum `1.1 * M`, with `m` and `M` the
combined extremes reported by the two waveform tools.  In both cases the rendered range
contains `[m, M]` if and only if `m ≤ 0 ≤ M`; when `m` is strictly positive the rendered
minimum lies strictly above it, and when `M` is strictly negative the rendered maximum
lies strictly below it, so that (dual-phase) some bin value falls outside the rendered
range. -/
theorem headroom_scaling (env : Env) (pad : TQPad) (raw reco : TH1F) (evt : Event)
    (hraw : pad.fRawHisto = some raw) (hreco : pad.fRecoHisto = some reco)
    (hevt : env.evt = some evt) (hTQ : pad.fTQ = kTQ) :
    (evt.dprawhit = true → env.drawopt.fDrawRawDataOrCalibWires = kRAWCALIB →
      LayoutInvariant (env.recoBaseDraw.FillTQHistoDP evt pad.fPlane pad.fWire).2 →
      ∀ rawF recoF : TH1F,
      rawF = raw.Reset.FillAll (env.rawDataDraw.FillTQHisto evt pad.fPlane pad.fWire) →
      recoF = reco.Reset.FillAll (env.recoBaseDraw.FillTQHistoDP evt pad.fPlane pad.fWire).1 →
      ∃ pad' raw' m M, pad.Draw env = some pad' ∧ pad'.fRawHisto = some raw' ∧
        m = min rawF.binMinimum recoF.binMinimum ∧
        M = max rawF.binMaximum recoF.binMaximum ∧
        raw'.fMinimum = some (1.2 * m) ∧ raw'.fMaximum = some (1.2 * M) ∧
        ((1.2 * m ≤ m ∧ M ≤ 1.2 * M) ↔ (m ≤ 0 ∧ 0 ≤ M)) ∧
        (0 < m → m < 1.2 * m ∧ ∃ c ∈ rawF.contents ++ recoF.contents, c < 1.2 * m) ∧
        (M < 0 → 1.2 * M < M ∧ ∃ c ∈ rawF.contents ++ recoF.contents, 1.2 * M < c)) ∧
    (evt.dprawhit = false → ∀ frame, pad.fFrameHist = some frame →
      ∃ pad' frame' m M, pad.Draw env = some pad' ∧ pad'.fFrameHist = some frame' ∧
        m = min
          (env.fRawDigitDrawerTool.getMinimum
            (env.geo.PlaneWireToChannel pad.fPlane pad.fWire env.drawopt.fTPC
              env.drawopt.fCryostat)
            env.rawDataDraw.StartTick env.rawDataDraw.TotalClockTicks)
          (env.fWireDrawerTool.getMinimum
            (env.geo.PlaneWireToChannel pad.fPlane pad.fWire env.drawopt.fTPC
              env.drawopt.fCryostat)
            env.rawDataDraw.StartTick env.rawDataDraw.TotalClockTicks) ∧
        M = max
          (env.fRawDigitDrawerTool.getMaximum
            (env.geo.PlaneWireToChannel pad.fPlane pad.fWire env.drawopt.fTPC
              env.drawopt.fCryostat)
            env.rawDataDraw.StartTick env.rawDataDraw.TotalClockTicks)
          (env.fWireDrawerTool.getMaximum
            (env.geo.PlaneWireToChannel pad.fPlane pad.fWire env.drawopt.fTPC
              env.drawopt.fCryostat)
            env.rawDataDraw.StartTick env.rawDataDraw.TotalClockTicks) ∧
        frame'.fMinimum = some (1.1 * m) ∧ frame'.fMaximum = some (1.1 * M) ∧
        ((1.1 * m ≤ m ∧ M ≤ 1.1 * M) ↔ (m ≤ 0 ∧ 0 ≤ M)) ∧
        (0 < m → m < 1.1 * m) ∧ (M < 0 → 1.1 * M < M)) := by
  have k12 : (1 : ℚ) < 1.2 := by norm_num
  have k11 : (1 : ℚ) < 1.1 := by norm_num
  refine ⟨?_, ?_⟩
  · intro hdp hmode hinv rawF recoF hrawF hrecoF
    obtain ⟨pad', hd, _, _, _, _, hr, _⟩ :=
      drawDualPhase_TQ_buffers env evt pad raw reco hTQ (fun _ => hinv)
    rw [← hrawF, ← hrecoF] at hr
    obtain ⟨_, _, r3, r4⟩ := reset_fill_unset raw
      (env.rawDataDraw.FillTQHisto evt pad.fPlane pad.fWire)
    obtain ⟨_, _, c3, c4⟩ := reset_fill_unset reco
      (env.recoBaseDraw.FillTQHistoDP evt pad.fPlane pad.fWire).1
    rw [← hrawF] at r3 r4
    rw [← hrecoF] at c3 c4
    obtain ⟨m1, _⟩ := switchDP_minmax env.drawopt.fDrawRawDataOrCalibWires rawF recoF
      pad.fPad.Clear
    obtain ⟨a, b⟩ := m1 hmode
    rw [r3, c3] at a
    rw [r4, c4] at b
    obtain ⟨_, _, _, _, d5, d6⟩ := drawStyleDP_data
      (switchDP env.drawopt.fDrawRawDataOrCalibWires rawF recoF pad.fPad.Clear).1
    obtain ⟨hiff, hlo, hhi⟩ := headroom_contains_iff 1.2
      (min rawF.binMinimum recoF.binMinimum) (max rawF.binMaximum recoF.binMaximum) k12
    refine ⟨pad', _, _, _, ?_, hr, rfl, rfl, d5.trans b, d6.trans a, hiff, ?_, ?_⟩
    · rw [Draw_eq_dualPhase env pad raw reco evt hraw hreco hevt hdp]
      exact hd
    · intro hm
      refine ⟨hlo hm, ?_⟩
      rcases min_choice rawF.binMinimum recoF.binMinimum with h | h
      · refine ⟨rawF.binMinimum, ?_, ?_⟩
        · exact List.mem_append_left _ (binMinimum_mem_of_pos rawF (by rw [← h]; exact hm))
        · have := hlo hm
          rw [h] at this
          rw [h]
          exact this
      · refine ⟨recoF.binMinimum, ?_, ?_⟩
        · exact List.mem_append_right _ (binMinimum_mem_of_pos recoF (by rw [← h]; exact hm))
        · have := hlo hm
          rw [h] at this
          rw [h]
          exact this
    · intro hM
      refine ⟨hhi hM, ?_⟩
      rcases max_choice rawF.binMaximum recoF.binMaximum with h | h
      · refine ⟨rawF.binMaximum, ?_, ?_⟩
        · exact List.mem_append_left _ (binMaximum_mem_of_neg rawF (by rw [← h]; exact hM))
        · have := hhi hM
          rw [h] at this
          rw [h]
          exact this
      · refine ⟨recoF.binMaximum, ?_, ?_⟩
        · exact List.mem_append_right _ (binMaximum_mem_of_neg recoF (by rw [← h]; exact hM))
        · have := hhi hM
          rw [h] at this
          rw [h]
          exact this
  · intro hsp frame hframe
    obtain ⟨st', hd, f1, _, _⟩ := drawTQ_some env pad.fPlane pad.fWire
      { frame := pad.fFrameHist, raw := raw, reco := reco, fView := pad.fView,
        fHitFuncVec := [], fPad := pad.fPad.Clear } frame hframe
    obtain ⟨hiff, hlo, hhi⟩ := headroom_contains_iff 1.1
      (min
        (env.fRawDigitDrawerTool.getMinimum
          (env.geo.PlaneWireToChannel pad.fPlane pad.fWire env.drawopt.fTPC env.drawopt.fCryostat)
          env.rawDataDraw.StartTick env.rawDataDraw.TotalClockTicks)
        (env.fWireDrawerTool.getMinimum
          (env.geo.PlaneWireToChannel pad.fPlane pad.fWire env.drawopt.fTPC env.drawopt.fCryostat)
          env.rawDataDraw.StartTick env.rawDataDraw.TotalClockTicks))
      (max
        (env.fRawDigitDrawerTool.getMaximum
          (env.geo.PlaneWireToChannel pad.fPlane pad.fWire env.drawopt.fTPC env.drawopt.fCryostat)
          env.rawDataDraw.StartTick env.rawDataDraw.TotalClockTicks)
        (env.fWireDrawerTool.getMaximum
          (env.geo.PlaneWireToChannel pad.fPlane pad.fWire env.drawopt.fTPC env.drawopt.fCryostat)
          env.rawDataDraw.StartTick env.rawDataDraw.TotalClockTicks)) k11
    refine ⟨{ pad with fFrameHist := st'.frame, fRawHisto := some st'.raw,
                       fRecoHisto := some st'.reco, fView := st'.fView,
                       fHitFuncVec := st'.fHitFuncVec, fPad := st'.fPad }, _, _, _, ?_, f1, rfl,
      rfl, ?_, ?_, hiff, hlo, hhi⟩
    · rw [Draw_eq_singlePhase env pad raw reco evt hraw hreco hevt hsp,
        drawSinglePhase_TQ env pad raw reco hTQ, hd]
      rfl
    · simp [TH1F.SetMaximum, TH1F.SetMinimum, TH1F.SetTitleOffset]
    · simp [TH1F.SetMaximum, TH1F.SetMinimum, TH1F.SetTitleOffset]

/-- Witness of C12: waveforms on a positive baseline, reported range `[400, 500]`; the
frame buffer is rendered over `[440, 550]`, so the reported minimum lies below the
rendered range. -/
theorem headroom_scaling_witness :
    ∃ (pad' : TQPad) (frame' : TH1F), (samplePad kTQ).Draw baselineEnv = some pad' ∧
      pad'.fFrameHist = some frame' ∧
      frame'.fMinimum = some (440 : ℚ) ∧ frame'.fMaximum = some (550 : ℚ) ∧
      ¬ ((440 : ℚ) ≤ 400 ∧ (500 : ℚ) ≤ 550) ∧ (400 : ℚ) < 440 := by
  obtain ⟨pad', frame', m, M, hd, hf, hm, hM, hlo, hhi, hiff, hpos, _⟩ :=
    (headroom_scaling baselineEnv (samplePad kTQ) _ _ ⟨false, 1⟩ rfl rfl rfl rfl).2 rfl
      (TH1F.new "fFrameHist" "" 4 0 4) rfl
  have hm' : m = 400 := by
    rw [hm]
    simp [baselineEnv]
    norm_num
  have hM' : M = 500 := by
    rw [hM]
    simp [baselineEnv]
    norm_num
  subst hm' hM'
  refine ⟨pad', frame', hd, hf, ?_, ?_, ?_, ?_⟩
  · rw [hlo]
    norm_num
  · rw [hhi]
    norm_num
  · norm_num
  · norm_num

end evd
